import Mathlib

/-! The watcher of consul-timeline (`watch/watch.go`).

A shallow embedding of the `Watcher` of `watch/watch.go` and the properties of
its registries, its readiness barrier and its event identifiers.

Modelling conventions.

* A Go `map[string]T` is an association list `GoMap T`; a Go map holds every key
  once, which the list form states as `GoMap.WF` wherever a count of entries
  matters.  Go ranges over a map in an unspecified order: a loop over a map is a
  fold over the list, and a statement proved for every list covers every order.
  Likewise a node list of the source holds each node name once (a node's
  identity is its name); where the length of the list matters that is a
  hypothesis on the list.
* `w.services[name]` is a pointer to the variable `stop` that the goroutine
  started by `watchService` captures, next to its `idx` and `lastState`.  The
  registry entry is modelled as that record of captured variables
  (`serviceWatch`, `nodeWatch`): storing through the pointer writes the field
  `stop`, the goroutine's own assignments write `idx` and `lastState`, and the
  goroutine exists exactly while its entry does.
* One loop iteration of a goroutine is one atomic step.  What it asks of its
  collaborators (the long-poll source, the wait group, the diff functions that
  live in other files) is recorded, in order, as a list of `Effect`s; the
  result of a fetch is an argument of the step (`none` for an error).
* `uint32`, `uint64` values are naturals (no arithmetic is done on them), the
  `int32` counter `evtID` is an integer wrapped to 32 bits on every addition,
  and the counter of `sync.WaitGroup` is an integer: `Add(n)` adds `n`, `Done()`
  subtracts 1, and a goroutine that calls `Wait()` while the counter is not zero
  takes no step.  The integer may go below zero, where Go would panic.
* `time.Now().UTC()` is an argument of the step that reads it.
-/

namespace watch

/-- A Go `map[string]α`, as the list of its entries. -/
abbrev GoMap (α : Type) := List (String × α)

namespace GoMap

variable {α : Type}

/-- The keys a `range` over the map visits. -/
def keys (m : GoMap α) : List String := m.map Prod.fst

/-- The lookup `v, ok := m[s]`: `some v` when `ok`. -/
def lookup : GoMap α → String → Option α
  | [], _ => none
  | (k, v) :: m, s => if k = s then some v else lookup m s

/-- The test `_, ok := m[s]`. -/
def has (m : GoMap α) (s : String) : Bool := (lookup m s).isSome

/-- The assignment `m[s] = a`. -/
def store : GoMap α → String → α → GoMap α
  | [], s, a => [(s, a)]
  | (k, v) :: m, s, a => if k = s then (k, a) :: m else (k, v) :: store m s a

/-- The builtin `delete(m, s)`. -/
def delete (m : GoMap α) (s : String) : GoMap α := m.filter (fun e => decide (e.1 ≠ s))

/-- The builtin `len(m)`. -/
def len (m : GoMap α) : Nat := m.length

/-- Every key occurs once, as in any Go map. -/
def WF (m : GoMap α) : Prop := (keys m).Nodup

end GoMap

namespace structs

/-- The fields of consul's `structs.Node` the watcher reads. -/
structure Node where
  Node : String
  Address : String
deriving DecidableEq, Repr

/-- The fields of consul's `structs.HealthCheck` the watcher reads (`ServiceID`)
or hands on to the diff functions. -/
structure HealthCheck where
  Node : String
  CheckID : String
  Status : String
  ServiceID : String
deriving DecidableEq, Repr

abbrev HealthChecks := List HealthCheck

/-- One element of consul's `structs.CheckServiceNodes`. -/
structure CheckServiceNode where
  Node : Node
  Checks : HealthChecks
deriving DecidableEq, Repr

abbrev CheckServiceNodes := List CheckServiceNode

abbrev Nodes := List Node

abbrev Services := GoMap (List String)

/-- The part of `structs.IndexedServices` read by `watchServices`. -/
structure IndexedServices where
  Services : Services
  Index : Nat
deriving DecidableEq, Repr

/-- The part of `structs.IndexedNodes` read by `watchNodes`. -/
structure IndexedNodes where
  Nodes : Nodes
  Index : Nat
deriving DecidableEq, Repr

/-- The part of `structs.IndexedCheckServiceNodes` read by `watchService`. -/
structure IndexedCheckServiceNodes where
  Nodes : CheckServiceNodes
  Index : Nat
deriving DecidableEq, Repr

/-- The part of `structs.IndexedHealthChecks` read by `watchNode`. -/
structure IndexedHealthChecks where
  HealthChecks : HealthChecks
  Index : Nat
deriving DecidableEq, Repr

end structs

namespace tl

/-- Modelled from the spec: the type `tl.Status` of the package `timeline`, which
is not among the sources; the aggregated status is one of passing, warning,
critical and missing. -/
inductive Status where
  | passing
  | warning
  | critical
  | missing
deriving DecidableEq, Repr

/-- Modelled from the spec: the constant `tl.StatusMissing` of the package
`timeline`, the status of an empty check set. -/
def StatusMissing : Status := Status.missing

/-- Modelled from the spec: the fields of `tl.Event` that `handleNodeChanged`
sets; the type is declared in the package `timeline`, and the fields the base
event leaves at their zero value are left out. -/
structure Event where
  Time : Nat
  Datacenter : String
  NodeName : String
  NodeIP : String
  OldNodeStatus : Status
  NewNodeStatus : Status
deriving DecidableEq, Repr

end tl

/-- What a step asks of the collaborators of `watch.go`, in program order. -/
inductive Effect where
  /-- The call `w.readyWg.Add(n)`. -/
  | wgAdd (n : Nat)
  /-- The call `w.readyWg.Done()`. -/
  | wgDone
  /-- The call `w.readyWg.Wait()`. -/
  | wgWait
  /-- The call `w.c.Services(idx)`. -/
  | Services (idx : Nat)
  /-- The call `w.c.Service(idx, name)`. -/
  | Service (idx : Nat) (name : String)
  /-- The call `w.c.Nodes(idx)`. -/
  | Nodes (idx : Nat)
  /-- The call `w.c.Node(idx, name)`. -/
  | Node (idx : Nat) (name : String)
  /-- The call `time.Sleep(waitOnErr)`. -/
  | Sleep
  /-- The call `w.compareServiceStates(at, old, new)`. -/
  | compareServiceStates (time : Nat) (old new : structs.CheckServiceNodes)
  /-- The call `aggregatedStatus(checks)`. -/
  | aggregatedStatus (checks : structs.HealthChecks)
  /-- The call `w.compareChecks(base, old, new)`. -/
  | compareChecks (base : tl.Event) (old new : structs.HealthChecks)
deriving DecidableEq, Repr

/-- The variables the goroutine of `watchService` captures: `stop` (the target
of the registry's pointer), `idx` and `lastState`. -/
structure serviceWatch where
  stop : Nat
  idx : Nat
  lastState : structs.CheckServiceNodes
deriving DecidableEq, Repr

/-- The variables the goroutine of `watchNode` captures: `node`, `stop` (the
target of the registry's pointer), `idx` and `lastState`. -/
structure nodeWatch where
  node : structs.Node
  stop : Nat
  idx : Nat
  lastState : structs.HealthChecks
deriving DecidableEq, Repr

/-- The long-poll source as far as it is a value: `Datacenter()`.  Its four
fetch operations are the environment; their results are arguments of the steps. -/
structure consul where
  Datacenter : String
deriving DecidableEq, Repr

/-- The struct `Watcher`.  The mutex is implicit in the atomicity of the steps;
the channel `out` is written by `sendEvent`, which only code of other files
calls, and is left out. -/
structure Watcher where
  c : consul
  services : GoMap serviceWatch
  nodes : GoMap nodeWatch
  ready : Bool
  readyWg : Int
  evtID : Int
deriving DecidableEq, Repr

/-- The constructor `New`: empty registries, and the zero value of every other field. -/
def New (c : consul) (_bufferSize : Nat) : Watcher :=
  { c := c, services := [], nodes := [], ready := false, readyWg := 0, evtID := 0 }

namespace sort

/-- The library function `sort.Strings`: the ascending rearrangement of the
slice under Go's order of strings, the lexicographic comparison of their
characters.  Equal strings are indistinguishable, so the result does not depend
on the sorting algorithm. -/
def Strings (a : List String) : List String :=
  a.insertionSort (fun x y => x.toList ≤ y.toList)

end sort

/-- The method `Watcher.FilterEntries`, returning the result and the watcher it leaves. -/
def FilterEntries (w : Watcher) : List String × Watcher :=
  let res : List String := []
  let res := (GoMap.keys w.services).foldl (fun res s => res ++ [s]) res
  let res := (GoMap.keys w.nodes).foldl (fun res n => res ++ [n]) res
  (sort.Strings res, w)

/-- The statement `atomic.StoreUint32(w.services[s], v)`. -/
def storeServiceStop (w : Watcher) (s : String) (v : Nat) : Watcher :=
  match GoMap.lookup w.services s with
  | some g => { w with services := GoMap.store w.services s { g with stop := v } }
  | none => w

/-- The statement `atomic.StoreUint32(w.nodes[n], v)`. -/
def storeNodeStop (w : Watcher) (n : String) (v : Nat) : Watcher :=
  match GoMap.lookup w.nodes n with
  | some g => { w with nodes := GoMap.store w.nodes n { g with stop := v } }
  | none => w

/-- The method `Watcher.watchService` up to the `go` statement: a new `stop`
at 0 is registered under `name`; the goroutine starts with `idx` 0 and a nil
`lastState`. -/
def watchService (w : Watcher) (name : String) : Watcher :=
  let g : serviceWatch := { stop := 0, idx := 0, lastState := [] }
  { w with services := GoMap.store w.services name g }

/-- The method `Watcher.watchNode` up to the `go` statement. -/
def watchNode (w : Watcher) (node : structs.Node) : Watcher :=
  let g : nodeWatch := { node := node, stop := 0, idx := 0, lastState := [] }
  { w with nodes := GoMap.store w.nodes node.Node g }

/-- The body of the first loop of `handleServicesChanged`, for the key `s` of `services`. -/
def servicesLoop1 (w : Watcher) (s : String) : Watcher :=
  if GoMap.has w.services s then storeServiceStop w s 0 else watchService w s

/-- The body of the second loop of `handleServicesChanged`, for the key `s` of `w.services`. -/
def servicesLoop2 (services : structs.Services) (w : Watcher) (s : String) : Watcher :=
  if !GoMap.has services s then storeServiceStop w s 1 else w

/-- The method `Watcher.handleServicesChanged`. -/
def handleServicesChanged (w : Watcher) (services : structs.Services) : Watcher :=
  let w := (GoMap.keys services).foldl servicesLoop1 w
  (GoMap.keys w.services).foldl (servicesLoop2 services) w

/-- The map `new` of `handleNodesChanged`: every node under its name, a later
node of the list replacing an earlier one of the same name. -/
def nodesNew (nodes : structs.Nodes) : GoMap structs.Node :=
  nodes.foldl (fun new n => GoMap.store new n.Node n) []

/-- The body of the first loop of `handleNodesChanged`, for the entry `n, node` of `new`. -/
def nodesLoop1 (w : Watcher) (e : String × structs.Node) : Watcher :=
  if GoMap.has w.nodes e.1 then storeNodeStop w e.1 0 else watchNode w e.2

/-- The body of the second loop of `handleNodesChanged`, for the key `n` of `w.nodes`. -/
def nodesLoop2 (new : GoMap structs.Node) (w : Watcher) (n : String) : Watcher :=
  if !GoMap.has new n then storeNodeStop w n 1 else w

/-- The method `Watcher.handleNodesChanged`. -/
def handleNodesChanged (w : Watcher) (nodes : structs.Nodes) : Watcher :=
  let new := nodesNew nodes
  let w := new.foldl nodesLoop1 w
  (GoMap.keys w.nodes).foldl (nodesLoop2 new) w

/-- Two's-complement wrap of an integer to `int32`. -/
def wrapInt32 (x : Int) : Int := (x + 2147483648) % 4294967296 - 2147483648

namespace atomic

/-- The library function `atomic.AddInt32(addr, delta)`: the new value. -/
def AddInt32 (addr : Int) (delta : Int) : Int := wrapInt32 (addr + delta)

end atomic

/-- The method `Watcher.nextEventID`. -/
def nextEventID (w : Watcher) : Int × Watcher :=
  let v := atomic.AddInt32 w.evtID 1
  (v, { w with evtID := v })

/-- The filter loop of `watchNode`: `filteredChecks` starts as the empty prefix
`res.HealthChecks[:0]` and receives, in order, every check without a `ServiceID`. -/
def filteredChecks (checks : structs.HealthChecks) : structs.HealthChecks :=
  checks.foldl
    (fun filteredChecks c => if c.ServiceID = "" then filteredChecks ++ [c] else filteredChecks)
    []

/-- The method `Watcher.handleNodeChanged`, as the calls it makes: `aggregatedStatus`
(a function of another file, here the argument of that name) on the sets that are
not empty, then `compareChecks` (of another file) with the base event. -/
def handleNodeChanged (aggregatedStatus : structs.HealthChecks → tl.Status) (w : Watcher)
    (node : structs.Node) (time : Nat) (old new : structs.HealthChecks) : List Effect :=
  let oldStatus := tl.StatusMissing
  let newStatus := tl.StatusMissing
  let (oldStatus, e1) :=
    if old.length > 0 then (aggregatedStatus old, [Effect.aggregatedStatus old])
    else (oldStatus, [])
  let (newStatus, e2) :=
    if new.length > 0 then (aggregatedStatus new, [Effect.aggregatedStatus new])
    else (newStatus, [])
  let base : tl.Event :=
    { Time := time
      Datacenter := w.c.Datacenter
      NodeName := node.Node
      NodeIP := node.Address
      OldNodeStatus := oldStatus
      NewNodeStatus := newStatus }
  e1 ++ e2 ++ [Effect.compareChecks base old new]

/-- One iteration of the loop of the goroutine that `watchService` starts for
`name`, given the result of `w.c.Service(idx, name)` (`none` for an error).
No result (`none`) when no goroutine serves `name`. -/
def watchService.loop (w : Watcher) (name : String) (time : Nat)
    (res : Option structs.IndexedCheckServiceNodes) : Option (Watcher × List Effect) :=
  match GoMap.lookup w.services name with
  | none => none
  | some g =>
    if g.stop = 1 then
      some ({ w with services := GoMap.delete w.services name }, [])
    else
      match res with
      | none => some (w, [Effect.Service g.idx name, Effect.Sleep])
      | some res =>
        let first : Bool := decide (g.idx = 0) && !w.ready
        let w1 : Watcher := if first then { w with readyWg := w.readyWg - 1 } else w
        let diff : List Effect :=
          if decide (g.idx > 0) && w1.ready then
            [Effect.compareServiceStates time g.lastState res.Nodes]
          else []
        let g1 : serviceWatch := { g with lastState := res.Nodes, idx := res.Index }
        some ({ w1 with services := GoMap.store w1.services name g1 },
          [Effect.Service g.idx name] ++ (if first then [Effect.wgDone] else []) ++ diff)

/-- One iteration of the loop of the goroutine that `watchNode` starts for the
node registered as `name`, given the result of `w.c.Node(idx, node.Node)`.  No
result when no goroutine serves `name`, or while the goroutine is held in
`w.readyWg.Wait()`. -/
def watchNode.loop (aggregatedStatus : structs.HealthChecks → tl.Status) (w : Watcher)
    (name : String) (time : Nat) (res : Option structs.IndexedHealthChecks) :
    Option (Watcher × List Effect) :=
  match GoMap.lookup w.nodes name with
  | none => none
  | some g =>
    if g.idx > 0 ∧ w.readyWg ≠ 0 then none
    else
      let wait : List Effect := if g.idx > 0 then [Effect.wgWait] else []
      if g.stop = 1 then
        some ({ w with nodes := GoMap.delete w.nodes g.node.Node }, wait)
      else
        match res with
        | none => some (w, wait ++ [Effect.Node g.idx g.node.Node, Effect.Sleep])
        | some res =>
          let filteredChecks := filteredChecks res.HealthChecks
          let first : Bool := decide (g.idx = 0) && !w.ready
          let w1 : Watcher := if first then { w with readyWg := w.readyWg - 1 } else w
          let diff : List Effect :=
            if decide (g.idx > 0) && w1.ready then
              handleNodeChanged aggregatedStatus w1 g.node time g.lastState filteredChecks
            else []
          let g1 : nodeWatch := { g with lastState := filteredChecks, idx := res.Index }
          some ({ w1 with nodes := GoMap.store w1.nodes name g1 },
            wait ++ [Effect.Node g.idx g.node.Node] ++ (if first then [Effect.wgDone] else []) ++
              diff)

/-- One iteration of the loop of `watchServices`, whose variable `idx` is passed
in and out, given the result of `w.c.Services(idx)`.  No result while the
goroutine is held in `w.readyWg.Wait()`. -/
def watchServices.loop (w : Watcher) (idx : Nat) (res : Option structs.IndexedServices) :
    Option (Watcher × Nat × List Effect) :=
  if idx > 0 ∧ w.readyWg ≠ 0 then none
  else
    let wait : List Effect := if idx > 0 then [Effect.wgWait] else []
    match res with
    | none => some (w, idx, wait ++ [Effect.Services idx, Effect.Sleep])
    | some res =>
      let init : Bool := decide (idx = 0)
      let w1 : Watcher :=
        if init then { w with readyWg := w.readyWg + (GoMap.len res.Services : Int) - 1 } else w
      let w2 := handleServicesChanged w1 res.Services
      some (w2, res.Index, wait ++ [Effect.Services idx] ++
        (if init then [Effect.wgAdd (GoMap.len res.Services), Effect.wgDone] else []))

/-- One iteration of the loop of `watchNodes`, whose variable `idx` is passed in
and out, given the result of `w.c.Nodes(idx)`.  No result while the goroutine is
held in `w.readyWg.Wait()`. -/
def watchNodes.loop (w : Watcher) (idx : Nat) (res : Option structs.IndexedNodes) :
    Option (Watcher × Nat × List Effect) :=
  if idx > 0 ∧ w.readyWg ≠ 0 then none
  else
    let wait : List Effect := if idx > 0 then [Effect.wgWait] else []
    match res with
    | none => some (w, idx, wait ++ [Effect.Nodes idx, Effect.Sleep])
    | some res =>
      let init : Bool := decide (idx = 0) && !w.ready
      let w1 : Watcher :=
        if init then { w with readyWg := w.readyWg + (res.Nodes.length : Int) - 1 } else w
      let w2 := handleNodesChanged w1 res.Nodes
      some (w2, res.Index, wait ++ [Effect.Nodes idx] ++
        (if init then [Effect.wgAdd res.Nodes.length, Effect.wgDone] else []))

/-- The method `Run` up to its `Wait`: the wait group is armed with 2, one for
each of the two reconcilers the `go` statements start. -/
def Run.arm (w : Watcher) : Watcher := { w with readyWg := w.readyWg + 2 }

/-- The method `Run` from its `Wait` on: once the counter is zero, `ready` is set. -/
def Run.finish (w : Watcher) : Option Watcher :=
  if w.readyWg = 0 then some { w with ready := true } else none

/-- The watcher together with the variable `idx` of each of the two reconcilers. -/
structure System where
  w : Watcher
  servicesIdx : Nat
  nodesIdx : Nat
deriving DecidableEq, Repr

/-- The goroutines of the watcher. -/
inductive Actor where
  | watchServices
  | watchNodes
  | watchService (name : String)
  | watchNode (name : String)
deriving DecidableEq, Repr

/-- One loop iteration of one goroutine, with the result of its fetch. -/
inductive Action where
  | watchServices (res : Option structs.IndexedServices)
  | watchNodes (res : Option structs.IndexedNodes)
  | watchService (name : String) (time : Nat) (res : Option structs.IndexedCheckServiceNodes)
  | watchNode (name : String) (time : Nat) (res : Option structs.IndexedHealthChecks)
deriving DecidableEq, Repr

/-- The goroutine that takes the step. -/
def Action.actor : Action → Actor
  | Action.watchServices _ => Actor.watchServices
  | Action.watchNodes _ => Actor.watchNodes
  | Action.watchService name _ _ => Actor.watchService name
  | Action.watchNode name _ _ => Actor.watchNode name

/-- Whether the fetch of the step succeeds. -/
def Action.ok : Action → Bool
  | Action.watchServices res => res.isSome
  | Action.watchNodes res => res.isSome
  | Action.watchService _ _ res => res.isSome
  | Action.watchNode _ _ res => res.isSome

/-- One step of the system: the loop iteration the action names. -/
def step (aggregatedStatus : structs.HealthChecks → tl.Status) (s : System) :
    Action → Option (System × List Effect)
  | Action.watchServices res =>
    match watchServices.loop s.w s.servicesIdx res with
    | none => none
    | some (w, idx, tr) => some ({ s with w := w, servicesIdx := idx }, tr)
  | Action.watchNodes res =>
    match watchNodes.loop s.w s.nodesIdx res with
    | none => none
    | some (w, idx, tr) => some ({ s with w := w, nodesIdx := idx }, tr)
  | Action.watchService name time res =>
    match watchService.loop s.w name time res with
    | none => none
    | some (w, tr) => some ({ s with w := w }, tr)
  | Action.watchNode name time res =>
    match watchNode.loop aggregatedStatus s.w name time res with
    | none => none
    | some (w, tr) => some ({ s with w := w }, tr)

/-- A schedule: the steps taken one after the other, and the effects in order. -/
def run (aggregatedStatus : structs.HealthChecks → tl.Status) :
    System → List Action → Option (System × List Effect)
  | s, [] => some (s, [])
  | s, a :: as =>
    match step aggregatedStatus s a with
    | none => none
    | some (s1, tr1) =>
      match run aggregatedStatus s1 as with
      | none => none
      | some (s2, tr2) => some (s2, tr1 ++ tr2)

/-- The system when `Run` has built nothing but the armed barrier: a watcher
from `New`, armed, and both reconcilers at the head of their loop. -/
def System.armed (c : consul) (bufferSize : Nat) : System :=
  { w := Run.arm (New c bufferSize), servicesIdx := 0, nodesIdx := 0 }

/-- The identifiers returned by `n` successive calls of `nextEventID`. -/
def nextEventIDs : Nat → Watcher → List Int
  | 0, _ => []
  | n + 1, w => (nextEventID w).1 :: nextEventIDs n (nextEventID w).2

/-- Modelled from the spec: `aggregatedStatus`, a function of another file of the
package: the worst status present in a check set under critical > warning >
passing.  It instantiates the argument `aggregatedStatus` at concrete inputs. -/
def aggregatedStatus (checks : structs.HealthChecks) : tl.Status :=
  if checks.any (fun c => c.Status = "critical") then tl.Status.critical
  else if checks.any (fun c => c.Status = "warning") then tl.Status.warning
  else tl.Status.passing

/-! ## Vocabulary of the statements -/

/-- Every field but `services` agrees. -/
def sameButServices (w w1 : Watcher) : Prop :=
  w1.c = w.c ∧ w1.nodes = w.nodes ∧ w1.ready = w.ready ∧ w1.readyWg = w.readyWg ∧
    w1.evtID = w.evtID

/-- Every field but `nodes` agrees. -/
def sameButNodes (w w1 : Watcher) : Prop :=
  w1.c = w.c ∧ w1.services = w.services ∧ w1.ready = w.ready ∧ w1.readyWg = w.readyWg ∧
    w1.evtID = w.evtID

/-- The entry a reconciliation leaves for a listed service name: the old one
with `stop` at 0, or a new one. -/
def reviveService : Option serviceWatch → serviceWatch
  | some g => { g with stop := 0 }
  | none => { stop := 0, idx := 0, lastState := [] }

/-- The entry a reconciliation leaves for a listed node name: the old one with
`stop` at 0, or a new one for the node `new` holds under the name. -/
def reviveNode (node : Option structs.Node) : Option nodeWatch → Option nodeWatch
  | some g => some { g with stop := 0 }
  | none => node.map (fun n => { node := n, stop := 0, idx := 0, lastState := [] })

/-- Every entry holds a node of the name it is filed under. -/
def namedNodes (new : GoMap structs.Node) : Prop := ∀ e ∈ new, e.2.Node = e.1

/-- The calls of the diff functions among the effects. -/
def Effect.isDiff : Effect → Bool
  | Effect.compareServiceStates _ _ _ => true
  | Effect.aggregatedStatus _ => true
  | Effect.compareChecks _ _ _ => true
  | _ => false

/-- The fetches from the long-poll source among the effects. -/
def Effect.isFetch : Effect → Bool
  | Effect.Services _ => true
  | Effect.Service _ _ => true
  | Effect.Nodes _ => true
  | Effect.Node _ _ => true
  | _ => false

/-- The number of `w.readyWg.Done()` among the effects. -/
def wgDones (tr : List Effect) : Nat := tr.count Effect.wgDone

/-- The arguments of `w.readyWg.Add` among the effects, in order. -/
def wgAdds : List Effect → List Nat
  | [] => []
  | Effect.wgAdd n :: tr => n :: wgAdds tr
  | _ :: tr => wgAdds tr

/-- The result of the first fetch that succeeds. -/
def firstOk {ρ : Type} : List (Option ρ) → Option ρ
  | [] => none
  | some r :: _ => some r
  | none :: rs => firstOk rs

/-- The goroutines that have completed a successful fetch in the schedule. -/
def fetched (as : List Action) : List Actor := (as.filter Action.ok).map Action.actor

/-- Whether the index the fetch of the step returns, if it succeeds, is positive. -/
def Action.positive : Action → Bool
  | Action.watchServices (some r) => decide (0 < r.Index)
  | Action.watchNodes (some r) => decide (0 < r.Index)
  | Action.watchService _ _ (some r) => decide (0 < r.Index)
  | Action.watchNode _ _ (some r) => decide (0 < r.Index)
  | _ => true

/-- How many of the names have a goroutine (`f` of the name) outside `D`. -/
def countNot (D : List Actor) (f : String → Actor) (L : List String) : Nat :=
  (L.filter (fun n => !decide (f n ∈ D))).length

/-- The countdowns the barrier still awaits when the goroutines of `D` have
fetched: one for each reconciler and one for each registered sub-watcher that is
not in `D`. -/
def pending (D : List Actor) (s : System) : Nat :=
  (if Actor.watchServices ∈ D then 0 else 1) + (if Actor.watchNodes ∈ D then 0 else 1) +
    countNot D Actor.watchService (GoMap.keys s.w.services) +
    countNot D Actor.watchNode (GoMap.keys s.w.nodes)

/-- Every goroutine of the startup has fetched: both reconcilers and the
sub-watcher of every registered name. -/
def allFetched (D : List Actor) (s : System) : Prop :=
  Actor.watchServices ∈ D ∧ Actor.watchNodes ∈ D ∧
    (∀ n ∈ GoMap.keys s.w.services, Actor.watchService n ∈ D) ∧
    (∀ n ∈ GoMap.keys s.w.nodes, Actor.watchNode n ∈ D)

/-- The invariant of the startup: the state after the schedule `pre`, in which
each reconciler has at most one successful fetch and every successful fetch
returns a positive index. -/
structure StartupInv (pre : List Action) (s : System) : Prop where
  counter : s.w.readyWg = (pending (fetched pre) s : Int)
  notReady : s.w.ready = false
  servicesFirst : Actor.watchServices ∉ fetched pre → s.w.services = [] ∧ s.servicesIdx = 0
  nodesFirst : Actor.watchNodes ∉ fetched pre → s.w.nodes = [] ∧ s.nodesIdx = 0
  serviceSub : ∀ n g, GoMap.lookup s.w.services n = some g →
    g.stop = 0 ∧ (Actor.watchService n ∉ fetched pre → g.idx = 0) ∧
      (Actor.watchService n ∈ fetched pre → 0 < g.idx)
  nodeSub : ∀ n g, GoMap.lookup s.w.nodes n = some g →
    g.stop = 0 ∧ (Actor.watchNode n ∉ fetched pre → g.idx = 0) ∧
      (Actor.watchNode n ∈ fetched pre → 0 < g.idx)
  serviceReg : ∀ n, Actor.watchService n ∈ fetched pre → n ∈ GoMap.keys s.w.services
  nodeReg : ∀ n, Actor.watchNode n ∈ fetched pre → n ∈ GoMap.keys s.w.nodes
  servicesWF : GoMap.WF s.w.services
  nodesWF : GoMap.WF s.w.nodes
  servicesList : ∀ r, Action.watchServices (some r) ∈ pre →
    GoMap.keys s.w.services = GoMap.keys r.Services
  nodesList : ∀ r, Action.watchNodes (some r) ∈ pre →
    GoMap.keys s.w.nodes = r.Nodes.map structs.Node.Node

/-- Every entry of the nodes registry is filed under the name of the node its
goroutine captured, as `watchNode` files it. -/
def nodesNamed (w : Watcher) : Prop :=
  ∀ n g, GoMap.lookup w.nodes n = some g → g.node.Node = n

/-! # Theorems -/

/-! ## Go maps -/

namespace GoMap

variable {α : Type}

theorem keys_cons (e : String × α) (m : GoMap α) : keys (e :: m) = e.1 :: keys m := rfl

theorem lookup_eq_none_iff (m : GoMap α) (s : String) : lookup m s = none ↔ s ∉ keys m := by
  induction m with
  | nil => simp [lookup, keys]
  | cons e m ih =>
    obtain ⟨k, v⟩ := e
    by_cases h : k = s
    · simp [lookup, keys_cons, h]
    · have h2 : ¬ s = k := fun h3 => h h3.symm
      simp [lookup, keys_cons, h, h2, ih]

theorem has_iff (m : GoMap α) (s : String) : has m s = true ↔ s ∈ keys m := by
  unfold has
  rw [Option.isSome_iff_ne_none, Ne, lookup_eq_none_iff, not_not]

theorem has_eq_false_iff (m : GoMap α) (s : String) : has m s = false ↔ s ∉ keys m := by
  rw [← has_iff, Bool.not_eq_true]

theorem lookup_isSome_of_mem (m : GoMap α) (s : String) (h : s ∈ keys m) :
    ∃ a, lookup m s = some a := by
  cases hl : lookup m s with
  | none => exact absurd h ((lookup_eq_none_iff m s).1 hl)
  | some a => exact ⟨a, rfl⟩

theorem mem_keys_of_lookup (m : GoMap α) (s : String) (a : α) (h : lookup m s = some a) :
    s ∈ keys m := by
  by_contra hn
  rw [(lookup_eq_none_iff m s).2 hn] at h
  cases h

theorem lookup_store_self (m : GoMap α) (s : String) (a : α) : lookup (store m s a) s = some a := by
  induction m with
  | nil => simp [store, lookup]
  | cons e m ih =>
    obtain ⟨k, v⟩ := e
    by_cases h : k = s
    · simp [store, lookup, h]
    · simp [store, lookup, h, ih]

theorem lookup_store_ne (m : GoMap α) (s t : String) (a : α) (h : t ≠ s) :
    lookup (store m s a) t = lookup m t := by
  induction m with
  | nil =>
    have h2 : ¬ s = t := fun h3 => h h3.symm
    simp [store, lookup, h2]
  | cons e m ih =>
    obtain ⟨k, v⟩ := e
    by_cases hk : k = s
    · subst hk
      have h2 : ¬ k = t := fun h3 => h h3.symm
      simp [store, lookup, h2]
    · by_cases hkt : k = t
      · subst hkt
        simp [store, lookup, hk]
      · simp [store, lookup, hk, hkt, ih]

theorem keys_store_of_mem (m : GoMap α) (s : String) (a : α) (h : s ∈ keys m) :
    keys (store m s a) = keys m := by
  induction m with
  | nil => simp [keys] at h
  | cons e m ih =>
    obtain ⟨k, v⟩ := e
    by_cases hk : k = s
    · simp [store, keys_cons, hk]
    · have h2 : s ∈ keys m := by
        rw [keys_cons] at h
        rcases List.mem_cons.1 h with h3 | h3
        · exact absurd h3.symm hk
        · exact h3
      simp [store, keys_cons, hk, ih h2]

theorem keys_store_of_not_mem (m : GoMap α) (s : String) (a : α) (h : s ∉ keys m) :
    keys (store m s a) = keys m ++ [s] := by
  induction m with
  | nil => simp [store, keys]
  | cons e m ih =>
    obtain ⟨k, v⟩ := e
    rw [keys_cons] at h
    have hk : ¬ k = s := fun h3 => h (by simp [h3])
    have h2 : s ∉ keys m := fun h3 => h (List.mem_cons_of_mem _ h3)
    simp [store, keys_cons, hk, ih h2]

theorem mem_keys_store (m : GoMap α) (s t : String) (a : α) :
    t ∈ keys (store m s a) ↔ t ∈ keys m ∨ t = s := by
  by_cases h : s ∈ keys m
  · rw [keys_store_of_mem m s a h]
    constructor
    · exact Or.inl
    · rintro (h1 | h1)
      · exact h1
      · exact h1 ▸ h
  · rw [keys_store_of_not_mem m s a h]
    simp

theorem delete_cons (k : String) (v : α) (m : GoMap α) (s : String) :
    delete ((k, v) :: m) s = if k = s then delete m s else (k, v) :: delete m s := by
  unfold delete
  by_cases hk : k = s
  · simp [List.filter_cons, hk]
  · simp [List.filter_cons, hk]

theorem mem_keys_delete (m : GoMap α) (s t : String) :
    t ∈ keys (delete m s) ↔ t ∈ keys m ∧ t ≠ s := by
  induction m with
  | nil => simp [delete, keys]
  | cons e m ih =>
    obtain ⟨k, v⟩ := e
    rw [delete_cons]
    by_cases hk : k = s
    · subst hk
      rw [if_pos rfl, ih, keys_cons, List.mem_cons]
      constructor
      · rintro ⟨h1, h2⟩
        exact ⟨Or.inr h1, h2⟩
      · rintro ⟨h1 | h1, h2⟩
        · exact absurd h1 h2
        · exact ⟨h1, h2⟩
    · rw [if_neg hk, keys_cons, keys_cons, List.mem_cons, List.mem_cons, ih]
      constructor
      · rintro (h1 | ⟨h1, h2⟩)
        · exact ⟨Or.inl h1, fun h3 => hk (h1.symm.trans h3)⟩
        · exact ⟨Or.inr h1, h2⟩
      · rintro ⟨h1 | h1, h2⟩
        · exact Or.inl h1
        · exact Or.inr ⟨h1, h2⟩

theorem lookup_delete_ne (m : GoMap α) (s t : String) (h : t ≠ s) :
    lookup (delete m s) t = lookup m t := by
  induction m with
  | nil => simp [delete, lookup]
  | cons e m ih =>
    obtain ⟨k, v⟩ := e
    rw [delete_cons]
    by_cases hk : k = s
    · subst hk
      have h2 : ¬ k = t := fun h3 => h h3.symm
      rw [if_pos rfl, ih]
      simp [lookup, h2]
    · rw [if_neg hk]
      by_cases hkt : k = t
      · simp [lookup, hkt]
      · simp [lookup, hkt, ih]

theorem lookup_delete_self (m : GoMap α) (s : String) : lookup (delete m s) s = none := by
  rw [lookup_eq_none_iff, mem_keys_delete]
  exact fun h => h.2 rfl

end GoMap

/-! ## Reconciliation of the services registry -/

theorem lookup_storeServiceStop (w : Watcher) (s t : String) (v : Nat) :
    GoMap.lookup (storeServiceStop w s v).services t =
      if t = s then (GoMap.lookup w.services s).map (fun g => { g with stop := v })
      else GoMap.lookup w.services t := by
  unfold storeServiceStop
  cases hl : GoMap.lookup w.services s with
  | none =>
    by_cases h : t = s
    · simp [h, hl]
    · simp [h]
  | some g =>
    by_cases h : t = s
    · subst h
      simp [GoMap.lookup_store_self]
    · simp [h, GoMap.lookup_store_ne _ _ _ _ h]

theorem keys_storeServiceStop (w : Watcher) (s : String) (v : Nat) :
    GoMap.keys (storeServiceStop w s v).services = GoMap.keys w.services := by
  unfold storeServiceStop
  cases hl : GoMap.lookup w.services s with
  | none => rfl
  | some g => exact GoMap.keys_store_of_mem _ _ _ (GoMap.mem_keys_of_lookup _ _ _ hl)

theorem sameButServices_refl (w : Watcher) : sameButServices w w := ⟨rfl, rfl, rfl, rfl, rfl⟩

theorem sameButServices_trans {a b c : Watcher} (h1 : sameButServices a b)
    (h2 : sameButServices b c) : sameButServices a c :=
  ⟨h2.1.trans h1.1, h2.2.1.trans h1.2.1, h2.2.2.1.trans h1.2.2.1,
    h2.2.2.2.1.trans h1.2.2.2.1, h2.2.2.2.2.trans h1.2.2.2.2⟩

theorem sameButServices_storeServiceStop (w : Watcher) (s : String) (v : Nat) :
    sameButServices w (storeServiceStop w s v) := by
  unfold storeServiceStop
  cases GoMap.lookup w.services s with
  | none => exact sameButServices_refl w
  | some g => exact ⟨rfl, rfl, rfl, rfl, rfl⟩

theorem sameButServices_watchService (w : Watcher) (s : String) :
    sameButServices w (watchService w s) := ⟨rfl, rfl, rfl, rfl, rfl⟩

theorem handleServicesChanged_eq (w : Watcher) (services : structs.Services) :
    handleServicesChanged w services =
      (GoMap.keys ((GoMap.keys services).foldl servicesLoop1 w).services).foldl
        (servicesLoop2 services) ((GoMap.keys services).foldl servicesLoop1 w) := rfl

theorem lookup_servicesLoop1 (w : Watcher) (s t : String) :
    GoMap.lookup (servicesLoop1 w s).services t =
      if t = s then some (reviveService (GoMap.lookup w.services s))
      else GoMap.lookup w.services t := by
  unfold servicesLoop1
  cases hl : GoMap.lookup w.services s with
  | none =>
    have hh : GoMap.has w.services s = false := by simp [GoMap.has, hl]
    rw [hh]
    by_cases h : t = s
    · subst h
      simp [watchService, GoMap.lookup_store_self, reviveService]
    · simp [watchService, GoMap.lookup_store_ne _ _ _ _ h, h]
  | some g =>
    have hh : GoMap.has w.services s = true := by simp [GoMap.has, hl]
    rw [hh, if_pos rfl, lookup_storeServiceStop, hl]
    rfl

theorem sameButServices_servicesLoop1 (w : Watcher) (s : String) :
    sameButServices w (servicesLoop1 w s) := by
  unfold servicesLoop1
  split
  · exact sameButServices_storeServiceStop w s 0
  · exact sameButServices_watchService w s

theorem reviveService_idem (o : Option serviceWatch) :
    reviveService (some (reviveService o)) = reviveService o := by
  cases o <;> rfl

theorem lookup_foldl_servicesLoop1 (L : List String) (w : Watcher) (t : String) :
    GoMap.lookup (L.foldl servicesLoop1 w).services t =
      if t ∈ L then some (reviveService (GoMap.lookup w.services t))
      else GoMap.lookup w.services t := by
  induction L generalizing w with
  | nil => simp
  | cons s L ih =>
    rw [List.foldl_cons, ih, lookup_servicesLoop1]
    by_cases h : t = s
    · subst h
      simp [reviveService_idem]
    · simp [h]

theorem sameButServices_foldl_servicesLoop1 (L : List String) (w : Watcher) :
    sameButServices w (L.foldl servicesLoop1 w) := by
  induction L generalizing w with
  | nil => exact sameButServices_refl w
  | cons s L ih =>
    exact sameButServices_trans (sameButServices_servicesLoop1 w s) (ih _)

theorem keys_foldl_servicesLoop1 (L : List String) (w : Watcher) (hL : L.Nodup)
    (hd : ∀ s ∈ L, s ∉ GoMap.keys w.services) :
    GoMap.keys (L.foldl servicesLoop1 w).services = GoMap.keys w.services ++ L := by
  induction L generalizing w with
  | nil => simp
  | cons s L ih =>
    have hs : s ∉ GoMap.keys w.services := hd s (List.mem_cons_self _ _)
    have hk : GoMap.keys (servicesLoop1 w s).services = GoMap.keys w.services ++ [s] := by
      unfold servicesLoop1
      rw [(GoMap.has_eq_false_iff _ _).2 hs]
      exact GoMap.keys_store_of_not_mem _ _ _ hs
    rw [List.foldl_cons, ih _ (List.nodup_cons.1 hL).2, hk]
    · simp
    · intro u hu
      rw [hk]
      intro hmem
      rcases List.mem_append.1 hmem with h1 | h1
      · exact hd u (List.mem_cons_of_mem _ hu) h1
      · have : u = s := by simpa using h1
        exact (List.nodup_cons.1 hL).1 (this ▸ hu)

theorem lookup_servicesLoop2 (services : structs.Services) (w : Watcher) (s t : String) :
    GoMap.lookup (servicesLoop2 services w s).services t =
      (GoMap.lookup w.services t).map
        (fun g => if t = s ∧ s ∉ GoMap.keys services then { g with stop := 1 } else g) := by
  unfold servicesLoop2
  by_cases hs : s ∈ GoMap.keys services
  · rw [(GoMap.has_iff _ _).2 hs]
    simp [hs]
  · rw [(GoMap.has_eq_false_iff _ _).2 hs]
    simp only [Bool.not_false, if_true, lookup_storeServiceStop]
    by_cases h : t = s
    · subst h
      simp [hs]
    · simp [h]

theorem keys_servicesLoop2 (services : structs.Services) (w : Watcher) (s : String) :
    GoMap.keys (servicesLoop2 services w s).services = GoMap.keys w.services := by
  unfold servicesLoop2
  split
  · exact keys_storeServiceStop w s 1
  · rfl

theorem sameButServices_servicesLoop2 (services : structs.Services) (w : Watcher) (s : String) :
    sameButServices w (servicesLoop2 services w s) := by
  unfold servicesLoop2
  split
  · exact sameButServices_storeServiceStop w s 1
  · exact sameButServices_refl w

theorem lookup_foldl_servicesLoop2 (services : structs.Services) (L : List String) (w : Watcher)
    (t : String) :
    GoMap.lookup (L.foldl (servicesLoop2 services) w).services t =
      (GoMap.lookup w.services t).map
        (fun g => if t ∈ L ∧ t ∉ GoMap.keys services then { g with stop := 1 } else g) := by
  induction L generalizing w with
  | nil => simp
  | cons s L ih =>
    rw [List.foldl_cons, ih, lookup_servicesLoop2]
    cases GoMap.lookup w.services t with
    | none => rfl
    | some g =>
      simp only [Option.map_some']
      by_cases h : t = s
      · subst h
        by_cases h2 : t ∈ GoMap.keys services
        · simp [h2]
        · by_cases h3 : t ∈ L
          · simp [h2, h3]
          · simp [h2, h3]
      · simp [h]

theorem keys_foldl_servicesLoop2 (services : structs.Services) (L : List String) (w : Watcher) :
    GoMap.keys (L.foldl (servicesLoop2 services) w).services = GoMap.keys w.services := by
  induction L generalizing w with
  | nil => rfl
  | cons s L ih => rw [List.foldl_cons, ih, keys_servicesLoop2]

theorem sameButServices_foldl_servicesLoop2 (services : structs.Services) (L : List String)
    (w : Watcher) : sameButServices w (L.foldl (servicesLoop2 services) w) := by
  induction L generalizing w with
  | nil => exact sameButServices_refl w
  | cons s L ih =>
    exact sameButServices_trans (sameButServices_servicesLoop2 services w s) (ih _)

/-- What `handleServicesChanged` leaves under every name. -/
theorem lookup_handleServicesChanged (w : Watcher) (services : structs.Services) (t : String) :
    GoMap.lookup (handleServicesChanged w services).services t =
      if t ∈ GoMap.keys services then some (reviveService (GoMap.lookup w.services t))
      else (GoMap.lookup w.services t).map (fun g => { g with stop := 1 }) := by
  rw [handleServicesChanged_eq, lookup_foldl_servicesLoop2, lookup_foldl_servicesLoop1]
  by_cases h : t ∈ GoMap.keys services
  · simp [h]
  · simp only [h, if_false, not_false_eq_true, and_true]
    cases hl : GoMap.lookup w.services t with
    | none => rfl
    | some g =>
      have hm : t ∈ GoMap.keys ((GoMap.keys services).foldl servicesLoop1 w).services := by
        apply GoMap.mem_keys_of_lookup _ _ g
        rw [lookup_foldl_servicesLoop1, if_neg h, hl]
      simp [hm]

theorem sameButServices_handleServicesChanged (w : Watcher) (services : structs.Services) :
    sameButServices w (handleServicesChanged w services) := by
  rw [handleServicesChanged_eq]
  exact sameButServices_trans (sameButServices_foldl_servicesLoop1 _ w)
    (sameButServices_foldl_servicesLoop2 _ _ _)

theorem mem_keys_iff_lookup {α : Type} (m : GoMap α) (t : String) :
    t ∈ GoMap.keys m ↔ GoMap.lookup m t ≠ none := by
  rw [Ne, GoMap.lookup_eq_none_iff, not_not]

theorem mem_keys_handleServicesChanged (w : Watcher) (services : structs.Services) (t : String) :
    t ∈ GoMap.keys (handleServicesChanged w services).services ↔
      t ∈ GoMap.keys w.services ∨ t ∈ GoMap.keys services := by
  rw [mem_keys_iff_lookup (handleServicesChanged w services).services t,
    lookup_handleServicesChanged, mem_keys_iff_lookup w.services t]
  by_cases h : t ∈ GoMap.keys services
  · simp [h]
  · cases GoMap.lookup w.services t <;> simp [h]

theorem keys_handleServicesChanged_nil (w : Watcher) (services : structs.Services)
    (hw : w.services = []) (hS : GoMap.WF services) :
    GoMap.keys (handleServicesChanged w services).services = GoMap.keys services := by
  rw [handleServicesChanged_eq, keys_foldl_servicesLoop2, keys_foldl_servicesLoop1 _ _ hS]
  · simp [hw, GoMap.keys]
  · intro s _
    simp [hw, GoMap.keys]

/-! ## Reconciliation of the nodes registry -/

theorem GoMap.mem_store {α : Type} (m : GoMap α) (s : String) (a : α) (e : String × α)
    (h : e ∈ GoMap.store m s a) : e ∈ m ∨ e = (s, a) := by
  induction m with
  | nil =>
    right
    simpa [GoMap.store] using h
  | cons x m ih =>
    obtain ⟨k, v⟩ := x
    by_cases hk : k = s
    · subst hk
      simp only [GoMap.store, if_true, List.mem_cons] at h
      rcases h with h | h
      · exact Or.inr h
      · exact Or.inl (List.mem_cons_of_mem _ h)
    · simp only [GoMap.store, hk, if_false, List.mem_cons] at h
      rcases h with h | h
      · exact Or.inl (h ▸ List.mem_cons_self _ _)
      · rcases ih h with h1 | h1
        · exact Or.inl (List.mem_cons_of_mem _ h1)
        · exact Or.inr h1

theorem GoMap.mem_of_lookup {α : Type} (m : GoMap α) (s : String) (a : α)
    (h : GoMap.lookup m s = some a) : (s, a) ∈ m := by
  induction m with
  | nil => simp [GoMap.lookup] at h
  | cons x m ih =>
    obtain ⟨k, v⟩ := x
    by_cases hk : k = s
    · subst hk
      simp only [GoMap.lookup, if_true, Option.some.injEq] at h
      subst h
      exact List.mem_cons_self _ _
    · simp only [GoMap.lookup, hk, if_false] at h
      exact List.mem_cons_of_mem _ (ih h)

theorem nodesNamed_of_forall (w : Watcher) (h : ∀ e ∈ w.nodes, e.2.node.Node = e.1) :
    nodesNamed w := by
  intro n g hg
  exact h (n, g) (GoMap.mem_of_lookup _ _ _ hg)

theorem GoMap.WF_store {α : Type} (m : GoMap α) (s : String) (a : α) (h : GoMap.WF m) :
    GoMap.WF (GoMap.store m s a) := by
  unfold GoMap.WF at h ⊢
  by_cases hs : s ∈ GoMap.keys m
  · rw [GoMap.keys_store_of_mem m s a hs]
    exact h
  · rw [GoMap.keys_store_of_not_mem m s a hs]
    exact List.Nodup.append h (List.nodup_singleton s) (by
      intro x hx hx2
      have : x = s := by simpa using hx2
      exact hs (this ▸ hx))

theorem nodesNew_aux (nodes : structs.Nodes) (m : GoMap structs.Node) (hm : namedNodes m)
    (hwf : GoMap.WF m) :
    namedNodes (nodes.foldl (fun new n => GoMap.store new n.Node n) m) ∧
    GoMap.WF (nodes.foldl (fun new n => GoMap.store new n.Node n) m) ∧
    (∀ t, t ∈ GoMap.keys (nodes.foldl (fun new n => GoMap.store new n.Node n) m) ↔
      t ∈ GoMap.keys m ∨ t ∈ nodes.map structs.Node.Node) ∧
    ((nodes.map structs.Node.Node).Nodup →
      (∀ n ∈ nodes, n.Node ∉ GoMap.keys m) →
      GoMap.keys (nodes.foldl (fun new n => GoMap.store new n.Node n) m) =
        GoMap.keys m ++ nodes.map structs.Node.Node) := by
  induction nodes generalizing m with
  | nil => exact ⟨hm, hwf, by simp, by simp⟩
  | cons n nodes ih =>
    have hm1 : namedNodes (GoMap.store m n.Node n) := by
      intro e he
      rcases GoMap.mem_store _ _ _ _ he with h | h
      · exact hm e h
      · rw [h]
    obtain ⟨i1, i2, i3, i4⟩ := ih (GoMap.store m n.Node n) hm1 (GoMap.WF_store _ _ _ hwf)
    refine ⟨i1, i2, ?_, ?_⟩
    · intro t
      rw [List.foldl_cons, i3, GoMap.mem_keys_store, List.map_cons, List.mem_cons]
      tauto
    · intro hnd hdis
      rw [List.map_cons] at hnd
      have hn : n.Node ∉ GoMap.keys m := hdis n (List.mem_cons_self _ _)
      rw [List.foldl_cons, i4 (List.nodup_cons.1 hnd).2, GoMap.keys_store_of_not_mem _ _ _ hn]
      · simp
      · intro x hx hmem
        rw [GoMap.mem_keys_store] at hmem
        rcases hmem with h | h
        · exact hdis x (List.mem_cons_of_mem _ hx) h
        · exact (List.nodup_cons.1 hnd).1 (h ▸ List.mem_map_of_mem _ hx)

theorem namedNodes_nodesNew (nodes : structs.Nodes) : namedNodes (nodesNew nodes) :=
  (nodesNew_aux nodes [] (by intro e he; cases he) List.nodup_nil).1

theorem WF_nodesNew (nodes : structs.Nodes) : GoMap.WF (nodesNew nodes) :=
  (nodesNew_aux nodes [] (by intro e he; cases he) List.nodup_nil).2.1

theorem mem_keys_nodesNew (nodes : structs.Nodes) (t : String) :
    t ∈ GoMap.keys (nodesNew nodes) ↔ t ∈ nodes.map structs.Node.Node := by
  have h := (nodesNew_aux nodes [] (by intro e he; cases he) List.nodup_nil).2.2.1 t
  simpa [GoMap.keys] using h

theorem keys_nodesNew (nodes : structs.Nodes) (h : (nodes.map structs.Node.Node).Nodup) :
    GoMap.keys (nodesNew nodes) = nodes.map structs.Node.Node := by
  have h2 := (nodesNew_aux nodes [] (by intro e he; cases he) List.nodup_nil).2.2.2 h
    (by intro n _ hn; simp [GoMap.keys] at hn)
  simpa [GoMap.keys] using h2

theorem lookup_nodesNew_named (nodes : structs.Nodes) (t : String) (n : structs.Node)
    (h : GoMap.lookup (nodesNew nodes) t = some n) : n.Node = t :=
  namedNodes_nodesNew nodes (t, n) (GoMap.mem_of_lookup _ _ _ h)

theorem lookup_storeNodeStop (w : Watcher) (s t : String) (v : Nat) :
    GoMap.lookup (storeNodeStop w s v).nodes t =
      if t = s then (GoMap.lookup w.nodes s).map (fun g => { g with stop := v })
      else GoMap.lookup w.nodes t := by
  unfold storeNodeStop
  cases hl : GoMap.lookup w.nodes s with
  | none =>
    by_cases h : t = s
    · simp [h, hl]
    · simp [h]
  | some g =>
    by_cases h : t = s
    · subst h
      simp [GoMap.lookup_store_self]
    · simp [h, GoMap.lookup_store_ne _ _ _ _ h]

theorem keys_storeNodeStop (w : Watcher) (s : String) (v : Nat) :
    GoMap.keys (storeNodeStop w s v).nodes = GoMap.keys w.nodes := by
  unfold storeNodeStop
  cases hl : GoMap.lookup w.nodes s with
  | none => rfl
  | some g => exact GoMap.keys_store_of_mem _ _ _ (GoMap.mem_keys_of_lookup _ _ _ hl)

theorem sameButNodes_refl (w : Watcher) : sameButNodes w w := ⟨rfl, rfl, rfl, rfl, rfl⟩

theorem sameButNodes_trans {a b c : Watcher} (h1 : sameButNodes a b)
    (h2 : sameButNodes b c) : sameButNodes a c :=
  ⟨h2.1.trans h1.1, h2.2.1.trans h1.2.1, h2.2.2.1.trans h1.2.2.1,
    h2.2.2.2.1.trans h1.2.2.2.1, h2.2.2.2.2.trans h1.2.2.2.2⟩

theorem sameButNodes_storeNodeStop (w : Watcher) (s : String) (v : Nat) :
    sameButNodes w (storeNodeStop w s v) := by
  unfold storeNodeStop
  cases GoMap.lookup w.nodes s with
  | none => exact sameButNodes_refl w
  | some g => exact ⟨rfl, rfl, rfl, rfl, rfl⟩

theorem handleNodesChanged_eq (w : Watcher) (nodes : structs.Nodes) :
    handleNodesChanged w nodes =
      (GoMap.keys ((nodesNew nodes).foldl nodesLoop1 w).nodes).foldl
        (nodesLoop2 (nodesNew nodes)) ((nodesNew nodes).foldl nodesLoop1 w) := rfl

theorem lookup_nodesLoop1 (w : Watcher) (e : String × structs.Node) (he : e.2.Node = e.1)
    (t : String) :
    GoMap.lookup (nodesLoop1 w e).nodes t =
      if t = e.1 then reviveNode (some e.2) (GoMap.lookup w.nodes e.1)
      else GoMap.lookup w.nodes t := by
  unfold nodesLoop1
  cases hl : GoMap.lookup w.nodes e.1 with
  | none =>
    have hh : GoMap.has w.nodes e.1 = false := by simp [GoMap.has, hl]
    rw [hh]
    by_cases h : t = e.1
    · subst h
      simp [watchNode, he, GoMap.lookup_store_self, reviveNode]
    · simp [watchNode, he, GoMap.lookup_store_ne _ _ _ _ h, h]
  | some g =>
    have hh : GoMap.has w.nodes e.1 = true := by simp [GoMap.has, hl]
    rw [hh, if_pos rfl, lookup_storeNodeStop, hl]
    rfl

theorem sameButNodes_nodesLoop1 (w : Watcher) (e : String × structs.Node) :
    sameButNodes w (nodesLoop1 w e) := by
  unfold nodesLoop1
  split
  · exact sameButNodes_storeNodeStop w e.1 0
  · exact ⟨rfl, rfl, rfl, rfl, rfl⟩

theorem reviveNode_idem (a : Option structs.Node) (n : structs.Node) (o : Option nodeWatch) :
    reviveNode a (reviveNode (some n) o) = reviveNode (some n) o := by
  cases o <;> rfl

theorem lookup_foldl_nodesLoop1 (E : GoMap structs.Node) (hE : namedNodes E) (w : Watcher)
    (t : String) :
    GoMap.lookup (E.foldl nodesLoop1 w).nodes t =
      if t ∈ GoMap.keys E then reviveNode (GoMap.lookup E t) (GoMap.lookup w.nodes t)
      else GoMap.lookup w.nodes t := by
  induction E generalizing w with
  | nil => simp [GoMap.keys]
  | cons e E ih =>
    obtain ⟨k, n⟩ := e
    have he : n.Node = k := hE (k, n) (List.mem_cons_self _ _)
    have hE2 : namedNodes E := fun x hx => hE x (List.mem_cons_of_mem _ hx)
    rw [List.foldl_cons, ih hE2, lookup_nodesLoop1 w (k, n) he, GoMap.keys_cons]
    by_cases h : t = k
    · subst h
      simp [GoMap.lookup, reviveNode_idem]
    · have h2 : ¬ k = t := fun h3 => h h3.symm
      simp [h, h2, GoMap.lookup]

theorem sameButNodes_foldl_nodesLoop1 (E : GoMap structs.Node) (w : Watcher) :
    sameButNodes w (E.foldl nodesLoop1 w) := by
  induction E generalizing w with
  | nil => exact sameButNodes_refl w
  | cons s L ih =>
    exact sameButNodes_trans (sameButNodes_nodesLoop1 w s) (ih _)

theorem keys_foldl_nodesLoop1 (E : GoMap structs.Node) (hE : namedNodes E) (w : Watcher)
    (hL : (GoMap.keys E).Nodup) (hd : ∀ s ∈ GoMap.keys E, s ∉ GoMap.keys w.nodes) :
    GoMap.keys (E.foldl nodesLoop1 w).nodes = GoMap.keys w.nodes ++ GoMap.keys E := by
  induction E generalizing w with
  | nil => simp [GoMap.keys]
  | cons e E ih =>
    obtain ⟨k, n⟩ := e
    have he : n.Node = k := hE (k, n) (List.mem_cons_self _ _)
    have hE2 : namedNodes E := fun x hx => hE x (List.mem_cons_of_mem _ hx)
    rw [GoMap.keys_cons] at hL hd
    have hs : k ∉ GoMap.keys w.nodes := hd k (List.mem_cons_self _ _)
    have hk : GoMap.keys (nodesLoop1 w (k, n)).nodes = GoMap.keys w.nodes ++ [k] := by
      unfold nodesLoop1
      rw [(GoMap.has_eq_false_iff _ _).2 hs]
      simp only [Bool.false_eq_true, if_false, watchNode, he]
      exact GoMap.keys_store_of_not_mem _ _ _ hs
    rw [List.foldl_cons, ih hE2 _ (List.nodup_cons.1 hL).2, hk, GoMap.keys_cons]
    · simp
    · intro u hu
      rw [hk]
      intro hmem
      rcases List.mem_append.1 hmem with h1 | h1
      · exact hd u (List.mem_cons_of_mem _ hu) h1
      · have : u = k := by simpa using h1
        exact (List.nodup_cons.1 hL).1 (this ▸ hu)

theorem lookup_nodesLoop2 (new : GoMap structs.Node) (w : Watcher) (s t : String) :
    GoMap.lookup (nodesLoop2 new w s).nodes t =
      (GoMap.lookup w.nodes t).map
        (fun g => if t = s ∧ s ∉ GoMap.keys new then { g with stop := 1 } else g) := by
  unfold nodesLoop2
  by_cases hs : s ∈ GoMap.keys new
  · rw [(GoMap.has_iff _ _).2 hs]
    simp [hs]
  · rw [(GoMap.has_eq_false_iff _ _).2 hs]
    simp only [Bool.not_false, if_true, lookup_storeNodeStop]
    by_cases h : t = s
    · subst h
      simp [hs]
    · simp [h]

theorem keys_nodesLoop2 (new : GoMap structs.Node) (w : Watcher) (s : String) :
    GoMap.keys (nodesLoop2 new w s).nodes = GoMap.keys w.nodes := by
  unfold nodesLoop2
  split
  · exact keys_storeNodeStop w s 1
  · rfl

theorem sameButNodes_nodesLoop2 (new : GoMap structs.Node) (w : Watcher) (s : String) :
    sameButNodes w (nodesLoop2 new w s) := by
  unfold nodesLoop2
  split
  · exact sameButNodes_storeNodeStop w s 1
  · exact sameButNodes_refl w

theorem lookup_foldl_nodesLoop2 (new : GoMap structs.Node) (L : List String) (w : Watcher)
    (t : String) :
    GoMap.lookup (L.foldl (nodesLoop2 new) w).nodes t =
      (GoMap.lookup w.nodes t).map
        (fun g => if t ∈ L ∧ t ∉ GoMap.keys new then { g with stop := 1 } else g) := by
  induction L generalizing w with
  | nil => simp
  | cons s L ih =>
    rw [List.foldl_cons, ih, lookup_nodesLoop2]
    cases GoMap.lookup w.nodes t with
    | none => rfl
    | some g =>
      simp only [Option.map_some']
      by_cases h : t = s
      · subst h
        by_cases h2 : t ∈ GoMap.keys new
        · simp [h2]
        · by_cases h3 : t ∈ L
          · simp [h2, h3]
          · simp [h2, h3]
      · simp [h]

theorem keys_foldl_nodesLoop2 (new : GoMap structs.Node) (L : List String) (w : Watcher) :
    GoMap.keys (L.foldl (nodesLoop2 new) w).nodes = GoMap.keys w.nodes := by
  induction L generalizing w with
  | nil => rfl
  | cons s L ih => rw [List.foldl_cons, ih, keys_nodesLoop2]

theorem sameButNodes_foldl_nodesLoop2 (new : GoMap structs.Node) (L : List String)
    (w : Watcher) : sameButNodes w (L.foldl (nodesLoop2 new) w) := by
  induction L generalizing w with
  | nil => exact sameButNodes_refl w
  | cons s L ih =>
    exact sameButNodes_trans (sameButNodes_nodesLoop2 new w s) (ih _)

/-- What `handleNodesChanged` leaves under every name. -/
theorem lookup_handleNodesChanged (w : Watcher) (nodes : structs.Nodes) (t : String) :
    GoMap.lookup (handleNodesChanged w nodes).nodes t =
      if t ∈ nodes.map structs.Node.Node then
        reviveNode (GoMap.lookup (nodesNew nodes) t) (GoMap.lookup w.nodes t)
      else (GoMap.lookup w.nodes t).map (fun g => { g with stop := 1 }) := by
  rw [handleNodesChanged_eq, lookup_foldl_nodesLoop2,
    lookup_foldl_nodesLoop1 _ (namedNodes_nodesNew nodes)]
  by_cases h : t ∈ nodes.map structs.Node.Node
  · have h1 : t ∈ GoMap.keys (nodesNew nodes) := (mem_keys_nodesNew nodes t).2 h
    simp only [h, h1, if_true, not_true_eq_false, and_false, if_false]
    cases reviveNode (GoMap.lookup (nodesNew nodes) t) (GoMap.lookup w.nodes t) <;> rfl
  · have h1 : t ∉ GoMap.keys (nodesNew nodes) := fun h2 => h ((mem_keys_nodesNew nodes t).1 h2)
    simp only [h, h1, if_false, not_false_eq_true, and_true]
    cases hl : GoMap.lookup w.nodes t with
    | none => rfl
    | some g =>
      have hm : t ∈ GoMap.keys ((nodesNew nodes).foldl nodesLoop1 w).nodes := by
        apply GoMap.mem_keys_of_lookup _ _ g
        rw [lookup_foldl_nodesLoop1 _ (namedNodes_nodesNew nodes), if_neg h1, hl]
      simp [hm]

theorem sameButNodes_handleNodesChanged (w : Watcher) (nodes : structs.Nodes) :
    sameButNodes w (handleNodesChanged w nodes) := by
  rw [handleNodesChanged_eq]
  exact sameButNodes_trans (sameButNodes_foldl_nodesLoop1 _ w)
    (sameButNodes_foldl_nodesLoop2 _ _ _)

theorem mem_keys_handleNodesChanged (w : Watcher) (nodes : structs.Nodes) (t : String) :
    t ∈ GoMap.keys (handleNodesChanged w nodes).nodes ↔
      t ∈ GoMap.keys w.nodes ∨ t ∈ nodes.map structs.Node.Node := by
  rw [mem_keys_iff_lookup (handleNodesChanged w nodes).nodes t,
    lookup_handleNodesChanged, mem_keys_iff_lookup w.nodes t]
  by_cases h : t ∈ nodes.map structs.Node.Node
  · obtain ⟨n, hn⟩ := GoMap.lookup_isSome_of_mem _ _ ((mem_keys_nodesNew nodes t).2 h)
    cases hl : GoMap.lookup w.nodes t <;> simp [h, hn, reviveNode]
  · cases GoMap.lookup w.nodes t <;> simp [h]

theorem keys_handleNodesChanged_nil (w : Watcher) (nodes : structs.Nodes)
    (hw : w.nodes = []) (hS : (nodes.map structs.Node.Node).Nodup) :
    GoMap.keys (handleNodesChanged w nodes).nodes = nodes.map structs.Node.Node := by
  rw [handleNodesChanged_eq, keys_foldl_nodesLoop2,
    keys_foldl_nodesLoop1 _ (namedNodes_nodesNew nodes) _ (WF_nodesNew nodes)]
  · simp [hw, GoMap.keys, keys_nodesNew nodes hS]
    rw [← keys_nodesNew nodes hS]
    rfl
  · intro s _
    simp [hw, GoMap.keys]

/-! ## The claims on reconciliation, on the name list and on the identifiers -/

/-- C1: after `handleServicesChanged` (resp. `handleNodesChanged`) the registered
names are the names registered before together with the names of the fresh list,
every listed name that was not registered is registered with its flag at 0, every
registered name that the list lacks has its flag at 1, and the registry of the
other kind is the same as before. -/
theorem reconciliation_result (w : Watcher) (services : structs.Services)
    (nodes : structs.Nodes) :
    ((∀ t, t ∈ GoMap.keys (handleServicesChanged w services).services ↔
        t ∈ GoMap.keys w.services ∨ t ∈ GoMap.keys services) ∧
      (∀ t, t ∈ GoMap.keys services → t ∉ GoMap.keys w.services →
        (GoMap.lookup (handleServicesChanged w services).services t).map serviceWatch.stop
          = some 0) ∧
      (∀ t, t ∈ GoMap.keys (handleServicesChanged w services).services →
        t ∉ GoMap.keys services →
        (GoMap.lookup (handleServicesChanged w services).services t).map serviceWatch.stop
          = some 1) ∧
      (handleServicesChanged w services).nodes = w.nodes) ∧
    ((∀ t, t ∈ GoMap.keys (handleNodesChanged w nodes).nodes ↔
        t ∈ GoMap.keys w.nodes ∨ t ∈ nodes.map structs.Node.Node) ∧
      (∀ t, t ∈ nodes.map structs.Node.Node → t ∉ GoMap.keys w.nodes →
        (GoMap.lookup (handleNodesChanged w nodes).nodes t).map nodeWatch.stop = some 0) ∧
      (∀ t, t ∈ GoMap.keys (handleNodesChanged w nodes).nodes →
        t ∉ nodes.map structs.Node.Node →
        (GoMap.lookup (handleNodesChanged w nodes).nodes t).map nodeWatch.stop = some 1) ∧
      (handleNodesChanged w nodes).services = w.services) := by
  refine ⟨⟨mem_keys_handleServicesChanged w services, ?_, ?_,
    (sameButServices_handleServicesChanged w services).2.1⟩,
    ⟨mem_keys_handleNodesChanged w nodes, ?_, ?_,
    (sameButNodes_handleNodesChanged w nodes).2.1⟩⟩
  · intro t ht hn
    rw [lookup_handleServicesChanged, if_pos ht, (GoMap.lookup_eq_none_iff _ _).2 hn]
    rfl
  · intro t ht hn
    obtain ⟨g, hg⟩ := GoMap.lookup_isSome_of_mem _ _ ht
    rw [lookup_handleServicesChanged, if_neg hn] at hg ⊢
    cases hl : GoMap.lookup w.services t with
    | none => rw [hl] at hg; cases hg
    | some g0 => rfl
  · intro t ht hn
    obtain ⟨n, hnode⟩ := GoMap.lookup_isSome_of_mem _ _ ((mem_keys_nodesNew nodes t).2 ht)
    rw [lookup_handleNodesChanged, if_pos ht, (GoMap.lookup_eq_none_iff _ _).2 hn, hnode]
    rfl
  · intro t ht hn
    obtain ⟨g, hg⟩ := GoMap.lookup_isSome_of_mem _ _ ht
    rw [lookup_handleNodesChanged, if_neg hn] at hg ⊢
    cases hl : GoMap.lookup w.nodes t with
    | none => rw [hl] at hg; cases hg
    | some g0 => rfl

/-- C7, as the code has it: a name that is registered and in the fresh list stays
registered with the same goroutine, whose `idx` and `lastState` are untouched, and
its flag is 0 after the call; so the entry is the same as before whenever its flag
was 0 before. -/
theorem reconciliation_listed_entry (w : Watcher) (services : structs.Services)
    (nodes : structs.Nodes) :
    (∀ t g, GoMap.lookup w.services t = some g → t ∈ GoMap.keys services →
      GoMap.lookup (handleServicesChanged w services).services t = some { g with stop := 0 } ∧
      (g.stop = 0 → GoMap.lookup (handleServicesChanged w services).services t = some g)) ∧
    (∀ t g, GoMap.lookup w.nodes t = some g → t ∈ nodes.map structs.Node.Node →
      GoMap.lookup (handleNodesChanged w nodes).nodes t = some { g with stop := 0 } ∧
      (g.stop = 0 → GoMap.lookup (handleNodesChanged w nodes).nodes t = some g)) := by
  constructor
  · intro t g hg ht
    have h : GoMap.lookup (handleServicesChanged w services).services t
        = some { g with stop := 0 } := by
      rw [lookup_handleServicesChanged, if_pos ht, hg]
      rfl
    refine ⟨h, fun h0 => ?_⟩
    rw [h, ← h0]
  · intro t g hg ht
    have h : GoMap.lookup (handleNodesChanged w nodes).nodes t = some { g with stop := 0 } := by
      rw [lookup_handleNodesChanged, if_pos ht, hg]
      rfl
    refine ⟨h, fun h0 => ?_⟩
    rw [h, ← h0]

/-- C7 fails as stated: a service registered with its flag at 1 and present in
the fresh list has its flag at 0 after `handleServicesChanged`. -/
theorem reconciliation_resets_flag :
    (GoMap.lookup (handleServicesChanged
        { New { Datacenter := "dc1" } 0 with
          services := [("web", { stop := 1, idx := 4, lastState := [] })] }
        [("web", [])]).services "web").map serviceWatch.stop = some 0 ∧
    (GoMap.lookup ({ New { Datacenter := "dc1" } 0 with
          services := [("web", { stop := 1, idx := 4, lastState := [] })] } : Watcher).services
        "web").map serviceWatch.stop = some 1 := by
  decide

theorem sorted_sort_Strings (a : List String) :
    List.Sorted (fun x y => x ≤ y) (sort.Strings a) := by
  have h1 : IsTotal String (fun x y => x.toList ≤ y.toList) :=
    ⟨fun a b => by
      have := le_total a b
      rwa [String.le_iff_toList_le, String.le_iff_toList_le] at this⟩
  have h2 : IsTrans String (fun x y => x.toList ≤ y.toList) :=
    ⟨fun a b c hab hbc => by
      rw [← String.le_iff_toList_le] at hab hbc ⊢
      exact le_trans hab hbc⟩
  have h := List.sorted_insertionSort (fun x y : String => x.toList ≤ y.toList) a
  exact List.Pairwise.imp (fun {x y} hxy => String.le_iff_toList_le.2 hxy) h

theorem mem_sort_Strings (a : List String) (t : String) : t ∈ sort.Strings a ↔ t ∈ a :=
  (List.perm_insertionSort _ a).mem_iff

theorem foldl_append_singleton (L acc : List String) :
    L.foldl (fun res s => res ++ [s]) acc = acc ++ L := by
  induction L generalizing acc with
  | nil => simp
  | cons s L ih => rw [List.foldl_cons, ih]; simp

theorem mem_FilterEntries (w : Watcher) (t : String) :
    t ∈ (FilterEntries w).1 ↔ t ∈ GoMap.keys w.services ∨ t ∈ GoMap.keys w.nodes := by
  show t ∈ sort.Strings _ ↔ _
  rw [mem_sort_Strings, foldl_append_singleton, foldl_append_singleton]
  simp

/-- C2: `FilterEntries` returns a list in ascending order of strings that holds a
name exactly when the name is a key of `services` or of `nodes`, and it leaves
the watcher, with both registries, as it was. -/
theorem FilterEntries_sorted_union (w : Watcher) :
    List.Sorted (fun x y => x ≤ y) (FilterEntries w).1 ∧
    (∀ t, t ∈ (FilterEntries w).1 ↔ t ∈ GoMap.keys w.services ∨ t ∈ GoMap.keys w.nodes) ∧
    (FilterEntries w).2 = w := by
  exact ⟨sorted_sort_Strings _, mem_FilterEntries w, rfl⟩

theorem wrapInt32_of_range (x : Int) (h1 : -2147483648 ≤ x) (h2 : x ≤ 2147483647) :
    wrapInt32 x = x := by
  unfold wrapInt32
  omega

theorem nextEventID_fst (w : Watcher) : (nextEventID w).1 = wrapInt32 (w.evtID + 1) := rfl

theorem nextEventID_evtID (w : Watcher) : (nextEventID w).2.evtID = wrapInt32 (w.evtID + 1) := rfl

theorem nextEventIDs_succ (n : Nat) (w : Watcher) :
    nextEventIDs (n + 1) w = (nextEventID w).1 :: nextEventIDs n (nextEventID w).2 := rfl

/-- The identifiers of `n` calls, in closed form. -/
theorem nextEventIDs_eq (n : Nat) (w : Watcher) :
    nextEventIDs n w = (List.range n).map (fun (k : Nat) => wrapInt32 (w.evtID + (k : Int) + 1)) := by
  induction n generalizing w with
  | zero => rfl
  | succ n ih =>
    rw [nextEventIDs_succ, ih, List.range_succ_eq_map, List.map_cons, List.map_map,
      nextEventID_fst, nextEventID_evtID]
    congr 1
    · simp
    · apply List.map_congr_left
      intro k _
      simp only [Function.comp]
      unfold wrapInt32
      push_cast
      omega

/-- C3, as the code has it: the identifiers of the first `n` calls of
`nextEventID` on a watcher from `New` are strictly increasing as long as `n` is
at most 2147483647, the largest `int32`, and pairwise distinct as long as `n` is
at most 4294967296. -/
theorem nextEventIDs_increasing (c : consul) (bufferSize n : Nat) :
    (n ≤ 2147483647 → (nextEventIDs n (New c bufferSize)).Pairwise (fun a b => a < b)) ∧
    (n ≤ 4294967296 → (nextEventIDs n (New c bufferSize)).Nodup) := by
  rw [nextEventIDs_eq]
  have h0 : (New c bufferSize).evtID = 0 := rfl
  rw [h0]
  constructor
  · intro hn
    rw [List.pairwise_map]
    refine List.Pairwise.imp_of_mem ?_ (List.pairwise_lt_range n)
    intro a b ha hb hab
    rw [List.mem_range] at ha hb
    rw [wrapInt32_of_range _ (by omega) (by omega), wrapInt32_of_range _ (by omega) (by omega)]
    omega
  · intro hn
    refine List.Nodup.map_on ?_ (List.nodup_range n)
    intro a ha b hb hab
    rw [List.mem_range] at ha hb
    unfold wrapInt32 at hab
    omega

/-- C3 fails as stated: the call number 2147483648 of `nextEventID` returns
-2147483648, so the identifiers of 2147483648 successive calls are not strictly
increasing. -/
theorem nextEventIDs_wraps :
    ¬ (nextEventIDs 2147483648 (New { Datacenter := "dc1" } 0)).Pairwise (fun a b => a < b) := by
  intro h
  rw [nextEventIDs_eq, List.pairwise_map] at h
  have h2 := List.pairwise_iff_get.1 h ⟨2147483646, by simp⟩ ⟨2147483647, by simp⟩
    (by simp [Fin.lt_def])
  simp only [List.get_eq_getElem, List.getElem_range] at h2
  have h0 : (New { Datacenter := "dc1" } 0).evtID = 0 := rfl
  rw [h0] at h2
  unfold wrapInt32 at h2
  omega

/-! ## The diff of a node and one iteration of a sub-watcher -/

/-- The calls of `handleNodeChanged`, written out. -/
theorem handleNodeChanged_eq (agg : structs.HealthChecks → tl.Status) (w : Watcher)
    (node : structs.Node) (time : Nat) (old new : structs.HealthChecks) :
    handleNodeChanged agg w node time old new =
      (if old = [] then [] else [Effect.aggregatedStatus old]) ++
      (if new = [] then [] else [Effect.aggregatedStatus new]) ++
      [Effect.compareChecks
        { Time := time
          Datacenter := w.c.Datacenter
          NodeName := node.Node
          NodeIP := node.Address
          OldNodeStatus := if old = [] then tl.StatusMissing else agg old
          NewNodeStatus := if new = [] then tl.StatusMissing else agg new } old new] := by
  cases old <;> cases new <;> simp [handleNodeChanged]

/-- C8: `handleNodeChanged` calls `aggregatedStatus` on `old` and on `new` only when
they are not empty, never on an empty set, and hands `compareChecks` a base event
with the given time, the source's datacenter, the node's name and address, the
old status (missing for an empty `old`, else `aggregatedStatus old`) and the new
status (likewise for `new`); for `old = new` the two statuses are equal. -/
theorem handleNodeChanged_base (agg : structs.HealthChecks → tl.Status) (w : Watcher)
    (node : structs.Node) (time : Nat) (old new : structs.HealthChecks) :
    handleNodeChanged agg w node time old new =
      (if old = [] then [] else [Effect.aggregatedStatus old]) ++
      (if new = [] then [] else [Effect.aggregatedStatus new]) ++
      [Effect.compareChecks
        { Time := time
          Datacenter := w.c.Datacenter
          NodeName := node.Node
          NodeIP := node.Address
          OldNodeStatus := if old = [] then tl.StatusMissing else agg old
          NewNodeStatus := if new = [] then tl.StatusMissing else agg new } old new] ∧
    Effect.aggregatedStatus [] ∉ handleNodeChanged agg w node time old new ∧
    (∀ base o n, Effect.compareChecks base o n ∈ handleNodeChanged agg w node time old old →
      base.OldNodeStatus = base.NewNodeStatus) := by
  refine ⟨handleNodeChanged_eq agg w node time old new, ?_, ?_⟩
  · cases old <;> cases new <;> simp [handleNodeChanged]
  · intro base o n h
    rw [handleNodeChanged_eq] at h
    cases old with
    | nil =>
      simp only [if_true, List.nil_append, List.mem_singleton, Effect.compareChecks.injEq] at h
      rw [h.1]
    | cons c cs =>
      simp at h
      rw [h.1]

theorem filter_isDiff_handleNodeChanged (agg : structs.HealthChecks → tl.Status) (w : Watcher)
    (node : structs.Node) (time : Nat) (old new : structs.HealthChecks) :
    (handleNodeChanged agg w node time old new).filter Effect.isDiff =
      handleNodeChanged agg w node time old new := by
  cases old <;> cases new <;> simp [handleNodeChanged, Effect.isDiff]

theorem wg_handleNodeChanged (agg : structs.HealthChecks → tl.Status) (w : Watcher)
    (node : structs.Node) (time : Nat) (old new : structs.HealthChecks) :
    List.count Effect.wgDone (handleNodeChanged agg w node time old new) = 0 ∧
    wgAdds (handleNodeChanged agg w node time old new) = [] := by
  cases old <;> cases new <;> simp [handleNodeChanged, wgAdds]

theorem filteredChecks_aux (checks acc : structs.HealthChecks) :
    checks.foldl (fun filteredChecks c =>
      if c.ServiceID = "" then filteredChecks ++ [c] else filteredChecks) acc =
      acc ++ checks.filter (fun c => decide (c.ServiceID = "")) := by
  induction checks generalizing acc with
  | nil => simp
  | cons c cs ih =>
    rw [List.foldl_cons, ih]
    by_cases h : c.ServiceID = ""
    · simp [h, List.filter_cons]
    · simp [h, List.filter_cons]

theorem filteredChecks_eq (checks : structs.HealthChecks) :
    filteredChecks checks = checks.filter (fun c => decide (c.ServiceID = "")) := by
  unfold filteredChecks
  rw [filteredChecks_aux]
  rfl

/-- What a successful iteration of a service sub-watcher that is not stopping does. -/
theorem watchService_loop_ok (w : Watcher) (name : String) (time : Nat) (g : serviceWatch)
    (res : structs.IndexedCheckServiceNodes) (hg : GoMap.lookup w.services name = some g)
    (hs : g.stop ≠ 1) :
    ∃ w1 tr, watchService.loop w name time (some res) = some (w1, tr) ∧
      w1.services = GoMap.store w.services name { g with lastState := res.Nodes, idx := res.Index } ∧
      w1.nodes = w.nodes ∧ w1.ready = w.ready ∧ w1.c = w.c ∧ w1.evtID = w.evtID ∧
      w1.readyWg = w.readyWg - (wgDones tr : Int) ∧
      wgDones tr = (if g.idx = 0 ∧ w.ready = false then 1 else 0) ∧
      wgAdds tr = [] ∧
      tr.filter Effect.isDiff =
        (if 0 < g.idx ∧ w.ready = true then
          [Effect.compareServiceStates time g.lastState res.Nodes] else []) := by
  unfold watchService.loop
  simp only [hg, hs, if_false]
  by_cases hi : g.idx = 0
  · cases hr : w.ready
    · refine ⟨_, _, rfl, ?_⟩
      simp [hi, hr, wgDones, wgAdds, Effect.isDiff]
    · refine ⟨_, _, rfl, ?_⟩
      simp [hi, hr, wgDones, wgAdds, Effect.isDiff]
  · have hpos : 0 < g.idx := Nat.pos_of_ne_zero hi
    cases hr : w.ready
    · refine ⟨_, _, rfl, ?_⟩
      simp [hi, hr, hpos, wgDones, wgAdds, Effect.isDiff]
    · refine ⟨_, _, rfl, ?_⟩
      simp [hi, hr, hpos, wgDones, wgAdds, Effect.isDiff]

/-- What a successful iteration of a node sub-watcher that is neither held by the
barrier nor stopping does. -/
theorem watchNode_loop_ok (agg : structs.HealthChecks → tl.Status) (w : Watcher) (name : String)
    (time : Nat) (g : nodeWatch) (res : structs.IndexedHealthChecks)
    (hg : GoMap.lookup w.nodes name = some g) (hs : g.stop ≠ 1)
    (hb : g.idx = 0 ∨ w.readyWg = 0) :
    ∃ w1 tr, watchNode.loop agg w name time (some res) = some (w1, tr) ∧
      w1.nodes = GoMap.store w.nodes name
        { g with lastState := filteredChecks res.HealthChecks, idx := res.Index } ∧
      w1.services = w.services ∧ w1.ready = w.ready ∧ w1.c = w.c ∧ w1.evtID = w.evtID ∧
      w1.readyWg = w.readyWg - (wgDones tr : Int) ∧
      wgDones tr = (if g.idx = 0 ∧ w.ready = false then 1 else 0) ∧
      wgAdds tr = [] ∧
      tr.filter Effect.isDiff =
        (if 0 < g.idx ∧ w.ready = true then
          handleNodeChanged agg w g.node time g.lastState (filteredChecks res.HealthChecks)
        else []) := by
  unfold watchNode.loop
  have hnb : ¬ (g.idx > 0 ∧ w.readyWg ≠ 0) := by
    rintro ⟨h1, h2⟩
    rcases hb with h | h
    · omega
    · exact h2 h
  simp only [hg, hnb, hs, if_false]
  by_cases hi : g.idx = 0
  · cases hr : w.ready
    · refine ⟨_, _, rfl, ?_⟩
      simp [hi, hr, wgDones, wgAdds, Effect.isDiff]
    · refine ⟨_, _, rfl, ?_⟩
      simp [hi, hr, wgDones, wgAdds, Effect.isDiff]
  · have hpos : 0 < g.idx := Nat.pos_of_ne_zero hi
    cases hr : w.ready
    · refine ⟨_, _, rfl, ?_⟩
      simp [hi, hr, hpos, wgDones, wgAdds, Effect.isDiff]
    · refine ⟨_, _, rfl, ?_⟩
      simp [hi, hr, hpos, wgDones, wgAdds, Effect.isDiff, filter_isDiff_handleNodeChanged,
        (wg_handleNodeChanged agg w g.node time g.lastState (filteredChecks res.HealthChecks)).1,
        (wg_handleNodeChanged agg w g.node time g.lastState (filteredChecks res.HealthChecks)).2]

theorem watchService_loop_stop (w : Watcher) (name : String) (time : Nat) (g : serviceWatch)
    (res : Option structs.IndexedCheckServiceNodes)
    (hg : GoMap.lookup w.services name = some g) (hs : g.stop = 1) :
    watchService.loop w name time res =
      some ({ w with services := GoMap.delete w.services name }, []) := by
  unfold watchService.loop
  simp only [hg, hs, if_true]

theorem watchNode_loop_stop (agg : structs.HealthChecks → tl.Status) (w : Watcher)
    (name : String) (time : Nat) (g : nodeWatch) (res : Option structs.IndexedHealthChecks)
    (hg : GoMap.lookup w.nodes name = some g) (hs : g.stop = 1)
    (hb : g.idx = 0 ∨ w.readyWg = 0) :
    watchNode.loop agg w name time res =
      some ({ w with nodes := GoMap.delete w.nodes g.node.Node },
        if g.idx > 0 then [Effect.wgWait] else []) := by
  unfold watchNode.loop
  have hnb : ¬ (g.idx > 0 ∧ w.readyWg ≠ 0) := by
    rintro ⟨h1, h2⟩
    rcases hb with h | h
    · omega
    · exact h2 h
  simp only [hg, hnb, hs, if_true, if_false]

theorem watchService_loop_fail (w : Watcher) (name : String) (time : Nat) (g : serviceWatch)
    (hg : GoMap.lookup w.services name = some g) (hs : g.stop ≠ 1) :
    watchService.loop w name time none = some (w, [Effect.Service g.idx name, Effect.Sleep]) := by
  unfold watchService.loop
  simp only [hg, hs, if_false]

theorem watchNode_loop_fail (agg : structs.HealthChecks → tl.Status) (w : Watcher)
    (name : String) (time : Nat) (g : nodeWatch)
    (hg : GoMap.lookup w.nodes name = some g) (hs : g.stop ≠ 1)
    (hb : g.idx = 0 ∨ w.readyWg = 0) :
    watchNode.loop agg w name time none =
      some (w, (if g.idx > 0 then [Effect.wgWait] else []) ++
        [Effect.Node g.idx g.node.Node, Effect.Sleep]) := by
  unfold watchNode.loop
  have hnb : ¬ (g.idx > 0 ∧ w.readyWg ≠ 0) := by
    rintro ⟨h1, h2⟩
    rcases hb with h | h
    · omega
    · exact h2 h
  simp only [hg, hnb, hs, if_false]

theorem watchService_loop_fetches (w w1 : Watcher) (name : String) (time : Nat) (g : serviceWatch)
    (res : structs.IndexedCheckServiceNodes) (tr : List Effect)
    (hg : GoMap.lookup w.services name = some g) (hs : g.stop ≠ 1)
    (h : watchService.loop w name time (some res) = some (w1, tr)) :
    Effect.Service g.idx name ∈ tr := by
  unfold watchService.loop at h
  simp only [hg, hs, if_false, Option.some.injEq, Prod.mk.injEq] at h
  rw [← h.2]
  simp

theorem watchNode_loop_fetches (agg : structs.HealthChecks → tl.Status) (w w1 : Watcher)
    (name : String) (time : Nat) (g : nodeWatch) (res : structs.IndexedHealthChecks)
    (tr : List Effect) (hg : GoMap.lookup w.nodes name = some g) (hs : g.stop ≠ 1)
    (hb : g.idx = 0 ∨ w.readyWg = 0)
    (h : watchNode.loop agg w name time (some res) = some (w1, tr)) :
    Effect.Node g.idx g.node.Node ∈ tr := by
  unfold watchNode.loop at h
  have hnb : ¬ (g.idx > 0 ∧ w.readyWg ≠ 0) := by
    rintro ⟨h1, h2⟩
    rcases hb with h3 | h3
    · omega
    · exact h2 h3
  simp only [hg, hnb, hs, if_false, Option.some.injEq, Prod.mk.injEq] at h
  rw [← h.2]
  simp


/-- C9: a successful iteration of a service sub-watcher (one that reaches its
fetch: its flag is not raised) fetches at its `idx`, ends with `lastState` the
fetched snapshot and `idx` the returned index, and calls `compareServiceStates`
on the previous `lastState` and the fetched snapshot exactly when `idx` was
positive and `ready` was true; a successful iteration of a node sub-watcher (one
that reaches its fetch: it is not held by the barrier and its flag is not raised)
fetches at its `idx`, ends with `lastState` the fetched checks without a
`ServiceID`, in order, and `idx` the returned index, and calls
`handleNodeChanged` on the previous `lastState` and those checks exactly when
`idx` was positive and `ready` was true.  No other diff call is made, and the
cache is replaced whether or not one is. -/
theorem subwatcher_iteration (agg : structs.HealthChecks → tl.Status) (w : Watcher)
    (name : String) (time : Nat) :
    (∀ g res, GoMap.lookup w.services name = some g → g.stop ≠ 1 →
      ∃ w1 tr, watchService.loop w name time (some res) = some (w1, tr) ∧
        Effect.Service g.idx name ∈ tr ∧
        GoMap.lookup w1.services name =
          some { g with lastState := res.Nodes, idx := res.Index } ∧
        tr.filter Effect.isDiff =
          (if 0 < g.idx ∧ w.ready = true then
            [Effect.compareServiceStates time g.lastState res.Nodes] else [])) ∧
    (∀ g res, GoMap.lookup w.nodes name = some g → g.stop ≠ 1 →
      (g.idx = 0 ∨ w.readyWg = 0) →
      ∃ w1 tr, watchNode.loop agg w name time (some res) = some (w1, tr) ∧
        Effect.Node g.idx g.node.Node ∈ tr ∧
        GoMap.lookup w1.nodes name =
          some { g with
            lastState := res.HealthChecks.filter (fun c => decide (c.ServiceID = ""))
            idx := res.Index } ∧
        tr.filter Effect.isDiff =
          (if 0 < g.idx ∧ w.ready = true then
            handleNodeChanged agg w g.node time g.lastState
              (res.HealthChecks.filter (fun c => decide (c.ServiceID = "")))
          else [])) := by
  constructor
  · intro g res hg hs
    obtain ⟨w1, tr, h1, h2, _, _, _, _, _, _, _, h3⟩ := watchService_loop_ok w name time g res hg hs
    refine ⟨w1, tr, h1, watchService_loop_fetches w w1 name time g res tr hg hs h1, ?_, h3⟩
    rw [h2, GoMap.lookup_store_self]
  · intro g res hg hs hb
    obtain ⟨w1, tr, h1, h2, _, _, _, _, _, _, _, h3⟩ :=
      watchNode_loop_ok agg w name time g res hg hs hb
    rw [filteredChecks_eq] at h2 h3
    refine ⟨w1, tr, h1, watchNode_loop_fetches agg w w1 name time g res tr hg hs hb h1, ?_, h3⟩
    rw [h2, GoMap.lookup_store_self]

/-- C9 at a concrete input: a service sub-watcher with `idx` 4 while `ready` is
true, and a node sub-watcher at `idx` 0 while `ready` is false. -/
theorem subwatcher_iteration_witness :
    (∃ w1 tr, watchService.loop
        { New { Datacenter := "dc1" } 0 with
          services := [("web", { stop := 0, idx := 4, lastState := [] })], ready := true }
        "web" 7 (some { Nodes := [{ Node := { Node := "n1", Address := "a" }, Checks := [] }],
                        Index := 5 }) = some (w1, tr) ∧
      Effect.Service 4 "web" ∈ tr ∧
      GoMap.lookup w1.services "web" =
        some { stop := 0, idx := 5,
               lastState := [{ Node := { Node := "n1", Address := "a" }, Checks := [] }] } ∧
      tr.filter Effect.isDiff =
        [Effect.compareServiceStates 7 []
          [{ Node := { Node := "n1", Address := "a" }, Checks := [] }]]) ∧
    (∃ w1 tr, watchNode.loop aggregatedStatus
        { New { Datacenter := "dc1" } 0 with
          nodes := [("n1", { node := { Node := "n1", Address := "a" }, stop := 0, idx := 0,
                             lastState := [] })], readyWg := 1 }
        "n1" 7 (some { HealthChecks :=
                        [{ Node := "n1", CheckID := "c1", Status := "passing", ServiceID := "" },
                         { Node := "n1", CheckID := "c2", Status := "passing", ServiceID := "web" }],
                       Index := 5 }) = some (w1, tr) ∧
      Effect.Node 0 "n1" ∈ tr ∧
      GoMap.lookup w1.nodes "n1" =
        some { node := { Node := "n1", Address := "a" }, stop := 0, idx := 5,
               lastState :=
                 [{ Node := "n1", CheckID := "c1", Status := "passing", ServiceID := "" }] } ∧
      tr.filter Effect.isDiff = []) :=
  ⟨(subwatcher_iteration aggregatedStatus
      { New { Datacenter := "dc1" } 0 with
        services := [("web", { stop := 0, idx := 4, lastState := [] })], ready := true }
      "web" 7).1 { stop := 0, idx := 4, lastState := [] }
      { Nodes := [{ Node := { Node := "n1", Address := "a" }, Checks := [] }], Index := 5 }
      (by decide) (by decide),
   (subwatcher_iteration aggregatedStatus
      { New { Datacenter := "dc1" } 0 with
        nodes := [("n1", { node := { Node := "n1", Address := "a" }, stop := 0, idx := 0,
                           lastState := [] })], readyWg := 1 }
      "n1" 7).2 { node := { Node := "n1", Address := "a" }, stop := 0, idx := 0, lastState := [] }
      { HealthChecks :=
          [{ Node := "n1", CheckID := "c1", Status := "passing", ServiceID := "" },
           { Node := "n1", CheckID := "c2", Status := "passing", ServiceID := "web" }],
        Index := 5 }
      (by decide) (by decide) (by decide)⟩

/-- C6, as the code has it: when a fresh service list lacks a registered service
name `s`, the next loop-head step of the sub-watcher of `s` after the
reconciliation returns without a fetch or any other effect, takes `s` out of the
services registry, leaves every other entry of it and the nodes registry as the
reconciliation left them, and no goroutine serves `s` any more; `FilterEntries`
then holds `s` exactly when `s` is a key of the nodes registry.  The same holds
for a node name `s` that a fresh node list lacks, in a registry that files every
node under its name (as every reachable one does), once the sub-watcher is not
held by the barrier (its `idx` is 0 or the counter is 0), the only effect being
the wait; `FilterEntries` then holds `s` exactly when `s` is a key of the
services registry. -/
theorem dropped_name_deregisters (agg : structs.HealthChecks → tl.Status) (w : Watcher)
    (s : String) (time : Nat) :
    (∀ services res, s ∈ GoMap.keys w.services → s ∉ GoMap.keys services →
      ∃ w2, watchService.loop (handleServicesChanged w services) s time res = some (w2, []) ∧
        s ∉ GoMap.keys w2.services ∧
        (∀ t, t ≠ s → GoMap.lookup w2.services t =
          GoMap.lookup (handleServicesChanged w services).services t) ∧
        w2.nodes = w.nodes ∧
        watchService.loop w2 s time res = none ∧
        (s ∈ (FilterEntries w2).1 ↔ s ∈ GoMap.keys w.nodes)) ∧
    (∀ nodes res g, nodesNamed w → GoMap.lookup w.nodes s = some g →
      s ∉ nodes.map structs.Node.Node → (g.idx = 0 ∨ w.readyWg = 0) →
      ∃ w2 tr, watchNode.loop agg (handleNodesChanged w nodes) s time res = some (w2, tr) ∧
        (∀ e ∈ tr, e = Effect.wgWait) ∧
        s ∉ GoMap.keys w2.nodes ∧
        (∀ t, t ≠ s → GoMap.lookup w2.nodes t =
          GoMap.lookup (handleNodesChanged w nodes).nodes t) ∧
        w2.services = w.services ∧
        watchNode.loop agg w2 s time res = none ∧
        (s ∈ (FilterEntries w2).1 ↔ s ∈ GoMap.keys w.services)) := by
  constructor
  · intro services res hs hn
    obtain ⟨g, hg⟩ := GoMap.lookup_isSome_of_mem _ _ hs
    have hl : GoMap.lookup (handleServicesChanged w services).services s
        = some { g with stop := 1 } := by
      rw [lookup_handleServicesChanged, if_neg hn, hg]
      rfl
    have hsame := sameButServices_handleServicesChanged w services
    have hnot : s ∉ GoMap.keys (GoMap.delete (handleServicesChanged w services).services s) := by
      rw [GoMap.mem_keys_delete]
      exact fun h => h.2 rfl
    refine ⟨_, watchService_loop_stop _ s time _ res hl rfl, hnot, ?_, hsame.2.1, ?_, ?_⟩
    · intro t ht
      exact GoMap.lookup_delete_ne _ _ _ ht
    · unfold watchService.loop
      simp only [GoMap.lookup_delete_self]
    · rw [mem_FilterEntries]
      show s ∈ GoMap.keys (GoMap.delete (handleServicesChanged w services).services s) ∨
        s ∈ GoMap.keys (handleServicesChanged w services).nodes ↔ _
      rw [hsame.2.1]
      exact ⟨fun h => h.resolve_left hnot, Or.inr⟩
  · intro nodes res g hnamed hg hn hb
    have hname : g.node.Node = s := hnamed s g hg
    have hl : GoMap.lookup (handleNodesChanged w nodes).nodes s = some { g with stop := 1 } := by
      rw [lookup_handleNodesChanged, if_neg hn, hg]
      rfl
    have hsame := sameButNodes_handleNodesChanged w nodes
    have hb2 : ({ g with stop := 1 } : nodeWatch).idx = 0 ∨
        (handleNodesChanged w nodes).readyWg = 0 := by
      rw [hsame.2.2.2.1]
      exact hb
    have hstop := watchNode_loop_stop agg _ s time _ res hl rfl hb2
    have hkey : ({ g with stop := 1 } : nodeWatch).node.Node = s := hname
    rw [hkey] at hstop
    have hnot : s ∉ GoMap.keys (GoMap.delete (handleNodesChanged w nodes).nodes s) := by
      rw [GoMap.mem_keys_delete]
      exact fun h => h.2 rfl
    refine ⟨_, _, hstop, ?_, hnot, ?_, hsame.2.1, ?_, ?_⟩
    · intro e he
      split at he
      · simpa using he
      · cases he
    · intro t ht
      exact GoMap.lookup_delete_ne _ _ _ ht
    · unfold watchNode.loop
      simp only [GoMap.lookup_delete_self]
    · rw [mem_FilterEntries]
      show s ∈ GoMap.keys (handleNodesChanged w nodes).services ∨
        s ∈ GoMap.keys (GoMap.delete (handleNodesChanged w nodes).nodes s) ↔ _
      rw [hsame.2.1]
      exact ⟨fun h => h.resolve_right hnot, Or.inl⟩

/-- C6 fails as stated: a name dropped from the service list that is also a
registered node is still in `FilterEntries` after its service sub-watcher has
deregistered; and the sub-watcher of a dropped node whose `idx` is past 0 takes
no step while the barrier counter is not zero. -/
theorem dropped_name_still_listed :
    (((watchService.loop
        (handleServicesChanged
          { New { Datacenter := "dc1" } 0 with
            services := [("consul", { stop := 0, idx := 4, lastState := [] })],
            nodes := [("consul", { node := { Node := "consul", Address := "a" }, stop := 0,
                                   idx := 4, lastState := [] })] }
          [])
        "consul" 7 none).map (fun r => (FilterEntries r.1).1)) = some ["consul"]) ∧
    watchNode.loop aggregatedStatus
        (handleNodesChanged
          { New { Datacenter := "dc1" } 0 with
            nodes := [("n1", { node := { Node := "n1", Address := "a" }, stop := 0,
                               idx := 4, lastState := [] })], readyWg := 1 }
          [])
        "n1" 7 none = none := by
  decide

/-- C6 at a concrete input: the service `web` and the node `n1` are dropped. -/
theorem dropped_name_deregisters_witness :
    (∃ w2, watchService.loop
        (handleServicesChanged
          { New { Datacenter := "dc1" } 0 with
            services := [("web", { stop := 0, idx := 4, lastState := [] }),
                         ("db", { stop := 0, idx := 2, lastState := [] })] }
          [("db", [])])
        "web" 7 none = some (w2, []) ∧ "web" ∉ (FilterEntries w2).1) ∧
    (∃ w2 tr, watchNode.loop aggregatedStatus
        (handleNodesChanged
          { New { Datacenter := "dc1" } 0 with
            nodes := [("n1", { node := { Node := "n1", Address := "a" }, stop := 0,
                               idx := 4, lastState := [] })] }
          [])
        "n1" 7 none = some (w2, tr) ∧ "n1" ∉ (FilterEntries w2).1) := by
  obtain ⟨w2, h1, _, _, _, _, h6⟩ := (dropped_name_deregisters aggregatedStatus
      { New { Datacenter := "dc1" } 0 with
        services := [("web", { stop := 0, idx := 4, lastState := [] }),
                     ("db", { stop := 0, idx := 2, lastState := [] })] }
      "web" 7).1 [("db", [])] none (by decide) (by decide)
  obtain ⟨v2, tr, g1, _, _, _, _, _, g7⟩ := (dropped_name_deregisters aggregatedStatus
      { New { Datacenter := "dc1" } 0 with
        nodes := [("n1", { node := { Node := "n1", Address := "a" }, stop := 0,
                           idx := 4, lastState := [] })] }
      "n1" 7).2 [] none
      { node := { Node := "n1", Address := "a" }, stop := 0, idx := 4, lastState := [] }
      (nodesNamed_of_forall _ (by decide)) (by decide) (by decide) (by decide)
  exact ⟨⟨w2, h1, fun h => absurd (h6.1 h) (by decide)⟩,
    ⟨v2, tr, g1, fun h => absurd (g7.1 h) (by decide)⟩⟩

/-! ## Runs of a single goroutine and the countdowns of the barrier -/

theorem wgDones_append (a b : List Effect) : wgDones (a ++ b) = wgDones a + wgDones b := by
  unfold wgDones
  exact List.count_append _ _ _

theorem wgAdds_append (a b : List Effect) : wgAdds (a ++ b) = wgAdds a ++ wgAdds b := by
  induction a with
  | nil => rfl
  | cons e a ih =>
    cases e <;> simp [wgAdds, ih]

theorem run_nil (agg : structs.HealthChecks → tl.Status) (s : System) :
    run agg s [] = some (s, []) := rfl

theorem run_cons (agg : structs.HealthChecks → tl.Status) (s s2 : System) (a : Action)
    (as : List Action) (tr : List Effect) :
    run agg s (a :: as) = some (s2, tr) ↔
      ∃ s1 tr1 tr2, step agg s a = some (s1, tr1) ∧ run agg s1 as = some (s2, tr2) ∧
        tr = tr1 ++ tr2 := by
  rw [run]
  cases h1 : step agg s a with
  | none => simp
  | some p =>
    obtain ⟨s1, tr1⟩ := p
    cases h2 : run agg s1 as with
    | none =>
      simp only [h2]
      constructor
      · intro h
        cases h
      rintro ⟨s1', tr1', tr2', h3, h4, _⟩
      simp only [Option.some.injEq, Prod.mk.injEq] at h3
      rw [← h3.1, h2] at h4
      cases h4
    | some q =>
      obtain ⟨s3, tr3⟩ := q
      simp only [h2, Option.some.injEq, Prod.mk.injEq]
      constructor
      · rintro ⟨rfl, rfl⟩
        exact ⟨s1, tr1, tr3, ⟨rfl, rfl⟩, h2, rfl⟩
      · rintro ⟨s1', tr1', tr2', ⟨rfl, rfl⟩, h3, rfl⟩
        rw [h2] at h3
        simp only [Option.some.injEq, Prod.mk.injEq] at h3
        exact ⟨h3.1, by rw [h3.2]⟩

theorem step_watchService (agg : structs.HealthChecks → tl.Status) (s s1 : System)
    (name : String) (time : Nat) (res : Option structs.IndexedCheckServiceNodes)
    (tr : List Effect) :
    step agg s (Action.watchService name time res) = some (s1, tr) ↔
      ∃ w, watchService.loop s.w name time res = some (w, tr) ∧ s1 = { s with w := w } := by
  rw [step]
  cases h : watchService.loop s.w name time res with
  | none => simp
  | some p =>
    obtain ⟨w, t⟩ := p
    simp only [Option.some.injEq, Prod.mk.injEq]
    constructor
    · rintro ⟨rfl, rfl⟩
      exact ⟨w, ⟨rfl, rfl⟩, rfl⟩
    · rintro ⟨w', ⟨rfl, rfl⟩, rfl⟩
      exact ⟨rfl, rfl⟩

theorem step_watchNode (agg : structs.HealthChecks → tl.Status) (s s1 : System)
    (name : String) (time : Nat) (res : Option structs.IndexedHealthChecks)
    (tr : List Effect) :
    step agg s (Action.watchNode name time res) = some (s1, tr) ↔
      ∃ w, watchNode.loop agg s.w name time res = some (w, tr) ∧ s1 = { s with w := w } := by
  rw [step]
  cases h : watchNode.loop agg s.w name time res with
  | none => simp
  | some p =>
    obtain ⟨w, t⟩ := p
    simp only [Option.some.injEq, Prod.mk.injEq]
    constructor
    · rintro ⟨rfl, rfl⟩
      exact ⟨w, ⟨rfl, rfl⟩, rfl⟩
    · rintro ⟨w', ⟨rfl, rfl⟩, rfl⟩
      exact ⟨rfl, rfl⟩

theorem step_watchServices (agg : structs.HealthChecks → tl.Status) (s s1 : System)
    (res : Option structs.IndexedServices) (tr : List Effect) :
    step agg s (Action.watchServices res) = some (s1, tr) ↔
      ∃ w idx, watchServices.loop s.w s.servicesIdx res = some (w, idx, tr) ∧
        s1 = { s with w := w, servicesIdx := idx } := by
  rw [step]
  cases h : watchServices.loop s.w s.servicesIdx res with
  | none => simp
  | some p =>
    obtain ⟨w, idx, t⟩ := p
    simp only [Option.some.injEq, Prod.mk.injEq]
    constructor
    · rintro ⟨rfl, rfl⟩
      exact ⟨w, idx, ⟨rfl, rfl, rfl⟩, rfl⟩
    · rintro ⟨w', idx', ⟨rfl, rfl, rfl⟩, rfl⟩
      exact ⟨rfl, rfl⟩

theorem step_watchNodes (agg : structs.HealthChecks → tl.Status) (s s1 : System)
    (res : Option structs.IndexedNodes) (tr : List Effect) :
    step agg s (Action.watchNodes res) = some (s1, tr) ↔
      ∃ w idx, watchNodes.loop s.w s.nodesIdx res = some (w, idx, tr) ∧
        s1 = { s with w := w, nodesIdx := idx } := by
  rw [step]
  cases h : watchNodes.loop s.w s.nodesIdx res with
  | none => simp
  | some p =>
    obtain ⟨w, idx, t⟩ := p
    simp only [Option.some.injEq, Prod.mk.injEq]
    constructor
    · rintro ⟨rfl, rfl⟩
      exact ⟨w, idx, ⟨rfl, rfl, rfl⟩, rfl⟩
    · rintro ⟨w', idx', ⟨rfl, rfl, rfl⟩, rfl⟩
      exact ⟨rfl, rfl⟩

theorem watchNode_loop_held (agg : structs.HealthChecks → tl.Status) (w : Watcher)
    (name : String) (time : Nat) (g : nodeWatch) (res : Option structs.IndexedHealthChecks)
    (hg : GoMap.lookup w.nodes name = some g) (hb : g.idx > 0 ∧ w.readyWg ≠ 0) :
    watchNode.loop agg w name time res = none := by
  unfold watchNode.loop
  simp only [hg]
  rw [if_pos hb]

/-- What an iteration of `watchServices` does, when it is not held by the barrier. -/
theorem watchServices_loop_some (w w2 : Watcher) (idx idx2 : Nat)
    (res : Option structs.IndexedServices) (tr : List Effect)
    (h : watchServices.loop w idx res = some (w2, idx2, tr)) :
    (idx = 0 ∨ w.readyWg = 0) ∧
    (res = none → w2 = w ∧ idx2 = idx ∧ wgDones tr = 0 ∧ wgAdds tr = [] ∧
      ∃ e ∈ tr, e = Effect.Services idx) ∧
    (∀ r, res = some r →
      idx2 = r.Index ∧
      w2 = handleServicesChanged
        (if idx = 0 then { w with readyWg := w.readyWg + (GoMap.len r.Services : Int) - 1 }
          else w) r.Services ∧
      wgDones tr = (if idx = 0 then 1 else 0) ∧
      wgAdds tr = (if idx = 0 then [GoMap.len r.Services] else [])) := by
  unfold watchServices.loop at h
  by_cases hb : idx > 0 ∧ w.readyWg ≠ 0
  · simp [hb] at h
  · have hb2 : idx = 0 ∨ w.readyWg = 0 := by
      by_contra hc
      push_neg at hc
      exact hb ⟨Nat.pos_of_ne_zero hc.1, hc.2⟩
    rw [if_neg hb] at h
    refine ⟨hb2, ?_, ?_⟩
    · rintro rfl
      simp only [Option.some.injEq, Prod.mk.injEq] at h
      obtain ⟨rfl, rfl, rfl⟩ := h
      refine ⟨rfl, rfl, ?_, ?_, Effect.Services idx, by simp, rfl⟩
      · by_cases hi : idx > 0 <;> simp [hi, wgDones]
      · by_cases hi : idx > 0 <;> simp [hi, wgAdds]
    · rintro r rfl
      simp only [Option.some.injEq, Prod.mk.injEq] at h
      obtain ⟨rfl, rfl, rfl⟩ := h
      by_cases hi : idx = 0
      · subst hi
        simp [wgDones, wgAdds]
      · have hpos : idx > 0 := Nat.pos_of_ne_zero hi
        simp [hi, hpos, wgDones, wgAdds]

/-- What an iteration of `watchNodes` does, when it is not held by the barrier. -/
theorem watchNodes_loop_some (w w2 : Watcher) (idx idx2 : Nat)
    (res : Option structs.IndexedNodes) (tr : List Effect)
    (h : watchNodes.loop w idx res = some (w2, idx2, tr)) :
    (idx = 0 ∨ w.readyWg = 0) ∧
    (res = none → w2 = w ∧ idx2 = idx ∧ wgDones tr = 0 ∧ wgAdds tr = [] ∧
      ∃ e ∈ tr, e = Effect.Nodes idx) ∧
    (∀ r, res = some r →
      idx2 = r.Index ∧
      w2 = handleNodesChanged
        (if idx = 0 ∧ w.ready = false then
          { w with readyWg := w.readyWg + (r.Nodes.length : Int) - 1 } else w) r.Nodes ∧
      wgDones tr = (if idx = 0 ∧ w.ready = false then 1 else 0) ∧
      wgAdds tr = (if idx = 0 ∧ w.ready = false then [r.Nodes.length] else [])) := by
  unfold watchNodes.loop at h
  by_cases hb : idx > 0 ∧ w.readyWg ≠ 0
  · simp [hb] at h
  · have hb2 : idx = 0 ∨ w.readyWg = 0 := by
      by_contra hc
      push_neg at hc
      exact hb ⟨Nat.pos_of_ne_zero hc.1, hc.2⟩
    rw [if_neg hb] at h
    refine ⟨hb2, ?_, ?_⟩
    · rintro rfl
      simp only [Option.some.injEq, Prod.mk.injEq] at h
      obtain ⟨rfl, rfl, rfl⟩ := h
      refine ⟨rfl, rfl, ?_, ?_, Effect.Nodes idx, by simp, rfl⟩
      · by_cases hi : idx > 0 <;> simp [hi, wgDones]
      · by_cases hi : idx > 0 <;> simp [hi, wgAdds]
    · rintro r rfl
      simp only [Option.some.injEq, Prod.mk.injEq] at h
      obtain ⟨rfl, rfl, rfl⟩ := h
      by_cases hi : idx = 0
      · subst hi
        cases hr : w.ready <;> simp [hr, wgDones, wgAdds]
      · have hpos : idx > 0 := Nat.pos_of_ne_zero hi
        simp [hi, hpos, wgDones, wgAdds]

theorem firstOk_none {ρ : Type} (rs : List (Option ρ)) : firstOk (none :: rs) = firstOk rs := rfl

theorem firstOk_some {ρ : Type} (r : ρ) (rs : List (Option ρ)) :
    firstOk (some r :: rs) = some r := rfl

theorem run_watchService_count (agg : structs.HealthChecks → tl.Status) (name : String)
    (time : Nat) (rs : List (Option structs.IndexedCheckServiceNodes)) :
    ∀ (s s1 : System) (g : serviceWatch) (tr : List Effect), s.w.ready = false →
      GoMap.lookup s.w.services name = some g → g.stop ≠ 1 →
      (∀ r, some r ∈ rs → 0 < r.Index) →
      run agg s (rs.map (Action.watchService name time)) = some (s1, tr) →
      wgDones tr = (if g.idx = 0 then (firstOk rs).toList.length else 0) ∧ wgAdds tr = [] := by
  induction rs with
  | nil =>
    intro s s1 g tr _ _ _ _ h
    rw [List.map_nil, run_nil] at h
    simp only [Option.some.injEq, Prod.mk.injEq] at h
    rw [← h.2]
    simp [wgDones, wgAdds, firstOk]
  | cons r rs ih =>
    intro s s1 g tr hr hg hs hpos h
    rw [List.map_cons, run_cons] at h
    obtain ⟨s2, tr1, tr2, h1, h2, rfl⟩ := h
    rw [step_watchService] at h1
    obtain ⟨w, hw, rfl⟩ := h1
    have hpos2 : ∀ r, some r ∈ rs → 0 < r.Index := fun x hx => hpos x (List.mem_cons_of_mem _ hx)
    cases r with
    | none =>
      rw [watchService_loop_fail s.w name time g hg hs] at hw
      simp only [Option.some.injEq, Prod.mk.injEq] at hw
      obtain ⟨rfl, rfl⟩ := hw
      obtain ⟨i1, i2⟩ := ih _ s1 g tr2 hr hg hs hpos2 h2
      rw [wgDones_append, wgAdds_append, i1, i2, firstOk_none]
      simp [wgDones, wgAdds]
    | some res =>
      obtain ⟨w1, tr', e1, e2, _, e4, _, _, _, e8, e9, _⟩ :=
        watchService_loop_ok s.w name time g res hg hs
      rw [e1] at hw
      simp only [Option.some.injEq, Prod.mk.injEq] at hw
      obtain ⟨rfl, rfl⟩ := hw
      have hg1 : GoMap.lookup ({ s with w := w1 } : System).w.services name =
          some { g with lastState := res.Nodes, idx := res.Index } := by
        show GoMap.lookup w1.services name = _
        rw [e2, GoMap.lookup_store_self]
      have hi : ({ g with lastState := res.Nodes, idx := res.Index } : serviceWatch).idx ≠ 0 :=
        Nat.pos_iff_ne_zero.1 (hpos res (List.mem_cons_self _ _))
      obtain ⟨i1, i2⟩ := ih _ s1 _ tr2 (e4.trans hr) hg1 hs hpos2 h2
      rw [if_neg hi] at i1
      rw [wgDones_append, wgAdds_append, i1, i2, e8, e9, firstOk_some]
      simp [hr]

theorem run_watchNode_count (agg : structs.HealthChecks → tl.Status) (name : String)
    (time : Nat) (rs : List (Option structs.IndexedHealthChecks)) :
    ∀ (s s1 : System) (g : nodeWatch) (tr : List Effect), s.w.ready = false →
      GoMap.lookup s.w.nodes name = some g → g.stop ≠ 1 →
      (∀ r, some r ∈ rs → 0 < r.Index) →
      run agg s (rs.map (Action.watchNode name time)) = some (s1, tr) →
      wgDones tr = (if g.idx = 0 then (firstOk rs).toList.length else 0) ∧ wgAdds tr = [] := by
  induction rs with
  | nil =>
    intro s s1 g tr _ _ _ _ h
    rw [List.map_nil, run_nil] at h
    simp only [Option.some.injEq, Prod.mk.injEq] at h
    rw [← h.2]
    simp [wgDones, wgAdds, firstOk]
  | cons r rs ih =>
    intro s s1 g tr hr hg hs hpos h
    rw [List.map_cons, run_cons] at h
    obtain ⟨s2, tr1, tr2, h1, h2, rfl⟩ := h
    rw [step_watchNode] at h1
    obtain ⟨w, hw, rfl⟩ := h1
    have hpos2 : ∀ r, some r ∈ rs → 0 < r.Index := fun x hx => hpos x (List.mem_cons_of_mem _ hx)
    have hb : g.idx = 0 ∨ s.w.readyWg = 0 := by
      by_contra hc
      push_neg at hc
      rw [watchNode_loop_held agg s.w name time g r hg ⟨Nat.pos_of_ne_zero hc.1, hc.2⟩] at hw
      cases hw
    cases r with
    | none =>
      rw [watchNode_loop_fail agg s.w name time g hg hs hb] at hw
      simp only [Option.some.injEq, Prod.mk.injEq] at hw
      obtain ⟨rfl, rfl⟩ := hw
      obtain ⟨i1, i2⟩ := ih _ s1 g tr2 hr hg hs hpos2 h2
      rw [wgDones_append, wgAdds_append, i1, i2, firstOk_none]
      by_cases hi : g.idx > 0 <;> simp [hi, wgDones, wgAdds]
    | some res =>
      obtain ⟨w1, tr', e1, e2, _, e4, _, _, _, e8, e9, _⟩ :=
        watchNode_loop_ok agg s.w name time g res hg hs hb
      rw [e1] at hw
      simp only [Option.some.injEq, Prod.mk.injEq] at hw
      obtain ⟨rfl, rfl⟩ := hw
      have hg1 : GoMap.lookup ({ s with w := w1 } : System).w.nodes name =
          some { g with lastState := filteredChecks res.HealthChecks, idx := res.Index } := by
        show GoMap.lookup w1.nodes name = _
        rw [e2, GoMap.lookup_store_self]
      have hi : ({ g with lastState := filteredChecks res.HealthChecks, idx := res.Index } :
          nodeWatch).idx ≠ 0 :=
        Nat.pos_iff_ne_zero.1 (hpos res (List.mem_cons_self _ _))
      obtain ⟨i1, i2⟩ := ih _ s1 _ tr2 (e4.trans hr) hg1 hs hpos2 h2
      rw [if_neg hi] at i1
      rw [wgDones_append, wgAdds_append, i1, i2, e8, e9, firstOk_some]
      simp [hr]

theorem run_watchServices_count (agg : structs.HealthChecks → tl.Status)
    (rs : List (Option structs.IndexedServices)) :
    ∀ (s s1 : System) (tr : List Effect),
      (∀ r, some r ∈ rs → 0 < r.Index) →
      run agg s (rs.map Action.watchServices) = some (s1, tr) →
      wgDones tr = (if s.servicesIdx = 0 then (firstOk rs).toList.length else 0) ∧
      wgAdds tr = (if s.servicesIdx = 0 then
        (firstOk rs).toList.map (fun r => GoMap.len r.Services) else []) := by
  induction rs with
  | nil =>
    intro s s1 tr _ h
    rw [List.map_nil, run_nil] at h
    simp only [Option.some.injEq, Prod.mk.injEq] at h
    rw [← h.2]
    simp [wgDones, wgAdds, firstOk]
  | cons r rs ih =>
    intro s s1 tr hpos h
    rw [List.map_cons, run_cons] at h
    obtain ⟨s2, tr1, tr2, h1, h2, rfl⟩ := h
    rw [step_watchServices] at h1
    obtain ⟨w, idx, hw, rfl⟩ := h1
    have hpos2 : ∀ r, some r ∈ rs → 0 < r.Index := fun x hx => hpos x (List.mem_cons_of_mem _ hx)
    obtain ⟨_, hn, hsome⟩ := watchServices_loop_some _ _ _ _ _ _ hw
    obtain ⟨i1, i2⟩ := ih _ s1 tr2 hpos2 h2
    cases r with
    | none =>
      obtain ⟨_, e2, e3, e4, _⟩ := hn rfl
      rw [wgDones_append, wgAdds_append, i1, i2, e3, e4, firstOk_none]
      simp [e2]
    | some res =>
      obtain ⟨e1, _, e3, e4⟩ := hsome res rfl
      have hi : ¬ ({ s with w := w, servicesIdx := idx } : System).servicesIdx = 0 := by
        show ¬ idx = 0
        rw [e1]
        exact Nat.pos_iff_ne_zero.1 (hpos res (List.mem_cons_self _ _))
      rw [if_neg hi] at i1 i2
      rw [wgDones_append, wgAdds_append, i1, i2, e3, e4, firstOk_some]
      by_cases h0 : s.servicesIdx = 0 <;> simp [h0]

theorem run_watchNodes_count (agg : structs.HealthChecks → tl.Status)
    (rs : List (Option structs.IndexedNodes)) :
    ∀ (s s1 : System) (tr : List Effect), s.w.ready = false →
      (∀ r, some r ∈ rs → 0 < r.Index) →
      run agg s (rs.map Action.watchNodes) = some (s1, tr) →
      wgDones tr = (if s.nodesIdx = 0 then (firstOk rs).toList.length else 0) ∧
      wgAdds tr = (if s.nodesIdx = 0 then
        (firstOk rs).toList.map (fun r => r.Nodes.length) else []) := by
  induction rs with
  | nil =>
    intro s s1 tr _ _ h
    rw [List.map_nil, run_nil] at h
    simp only [Option.some.injEq, Prod.mk.injEq] at h
    rw [← h.2]
    simp [wgDones, wgAdds, firstOk]
  | cons r rs ih =>
    intro s s1 tr hr hpos h
    rw [List.map_cons, run_cons] at h
    obtain ⟨s2, tr1, tr2, h1, h2, rfl⟩ := h
    rw [step_watchNodes] at h1
    obtain ⟨w, idx, hw, rfl⟩ := h1
    have hpos2 : ∀ r, some r ∈ rs → 0 < r.Index := fun x hx => hpos x (List.mem_cons_of_mem _ hx)
    obtain ⟨_, hn, hsome⟩ := watchNodes_loop_some _ _ _ _ _ _ hw
    cases r with
    | none =>
      obtain ⟨e1, e2, e3, e4, _⟩ := hn rfl
      have hr2 : ({ s with w := w, nodesIdx := idx } : System).w.ready = false := by
        show w.ready = false
        rw [e1]
        exact hr
      obtain ⟨i1, i2⟩ := ih _ s1 tr2 hr2 hpos2 h2
      rw [wgDones_append, wgAdds_append, i1, i2, e3, e4, firstOk_none]
      simp [e2]
    | some res =>
      obtain ⟨e1, e2, e3, e4⟩ := hsome res rfl
      have hr2 : ({ s with w := w, nodesIdx := idx } : System).w.ready = false := by
        show w.ready = false
        rw [e2, (sameButNodes_handleNodesChanged _ _).2.2.1]
        split <;> exact hr
      obtain ⟨i1, i2⟩ := ih _ s1 tr2 hr2 hpos2 h2
      have hi : ¬ ({ s with w := w, nodesIdx := idx } : System).nodesIdx = 0 := by
        show ¬ idx = 0
        rw [e1]
        exact Nat.pos_iff_ne_zero.1 (hpos res (List.mem_cons_self _ _))
      rw [if_neg hi] at i1 i2
      rw [wgDones_append, wgAdds_append, i1, i2, e3, e4, firstOk_some]
      by_cases h0 : s.nodesIdx = 0 <;> simp [h0, hr]

/-- A step whose fetch fails changes nothing and touches the barrier neither way. -/
theorem step_failed_fetch (agg : structs.HealthChecks → tl.Status) (s s1 : System) (a : Action)
    (tr : List Effect) (hok : a.ok = false) (h : step agg s a = some (s1, tr))
    (hf : ∃ e ∈ tr, Effect.isFetch e = true) :
    s1 = s ∧ wgDones tr = 0 ∧ wgAdds tr = [] := by
  cases a with
  | watchServices res =>
    cases res with
    | some r => simp [Action.ok] at hok
    | none =>
      rw [step_watchServices] at h
      obtain ⟨w, idx, hw, rfl⟩ := h
      obtain ⟨_, hn, _⟩ := watchServices_loop_some _ _ _ _ _ _ hw
      obtain ⟨rfl, rfl, e3, e4, _⟩ := hn rfl
      exact ⟨rfl, e3, e4⟩
  | watchNodes res =>
    cases res with
    | some r => simp [Action.ok] at hok
    | none =>
      rw [step_watchNodes] at h
      obtain ⟨w, idx, hw, rfl⟩ := h
      obtain ⟨_, hn, _⟩ := watchNodes_loop_some _ _ _ _ _ _ hw
      obtain ⟨rfl, rfl, e3, e4, _⟩ := hn rfl
      exact ⟨rfl, e3, e4⟩
  | watchService name time res =>
    cases res with
    | some r => simp [Action.ok] at hok
    | none =>
      rw [step_watchService] at h
      obtain ⟨w, hw, rfl⟩ := h
      cases hg : GoMap.lookup s.w.services name with
      | none =>
        unfold watchService.loop at hw
        simp [hg] at hw
      | some g =>
        by_cases hs : g.stop = 1
        · rw [watchService_loop_stop s.w name time g none hg hs] at hw
          simp only [Option.some.injEq, Prod.mk.injEq] at hw
          obtain ⟨_, rfl⟩ := hw
          obtain ⟨e, he, _⟩ := hf
          cases he
        · rw [watchService_loop_fail s.w name time g hg hs] at hw
          simp only [Option.some.injEq, Prod.mk.injEq] at hw
          obtain ⟨rfl, rfl⟩ := hw
          exact ⟨rfl, by simp [wgDones], by simp [wgAdds]⟩
  | watchNode name time res =>
    cases res with
    | some r => simp [Action.ok] at hok
    | none =>
      rw [step_watchNode] at h
      obtain ⟨w, hw, rfl⟩ := h
      cases hg : GoMap.lookup s.w.nodes name with
      | none =>
        unfold watchNode.loop at hw
        simp [hg] at hw
      | some g =>
        have hb : g.idx = 0 ∨ s.w.readyWg = 0 := by
          by_contra hc
          push_neg at hc
          rw [watchNode_loop_held agg s.w name time g none hg
            ⟨Nat.pos_of_ne_zero hc.1, hc.2⟩] at hw
          cases hw
        by_cases hs : g.stop = 1
        · rw [watchNode_loop_stop agg s.w name time g none hg hs hb] at hw
          simp only [Option.some.injEq, Prod.mk.injEq] at hw
          obtain ⟨_, rfl⟩ := hw
          obtain ⟨e, he, hfe⟩ := hf
          split at he
          · rw [List.mem_singleton] at he
            subst he
            simp [Effect.isFetch] at hfe
          · cases he
        · rw [watchNode_loop_fail agg s.w name time g hg hs hb] at hw
          simp only [Option.some.injEq, Prod.mk.injEq] at hw
          obtain ⟨rfl, rfl⟩ := hw
          refine ⟨rfl, ?_, ?_⟩
          · by_cases hi : g.idx > 0 <;> simp [hi, wgDones]
          · by_cases hi : g.idx > 0 <;> simp [hi, wgAdds]

/-- C10, as the code has it: while `ready` is false and every successful fetch
returns a positive index, a sub-watcher that starts at `idx` 0 calls
`readyWg.Done()` once in any run that holds a successful fetch and never in a run
that holds none, so exactly at its first successful fetch; each reconciler that
starts at `idx` 0 likewise calls `readyWg.Add` once, with the number of services
(resp. nodes) of its first successful fetch, and `readyWg.Done()` once; and a
step whose fetch fails leaves the whole state, with every cursor and cached
snapshot, as it was and calls neither. -/
theorem countdown_once (agg : structs.HealthChecks → tl.Status) (s : System) (name : String)
    (time : Nat) (hready : s.w.ready = false) :
    (∀ g rs s1 tr, GoMap.lookup s.w.services name = some g → g.idx = 0 → g.stop ≠ 1 →
      (∀ r, some r ∈ rs → 0 < r.Index) →
      run agg s (rs.map (Action.watchService name time)) = some (s1, tr) →
      wgDones tr = (firstOk rs).toList.length ∧ wgAdds tr = []) ∧
    (∀ g rs s1 tr, GoMap.lookup s.w.nodes name = some g → g.idx = 0 → g.stop ≠ 1 →
      (∀ r, some r ∈ rs → 0 < r.Index) →
      run agg s (rs.map (Action.watchNode name time)) = some (s1, tr) →
      wgDones tr = (firstOk rs).toList.length ∧ wgAdds tr = []) ∧
    (∀ rs s1 tr, s.servicesIdx = 0 → (∀ r, some r ∈ rs → 0 < r.Index) →
      run agg s (rs.map Action.watchServices) = some (s1, tr) →
      wgDones tr = (firstOk rs).toList.length ∧
      wgAdds tr = (firstOk rs).toList.map (fun r => GoMap.len r.Services)) ∧
    (∀ rs s1 tr, s.nodesIdx = 0 → (∀ r, some r ∈ rs → 0 < r.Index) →
      run agg s (rs.map Action.watchNodes) = some (s1, tr) →
      wgDones tr = (firstOk rs).toList.length ∧
      wgAdds tr = (firstOk rs).toList.map (fun r => r.Nodes.length)) ∧
    (∀ a s1 tr, a.ok = false → step agg s a = some (s1, tr) →
      (∃ e ∈ tr, Effect.isFetch e = true) → s1 = s ∧ wgDones tr = 0 ∧ wgAdds tr = []) := by
  refine ⟨?_, ?_, ?_, ?_, ?_⟩
  · intro g rs s1 tr hg hi hs hpos h
    have := run_watchService_count agg name time rs s s1 g tr hready hg hs hpos h
    rwa [if_pos hi] at this
  · intro g rs s1 tr hg hi hs hpos h
    have := run_watchNode_count agg name time rs s s1 g tr hready hg hs hpos h
    rwa [if_pos hi] at this
  · intro rs s1 tr hi hpos h
    have := run_watchServices_count agg rs s s1 tr hpos h
    rwa [if_pos hi, if_pos hi] at this
  · intro rs s1 tr hi hpos h
    have := run_watchNodes_count agg rs s s1 tr hready hpos h
    rwa [if_pos hi, if_pos hi] at this
  · intro a s1 tr hok h hf
    exact step_failed_fetch agg s s1 a tr hok h hf

/-- C10 at a concrete input: the sub-watcher of `web`, registered by the first
service list, sees an error, then two successes with positive indexes. -/
theorem countdown_once_witness :
    ∃ s1 tr,
      run aggregatedStatus
        { w := { New { Datacenter := "dc1" } 0 with
                 services := [("web", { stop := 0, idx := 0, lastState := [] })], readyWg := 2 },
          servicesIdx := 3, nodesIdx := 0 }
        ([none, some { Nodes := [], Index := 5 }, some { Nodes := [], Index := 6 }].map
          (Action.watchService "web" 7)) = some (s1, tr) ∧
      wgDones tr = 1 ∧ wgAdds tr = [] := by
  cases h : run aggregatedStatus
      { w := { New { Datacenter := "dc1" } 0 with
               services := [("web", { stop := 0, idx := 0, lastState := [] })], readyWg := 2 },
        servicesIdx := 3, nodesIdx := 0 }
      ([none, some { Nodes := [], Index := 5 }, some { Nodes := [], Index := 6 }].map
        (Action.watchService "web" 7)) with
  | none => exact absurd h (by decide)
  | some p =>
    exact ⟨p.1, p.2, rfl, (countdown_once aggregatedStatus
      { w := { New { Datacenter := "dc1" } 0 with
               services := [("web", { stop := 0, idx := 0, lastState := [] })], readyWg := 2 },
        servicesIdx := 3, nodesIdx := 0 } "web" 7 (by decide)).1
      { stop := 0, idx := 0, lastState := [] }
      [none, some { Nodes := [], Index := 5 }, some { Nodes := [], Index := 6 }] p.1 p.2
      (by decide) (by decide) (by decide)
      (by
        intro r hr
        simp only [List.mem_cons, Option.some.injEq, List.mem_singleton] at hr
        rcases hr with hr | hr | hr | hr
        · cases hr
        · rw [hr]
          decide
        · rw [hr]
          decide
        · cases hr)
      h⟩

/-- C10 fails as stated: after the first service list has registered `web`, two
successful fetches of its sub-watcher that both return index 0 count the barrier
down twice, so that with the reconciler's own countdown the counter is at zero
before the node list has been fetched at all. -/
theorem countdown_twice_at_index_zero :
    (run aggregatedStatus (System.armed { Datacenter := "dc1" } 0)
      [Action.watchServices (some { Services := [("web", [])], Index := 1 }),
       Action.watchService "web" 7 (some { Nodes := [], Index := 0 }),
       Action.watchService "web" 8 (some { Nodes := [], Index := 0 })]).map
      (fun r => (wgDones r.2, r.1.w.readyWg, r.1.nodesIdx)) = some (3, 0, 0) := by
  decide

/-! ## Re-discovery -/

/-- Re-discovery of a service: the chain of the drop, the loop-head step, the
re-add and the first two fetches. -/
theorem rediscovered_service (w : Watcher) (s : String)
    (services1 services2 : structs.Services) (time t1 t2 : Nat)
    (r1 r2 : structs.IndexedCheckServiceNodes) (g : serviceWatch)
    (hready : w.ready = true)
    (hg : GoMap.lookup w.services s = some g)
    (h1 : s ∉ GoMap.keys services1) (h2 : s ∈ GoMap.keys services2) :
    ∃ w2,
      watchService.loop (handleServicesChanged w services1) s time none = some (w2, []) ∧
      GoMap.lookup (handleServicesChanged w2 services2).services s =
        some { stop := 0, idx := 0, lastState := [] } ∧
      ∃ w4 tr4,
        watchService.loop (handleServicesChanged w2 services2) s t1 (some r1) = some (w4, tr4) ∧
        tr4.filter Effect.isDiff = [] ∧
        GoMap.lookup w4.services s =
          some { stop := 0, idx := r1.Index, lastState := r1.Nodes } ∧
        (0 < r1.Index →
          ∃ w6 tr6, watchService.loop w4 s t2 (some r2) = some (w6, tr6) ∧
            tr6.filter Effect.isDiff = [Effect.compareServiceStates t2 r1.Nodes r2.Nodes]) := by
  have hl1 : GoMap.lookup (handleServicesChanged w services1).services s =
      some { g with stop := 1 } := by
    rw [lookup_handleServicesChanged, if_neg h1, hg]
    rfl
  have hs1 := sameButServices_handleServicesChanged w services1
  have hstop := watchService_loop_stop (handleServicesChanged w services1) s time
    { g with stop := 1 } none hl1 rfl
  generalize hw2 : ({ handleServicesChanged w services1 with
      services := GoMap.delete (handleServicesChanged w services1).services s } : Watcher) = w2
    at hstop
  have hw2r : w2.ready = true := by
    rw [← hw2]
    exact hs1.2.2.1.trans hready
  have hw2n : GoMap.lookup w2.services s = none := by
    rw [← hw2]
    exact GoMap.lookup_delete_self _ _
  have hl3 : GoMap.lookup (handleServicesChanged w2 services2).services s =
      some { stop := 0, idx := 0, lastState := [] } := by
    rw [lookup_handleServicesChanged, if_pos h2, hw2n]
    rfl
  have hs3 := sameButServices_handleServicesChanged w2 services2
  obtain ⟨w4, tr4, e1, e2, _, e4, _, _, _, _, _, e10⟩ :=
    watchService_loop_ok (handleServicesChanged w2 services2) s t1 _ r1 hl3 (by simp)
  have hr3 : (handleServicesChanged w2 services2).ready = true := hs3.2.2.1.trans hw2r
  have hl4 : GoMap.lookup w4.services s =
      some { stop := 0, idx := r1.Index, lastState := r1.Nodes } := by
    rw [e2, GoMap.lookup_store_self]
  refine ⟨w2, hstop, hl3, w4, tr4, e1, ?_, hl4, ?_⟩
  · rw [e10]
    simp
  · intro hpos
    obtain ⟨w6, tr6, f1, _, _, _, _, _, _, _, _, f10⟩ :=
      watchService_loop_ok w4 s t2 _ r2 hl4 (by simp)
    have hr4 : w4.ready = true := e4.trans hr3
    rw [if_pos ⟨hpos, hr4⟩] at f10
    exact ⟨w6, tr6, f1, f10⟩

/-- Re-discovery of a node: the chain of the drop, the loop-head step, the re-add
and the first two fetches. -/
theorem rediscovered_node (agg : structs.HealthChecks → tl.Status) (w : Watcher) (s : String)
    (nodes1 nodes2 : structs.Nodes) (time t1 t2 : Nat)
    (r1 r2 : structs.IndexedHealthChecks) (g : nodeWatch)
    (hready : w.ready = true) (hwg : w.readyWg = 0)
    (hnamed : nodesNamed w) (hg : GoMap.lookup w.nodes s = some g)
    (h1 : s ∉ nodes1.map structs.Node.Node) (h2 : s ∈ nodes2.map structs.Node.Node) :
    ∃ w2 tr2 n,
      watchNode.loop agg (handleNodesChanged w nodes1) s time none = some (w2, tr2) ∧
      (∀ e ∈ tr2, e = Effect.wgWait) ∧
      n.Node = s ∧
      GoMap.lookup (handleNodesChanged w2 nodes2).nodes s =
        some { node := n, stop := 0, idx := 0, lastState := [] } ∧
      ∃ w4 tr4,
        watchNode.loop agg (handleNodesChanged w2 nodes2) s t1 (some r1) = some (w4, tr4) ∧
        tr4.filter Effect.isDiff = [] ∧
        GoMap.lookup w4.nodes s =
          some { node := n, stop := 0, idx := r1.Index,
                 lastState := r1.HealthChecks.filter (fun c => decide (c.ServiceID = "")) } ∧
        (0 < r1.Index →
          ∃ w6 tr6, watchNode.loop agg w4 s t2 (some r2) = some (w6, tr6) ∧
            tr6.filter Effect.isDiff =
              handleNodeChanged agg w4 n t2
                (r1.HealthChecks.filter (fun c => decide (c.ServiceID = "")))
                (r2.HealthChecks.filter (fun c => decide (c.ServiceID = ""))) ∧
            ∀ base o nw, Effect.compareChecks base o nw ∈ tr6 →
              o = r1.HealthChecks.filter (fun c => decide (c.ServiceID = "")) ∧
              base.OldNodeStatus =
                (if r1.HealthChecks.filter (fun c => decide (c.ServiceID = "")) = [] then
                  tl.StatusMissing
                else agg (r1.HealthChecks.filter (fun c => decide (c.ServiceID = ""))))) := by
  -- the reconciliation that lacks `s` raises the flag
  have hl1 : GoMap.lookup (handleNodesChanged w nodes1).nodes s = some { g with stop := 1 } := by
    rw [lookup_handleNodesChanged, if_neg h1, hg]
    rfl
  have hs1 := sameButNodes_handleNodesChanged w nodes1
  have hstop := watchNode_loop_stop agg (handleNodesChanged w nodes1) s time
    { g with stop := 1 } none hl1 rfl (Or.inr (hs1.2.2.2.1.trans hwg))
  have hkey : ({ g with stop := 1 } : nodeWatch).node.Node = s := hnamed s g hg
  rw [hkey] at hstop
  -- the re-add registers a new sub-watcher
  obtain ⟨n, hn⟩ := GoMap.lookup_isSome_of_mem _ _ ((mem_keys_nodesNew nodes2 s).2 h2)
  have hnn : n.Node = s := lookup_nodesNew_named nodes2 s n hn
  generalize hw2 : ({ handleNodesChanged w nodes1 with
      nodes := GoMap.delete (handleNodesChanged w nodes1).nodes s } : Watcher) = w2 at hstop
  have hw2r : w2.ready = true := by
    rw [← hw2]
    exact hs1.2.2.1.trans hready
  have hw2g : w2.readyWg = 0 := by
    rw [← hw2]
    exact hs1.2.2.2.1.trans hwg
  have hw2n : GoMap.lookup w2.nodes s = none := by
    rw [← hw2]
    exact GoMap.lookup_delete_self _ _
  have hl3 : GoMap.lookup (handleNodesChanged w2 nodes2).nodes s =
      some { node := n, stop := 0, idx := 0, lastState := [] } := by
    rw [lookup_handleNodesChanged, if_pos h2, hw2n, hn]
    rfl
  have hs3 := sameButNodes_handleNodesChanged w2 nodes2
  -- the first fetch
  obtain ⟨w4, tr4, e1, e2, _, e4, _, _, e7, e8, _, e10⟩ :=
    watchNode_loop_ok agg (handleNodesChanged w2 nodes2) s t1 _ r1 hl3 (by simp) (Or.inl rfl)
  have hr3 : (handleNodesChanged w2 nodes2).ready = true := hs3.2.2.1.trans hw2r
  have hl4 : GoMap.lookup w4.nodes s =
      some { node := n, stop := 0, idx := r1.Index,
             lastState := r1.HealthChecks.filter (fun c => decide (c.ServiceID = "")) } := by
    rw [e2, GoMap.lookup_store_self, filteredChecks_eq]
  refine ⟨w2, _, n, hstop, ?_, hnn, hl3, w4, tr4, e1, ?_, hl4, ?_⟩
  · intro e he
    split at he
    · simpa using he
    · cases he
  · rw [e10]
    simp
  · intro hpos
    have hw4g : w4.readyWg = 0 := by
      rw [e7, e8, hr3, hs3.2.2.2.1, hw2g]
      simp
    obtain ⟨w6, tr6, f1, _, _, _, _, _, _, _, _, f10⟩ :=
      watchNode_loop_ok agg w4 s t2 _ r2 hl4 (by simp) (Or.inr hw4g)
    have hr4 : w4.ready = true := e4.trans hr3
    rw [if_pos ⟨hpos, hr4⟩, filteredChecks_eq] at f10
    refine ⟨w6, tr6, f1, f10, ?_⟩
    intro base o nw hmem
    have hmem2 : Effect.compareChecks base o nw ∈ tr6.filter Effect.isDiff :=
      List.mem_filter.2 ⟨hmem, rfl⟩
    rw [f10, handleNodeChanged_eq] at hmem2
    simp only [List.mem_append, List.mem_singleton, Effect.compareChecks.injEq] at hmem2
    rcases hmem2 with (hm | hm) | hm
    · split at hm <;> simp at hm
    · split at hm <;> simp at hm
    · exact ⟨hm.2.1, by rw [hm.1]⟩

/-- C5, as the code has it: once `ready` is true, a registered entity that a
fresh list lacks, whose sub-watcher then takes its loop-head step and
deregisters without a fetch, and that a later list holds again, is served by a
new sub-watcher with an empty `lastState`, `idx` 0 and its flag at 0.  The first
successful fetch of that sub-watcher calls no diff function and caches the
fetched snapshot (for a node: the checks without a `ServiceID`); when that fetch
returned a positive index, the next successful fetch calls the diff with the
snapshot cached by the first as `old`: `compareServiceStates` for a service, and
for a node `handleNodeChanged`, whose base event has as old status missing when
that snapshot is empty and `aggregatedStatus` of it otherwise, so that, for an
aggregation that never answers missing on a set that is not empty, the old status
is missing exactly when that snapshot is empty.  For a node the barrier is at
zero and the registry files every node under its name, as in every state reached
after startup. -/
theorem rediscovered_entity (agg : structs.HealthChecks → tl.Status) (w : Watcher)
    (s : String) (time t1 t2 : Nat) (hready : w.ready = true) :
    (∀ (services1 services2 : structs.Services) (g : serviceWatch)
      (r1 r2 : structs.IndexedCheckServiceNodes),
      GoMap.lookup w.services s = some g → s ∉ GoMap.keys services1 →
      s ∈ GoMap.keys services2 →
      ∃ w2,
        watchService.loop (handleServicesChanged w services1) s time none = some (w2, []) ∧
        GoMap.lookup (handleServicesChanged w2 services2).services s =
          some { stop := 0, idx := 0, lastState := [] } ∧
        ∃ w4 tr4,
          watchService.loop (handleServicesChanged w2 services2) s t1 (some r1) =
            some (w4, tr4) ∧
          tr4.filter Effect.isDiff = [] ∧
          GoMap.lookup w4.services s =
            some { stop := 0, idx := r1.Index, lastState := r1.Nodes } ∧
          (0 < r1.Index →
            ∃ w6 tr6, watchService.loop w4 s t2 (some r2) = some (w6, tr6) ∧
              tr6.filter Effect.isDiff =
                [Effect.compareServiceStates t2 r1.Nodes r2.Nodes])) ∧
    (∀ (nodes1 nodes2 : structs.Nodes) (g : nodeWatch) (r1 r2 : structs.IndexedHealthChecks),
      w.readyWg = 0 → nodesNamed w → GoMap.lookup w.nodes s = some g →
      s ∉ nodes1.map structs.Node.Node → s ∈ nodes2.map structs.Node.Node →
      ∃ w2 tr2 n,
        watchNode.loop agg (handleNodesChanged w nodes1) s time none = some (w2, tr2) ∧
        (∀ e ∈ tr2, e = Effect.wgWait) ∧
        n.Node = s ∧
        GoMap.lookup (handleNodesChanged w2 nodes2).nodes s =
          some { node := n, stop := 0, idx := 0, lastState := [] } ∧
        ∃ w4 tr4,
          watchNode.loop agg (handleNodesChanged w2 nodes2) s t1 (some r1) = some (w4, tr4) ∧
          tr4.filter Effect.isDiff = [] ∧
          GoMap.lookup w4.nodes s =
            some { node := n, stop := 0, idx := r1.Index,
                   lastState := r1.HealthChecks.filter (fun c => decide (c.ServiceID = "")) } ∧
          (0 < r1.Index →
            ∃ w6 tr6, watchNode.loop agg w4 s t2 (some r2) = some (w6, tr6) ∧
              tr6.filter Effect.isDiff =
                handleNodeChanged agg w4 n t2
                  (r1.HealthChecks.filter (fun c => decide (c.ServiceID = "")))
                  (r2.HealthChecks.filter (fun c => decide (c.ServiceID = ""))) ∧
              ∀ base o nw, Effect.compareChecks base o nw ∈ tr6 →
                o = r1.HealthChecks.filter (fun c => decide (c.ServiceID = "")) ∧
                base.OldNodeStatus =
                  (if r1.HealthChecks.filter (fun c => decide (c.ServiceID = "")) = [] then
                    tl.StatusMissing
                  else agg (r1.HealthChecks.filter (fun c => decide (c.ServiceID = "")))) ∧
                ((∀ cs, cs ≠ [] → agg cs ≠ tl.StatusMissing) →
                  (base.OldNodeStatus = tl.StatusMissing ↔
                    r1.HealthChecks.filter (fun c => decide (c.ServiceID = "")) = [])))) := by
  constructor
  · intro services1 services2 g r1 r2 hg h1 h2
    exact rediscovered_service w s services1 services2 time t1 t2 r1 r2 g hready hg h1 h2
  · intro nodes1 nodes2 g r1 r2 hwg hnamed hg h1 h2
    obtain ⟨w2, tr2, n, a1, a2, a3, a4, w4, tr4, a5, a6, a7, a8⟩ :=
      rediscovered_node agg w s nodes1 nodes2 time t1 t2 r1 r2 g hready hwg hnamed hg h1 h2
    refine ⟨w2, tr2, n, a1, a2, a3, a4, w4, tr4, a5, a6, a7, fun hpos => ?_⟩
    obtain ⟨w6, tr6, b1, b2, b3⟩ := a8 hpos
    refine ⟨w6, tr6, b1, b2, fun base o nw hmem => ?_⟩
    obtain ⟨c1, c2⟩ := b3 base o nw hmem
    refine ⟨c1, c2, fun hagg => ?_⟩
    rw [c2]
    by_cases he : r1.HealthChecks.filter (fun c => decide (c.ServiceID = "")) = []
    · simp [he]
    · rw [if_neg he]
      exact ⟨fun hc => absurd hc (hagg _ he), fun hc => absurd hc he⟩
theorem aggregatedStatus_ne_missing (cs : structs.HealthChecks) :
    aggregatedStatus cs ≠ tl.StatusMissing := by
  unfold aggregatedStatus tl.StatusMissing
  split
  · decide
  · split <;> decide

/-- C5 at a concrete input: the service `web` and the node `n1` are dropped from
one list and back in the next. -/
theorem rediscovered_entity_witness :
    (∃ w2,
      watchService.loop
        (handleServicesChanged
          { New { Datacenter := "dc1" } 0 with
            services := [("web", { stop := 0, idx := 4, lastState := [] })],
            nodes := [("n1", { node := { Node := "n1", Address := "a" }, stop := 0, idx := 4,
                               lastState := [{ Node := "n1", CheckID := "c1",
                                               Status := "passing", ServiceID := "" }] })],
            ready := true }
          [])
        "web" 1 none = some (w2, []) ∧
      GoMap.lookup (handleServicesChanged w2 [("web", [])]).services "web" =
        some { stop := 0, idx := 0, lastState := [] }) ∧
    (∃ w2 tr2 n,
      watchNode.loop aggregatedStatus
        (handleNodesChanged
          { New { Datacenter := "dc1" } 0 with
            services := [("web", { stop := 0, idx := 4, lastState := [] })],
            nodes := [("n1", { node := { Node := "n1", Address := "a" }, stop := 0, idx := 4,
                               lastState := [{ Node := "n1", CheckID := "c1",
                                               Status := "passing", ServiceID := "" }] })],
            ready := true }
          [])
        "n1" 1 none = some (w2, tr2) ∧
      n.Node = "n1" ∧
      GoMap.lookup (handleNodesChanged w2 [{ Node := "n1", Address := "b" }]).nodes "n1" =
        some { node := n, stop := 0, idx := 0, lastState := [] }) := by
  have h := rediscovered_entity aggregatedStatus
    { New { Datacenter := "dc1" } 0 with
      services := [("web", { stop := 0, idx := 4, lastState := [] })],
      nodes := [("n1", { node := { Node := "n1", Address := "a" }, stop := 0, idx := 4,
                         lastState := [{ Node := "n1", CheckID := "c1",
                                         Status := "passing", ServiceID := "" }] })],
      ready := true }
    "web" 1 2 3 (by decide)
  have h' := rediscovered_entity aggregatedStatus
    { New { Datacenter := "dc1" } 0 with
      services := [("web", { stop := 0, idx := 4, lastState := [] })],
      nodes := [("n1", { node := { Node := "n1", Address := "a" }, stop := 0, idx := 4,
                         lastState := [{ Node := "n1", CheckID := "c1",
                                         Status := "passing", ServiceID := "" }] })],
      ready := true }
    "n1" 1 2 3 (by decide)
  obtain ⟨w2, a1, a2, _⟩ := h.1 [] [("web", [])] { stop := 0, idx := 4, lastState := [] }
    { Nodes := [], Index := 5 } { Nodes := [], Index := 6 } (by decide) (by decide) (by decide)
  obtain ⟨v2, tr2, n, b1, _, b3, b4, _⟩ := h'.2 [] [{ Node := "n1", Address := "b" }]
    { node := { Node := "n1", Address := "a" }, stop := 0, idx := 4,
      lastState := [{ Node := "n1", CheckID := "c1", Status := "passing", ServiceID := "" }] }
    { HealthChecks := [{ Node := "n1", CheckID := "c1", Status := "critical", ServiceID := "" }],
      Index := 5 }
    { HealthChecks := [{ Node := "n1", CheckID := "c1", Status := "passing", ServiceID := "" }],
      Index := 6 }
    (by decide) (nodesNamed_of_forall _ (by decide)) (by decide) (by decide) (by decide)
  exact ⟨⟨w2, a1, a2⟩, ⟨v2, tr2, n, b1, b3, b4⟩⟩


/-- C5 fails as stated.  With `ready` true: the node `n1` is dropped, its
sub-watcher deregisters, the node is listed again, and the new sub-watcher
fetches a critical check and then a passing one; the only diff it performs is
called with the critical check as `old` and reports the old status critical,
not missing.  And when the node is listed again before its sub-watcher has taken
its loop-head step, the sub-watcher that serves it afterwards is the old one,
with its cached snapshot, and its diff is called with that snapshot as `old`.
The service `web`, dropped, deregistered and listed again, has its first diff
called with the snapshot of its first fetch, one node, as `old`. -/
theorem rediscovered_node_old_not_missing :
    (run aggregatedStatus
      { w := { New { Datacenter := "dc1" } 0 with
               nodes := [("n1", { node := { Node := "n1", Address := "a" }, stop := 0, idx := 4,
                                  lastState := [{ Node := "n1", CheckID := "c1",
                                                  Status := "passing", ServiceID := "" }] })],
               ready := true },
        servicesIdx := 9, nodesIdx := 9 }
      [Action.watchNodes (some { Nodes := [], Index := 10 }),
       Action.watchNode "n1" 1 none,
       Action.watchNodes (some { Nodes := [{ Node := "n1", Address := "a" }], Index := 11 }),
       Action.watchNode "n1" 2 (some { Index := 5, HealthChecks :=
         [{ Node := "n1", CheckID := "c1", Status := "critical", ServiceID := "" }] }),
       Action.watchNode "n1" 3 (some { Index := 6, HealthChecks :=
         [{ Node := "n1", CheckID := "c1", Status := "passing", ServiceID := "" }] })]).map
      (fun r => r.2.filter Effect.isDiff) =
      some [Effect.aggregatedStatus
              [{ Node := "n1", CheckID := "c1", Status := "critical", ServiceID := "" }],
            Effect.aggregatedStatus
              [{ Node := "n1", CheckID := "c1", Status := "passing", ServiceID := "" }],
            Effect.compareChecks
              { Time := 3, Datacenter := "dc1", NodeName := "n1", NodeIP := "a",
                OldNodeStatus := tl.Status.critical, NewNodeStatus := tl.Status.passing }
              [{ Node := "n1", CheckID := "c1", Status := "critical", ServiceID := "" }]
              [{ Node := "n1", CheckID := "c1", Status := "passing", ServiceID := "" }]] ∧
    (run aggregatedStatus
      { w := { New { Datacenter := "dc1" } 0 with
               nodes := [("n1", { node := { Node := "n1", Address := "a" }, stop := 0, idx := 4,
                                  lastState := [{ Node := "n1", CheckID := "c1",
                                                  Status := "warning", ServiceID := "" }] })],
               ready := true },
        servicesIdx := 9, nodesIdx := 9 }
      [Action.watchNodes (some { Nodes := [], Index := 10 }),
       Action.watchNodes (some { Nodes := [{ Node := "n1", Address := "a" }], Index := 11 }),
       Action.watchNode "n1" 3 (some { Index := 6, HealthChecks :=
         [{ Node := "n1", CheckID := "c1", Status := "passing", ServiceID := "" }] })]).map
      (fun r => r.2.filter Effect.isDiff) =
      some [Effect.aggregatedStatus
              [{ Node := "n1", CheckID := "c1", Status := "warning", ServiceID := "" }],
            Effect.aggregatedStatus
              [{ Node := "n1", CheckID := "c1", Status := "passing", ServiceID := "" }],
            Effect.compareChecks
              { Time := 3, Datacenter := "dc1", NodeName := "n1", NodeIP := "a",
                OldNodeStatus := tl.Status.warning, NewNodeStatus := tl.Status.passing }
              [{ Node := "n1", CheckID := "c1", Status := "warning", ServiceID := "" }]
              [{ Node := "n1", CheckID := "c1", Status := "passing", ServiceID := "" }]] ∧
    (run aggregatedStatus
      { w := { New { Datacenter := "dc1" } 0 with
               services := [("web", { stop := 0, idx := 4, lastState := [] })],
               ready := true },
        servicesIdx := 9, nodesIdx := 9 }
      [Action.watchServices (some { Services := [], Index := 10 }),
       Action.watchService "web" 1 none,
       Action.watchServices (some { Services := [("web", [])], Index := 11 }),
       Action.watchService "web" 2 (some { Index := 5, Nodes :=
         [{ Node := { Node := "n1", Address := "a" }, Checks := [] }] }),
       Action.watchService "web" 3 (some { Index := 6, Nodes := [] })]).map
      (fun r => r.2.filter Effect.isDiff) =
      some [Effect.compareServiceStates 3
              [{ Node := { Node := "n1", Address := "a" }, Checks := [] }] []] := by
  refine ⟨?_, ?_, ?_⟩ <;> decide

/-! ## The startup countdown -/

theorem mem_fetched_snoc (pre : List Action) (a : Action) (x : Actor) :
    x ∈ fetched (pre ++ [a]) ↔ x ∈ fetched pre ∨ (a.ok = true ∧ x = a.actor) := by
  unfold fetched
  rw [List.filter_append, List.map_append, List.mem_append]
  by_cases h : a.ok = true
  · simp [List.filter_cons, h]
  · simp [List.filter_cons, h]

theorem fetched_snoc_failed (pre : List Action) (a : Action) (h : a.ok = false) :
    fetched (pre ++ [a]) = fetched pre := by
  unfold fetched
  rw [List.filter_append]
  simp [List.filter_cons, h]

theorem countNot_congr (D D1 : List Actor) (f : String → Actor) (L : List String)
    (h : ∀ n ∈ L, (f n ∈ D1 ↔ f n ∈ D)) : countNot D1 f L = countNot D f L := by
  unfold countNot
  congr 1
  apply List.filter_congr
  intro n hn
  simp only [h n hn]

theorem countNot_all (D : List Actor) (f : String → Actor) (L : List String)
    (h : ∀ n ∈ L, f n ∉ D) : countNot D f L = L.length := by
  unfold countNot
  congr 1
  rw [List.filter_eq_self]
  intro n hn
  simp [h n hn]

theorem countNot_eq_zero (D : List Actor) (f : String → Actor) (L : List String) :
    countNot D f L = 0 ↔ ∀ n ∈ L, f n ∈ D := by
  unfold countNot
  rw [List.length_eq_zero, List.filter_eq_nil_iff]
  simp

theorem countNot_cons (D : List Actor) (f : String → Actor) (y : String) (L : List String) :
    countNot D f (y :: L) = (if f y ∈ D then 0 else 1) + countNot D f L := by
  unfold countNot
  by_cases h : f y ∈ D
  · simp [List.filter_cons, h]
  · simp [List.filter_cons, h]
    omega

theorem countNot_remove (D D1 : List Actor) (f : String → Actor) (L : List String) (x : String)
    (hL : L.Nodup) (hx : x ∈ L) (h0 : f x ∉ D) (h1 : f x ∈ D1)
    (h : ∀ n ∈ L, n ≠ x → (f n ∈ D1 ↔ f n ∈ D)) :
    countNot D1 f L + 1 = countNot D f L := by
  induction L with
  | nil => cases hx
  | cons y L ih =>
    have hnd := List.nodup_cons.1 hL
    rw [countNot_cons, countNot_cons]
    by_cases hy : y = x
    · subst hy
      have hrest : ∀ n ∈ L, (f n ∈ D1 ↔ f n ∈ D) := by
        intro n hn
        exact h n (List.mem_cons_of_mem _ hn) (fun hc => hnd.1 (hc ▸ hn))
      rw [countNot_congr D D1 f L hrest, if_pos h1, if_neg h0]
      omega
    · have hxL : x ∈ L := by
        rcases List.mem_cons.1 hx with h2 | h2
        · exact absurd h2.symm hy
        · exact h2
      have ih2 := ih hnd.2 hxL (fun n hn hne => h n (List.mem_cons_of_mem _ hn) hne)
      have hyiff := h y (List.mem_cons_self _ _) hy
      by_cases hyD : f y ∈ D
      · rw [if_pos hyD, if_pos (hyiff.2 hyD)]
        omega
      · rw [if_neg hyD, if_neg (fun hc => hyD (hyiff.1 hc))]
        omega

theorem StartupInv_armed (c : consul) (bufferSize : Nat) :
    StartupInv [] (System.armed c bufferSize) where
  counter := by
    simp [System.armed, Run.arm, New, pending, fetched, countNot, GoMap.keys]
  notReady := rfl
  servicesFirst := fun _ => ⟨rfl, rfl⟩
  nodesFirst := fun _ => ⟨rfl, rfl⟩
  serviceSub := by
    intro n g h
    cases h
  nodeSub := by
    intro n g h
    cases h
  serviceReg := by
    intro n h
    cases h
  nodeReg := by
    intro n h
    cases h
  servicesWF := List.nodup_nil
  nodesWF := List.nodup_nil
  servicesList := by
    intro r h
    cases h
  nodesList := by
    intro r h
    cases h

/-- A step whose fetch fails, or that changes nothing, keeps the invariant. -/
theorem StartupInv_stutter (pre : List Action) (s : System) (a : Action) (h : StartupInv pre s)
    (hok : a.ok = false) : StartupInv (pre ++ [a]) s := by
  have hf := fetched_snoc_failed pre a hok
  have hmem : ∀ b : Action, b.ok = true → (b ∈ pre ++ [a] ↔ b ∈ pre) := by
    intro b hb
    rw [List.mem_append, List.mem_singleton]
    constructor
    · rintro (h1 | h1)
      · exact h1
      · rw [h1, hok] at hb
        cases hb
    · exact Or.inl
  refine ⟨?_, h.notReady, ?_, ?_, ?_, ?_, ?_, ?_, h.servicesWF, h.nodesWF, ?_, ?_⟩
  · rw [hf]; exact h.counter
  · rw [hf]; exact h.servicesFirst
  · rw [hf]; exact h.nodesFirst
  · rw [hf]; exact h.serviceSub
  · rw [hf]; exact h.nodeSub
  · rw [hf]; exact h.serviceReg
  · rw [hf]; exact h.nodeReg
  · intro r hr
    exact h.servicesList r ((hmem (Action.watchServices (some r)) rfl).1 hr)
  · intro r hr
    exact h.nodesList r ((hmem (Action.watchNodes (some r)) rfl).1 hr)

theorem StartupInv_watchService (agg : structs.HealthChecks → tl.Status) (pre : List Action)
    (s s1 : System) (name : String) (time : Nat) (r : structs.IndexedCheckServiceNodes)
    (tr : List Effect) (h : StartupInv pre s)
    (hstep : step agg s (Action.watchService name time (some r)) = some (s1, tr))
    (hpos : 0 < r.Index) :
    StartupInv (pre ++ [Action.watchService name time (some r)]) s1 := by
  rw [step_watchService] at hstep
  obtain ⟨w, hw, rfl⟩ := hstep
  cases hg : GoMap.lookup s.w.services name with
  | none =>
    unfold watchService.loop at hw
    simp [hg] at hw
  | some g =>
    obtain ⟨hstop, hidx, hidx2⟩ := h.serviceSub name g hg
    obtain ⟨w1, tr1, e1, e2, e3, e4, _, _, e7, e8, _, _⟩ :=
      watchService_loop_ok s.w name time g r hg (by omega)
    rw [e1] at hw
    simp only [Option.some.injEq, Prod.mk.injEq] at hw
    obtain ⟨rfl, rfl⟩ := hw
    have hname : name ∈ GoMap.keys s.w.services := GoMap.mem_keys_of_lookup _ _ _ hg
    have hkeys : GoMap.keys w1.services = GoMap.keys s.w.services := by
      rw [e2]
      exact GoMap.keys_store_of_mem _ _ _ hname
    have hD : ∀ x, x ∈ fetched (pre ++ [Action.watchService name time (some r)]) ↔
        x ∈ fetched pre ∨ x = Actor.watchService name := by
      intro x
      rw [mem_fetched_snoc]
      simp [Action.ok, Action.actor]
    have hmem : ∀ b : Action, (∀ n t q, b ≠ Action.watchService n t q) →
        (b ∈ pre ++ [Action.watchService name time (some r)] ↔ b ∈ pre) := by
      intro b hb
      rw [List.mem_append, List.mem_singleton]
      exact ⟨fun h1 => h1.resolve_right (hb _ _ _), Or.inl⟩
    refine ⟨?_, e4.trans h.notReady, ?_, ?_, ?_, ?_, ?_, ?_, ?_, ?_, ?_, ?_⟩
    · have hc := h.counter
      have h3 : (Actor.watchServices ∈ fetched (pre ++ [Action.watchService name time (some r)]))
          ↔ Actor.watchServices ∈ fetched pre := by
        rw [hD]
        simp
      have h4 : (Actor.watchNodes ∈ fetched (pre ++ [Action.watchService name time (some r)]))
          ↔ Actor.watchNodes ∈ fetched pre := by
        rw [hD]
        simp
      have h2 : countNot (fetched (pre ++ [Action.watchService name time (some r)]))
          Actor.watchNode (GoMap.keys s.w.nodes) =
          countNot (fetched pre) Actor.watchNode (GoMap.keys s.w.nodes) := by
        apply countNot_congr
        intro n _
        rw [hD]
        simp
      show w1.readyWg = _
      unfold pending at hc ⊢
      show w1.readyWg = ((((if _ then 0 else 1) + (if _ then 0 else 1) +
        countNot _ Actor.watchService (GoMap.keys w1.services) +
        countNot _ Actor.watchNode (GoMap.keys w1.nodes) : Nat)) : Int)
      by_cases hnew : Actor.watchService name ∈ fetched pre
      · have h1 : countNot (fetched (pre ++ [Action.watchService name time (some r)]))
            Actor.watchService (GoMap.keys s.w.services) =
            countNot (fetched pre) Actor.watchService (GoMap.keys s.w.services) := by
          apply countNot_congr
          intro n _
          rw [hD]
          constructor
          · rintro (h5 | h5)
            · exact h5
            · rw [h5]
              exact hnew
          · exact Or.inl
        have h8 : wgDones tr1 = 0 := by
          rw [e8, if_neg]
          rintro ⟨h9, _⟩
          have := hidx2 hnew
          omega
        rw [hkeys, e3, e7, h8, hc, h1, h2]
        simp only [h3, h4]
        omega
      · have h1 : countNot (fetched (pre ++ [Action.watchService name time (some r)]))
            Actor.watchService (GoMap.keys s.w.services) + 1 =
            countNot (fetched pre) Actor.watchService (GoMap.keys s.w.services) := by
          apply countNot_remove _ _ _ _ name h.servicesWF hname hnew ((hD _).2 (Or.inr rfl))
          intro n _ hne
          rw [hD]
          simp [hne]
        have h8 : wgDones tr1 = 1 := by
          rw [e8, if_pos ⟨hidx hnew, h.notReady⟩]
        rw [hkeys, e3, e7, h8, hc, h2]
        simp only [h3, h4]
        omega
    · intro hn
      have := h.servicesFirst (fun hc => hn ((hD _).2 (Or.inl hc)))
      rw [this.1] at hname
      cases hname
    · intro hn
      have := h.nodesFirst (fun hc => hn ((hD _).2 (Or.inl hc)))
      exact ⟨e3.trans this.1, this.2⟩
    · intro n g1 hg1
      change GoMap.lookup w1.services n = some g1 at hg1
      rw [e2] at hg1
      by_cases hn : n = name
      · subst hn
        rw [GoMap.lookup_store_self] at hg1
        simp only [Option.some.injEq] at hg1
        subst hg1
        exact ⟨hstop, fun hc => absurd ((hD _).2 (Or.inr rfl)) hc, fun _ => hpos⟩
      · rw [GoMap.lookup_store_ne _ _ _ _ hn] at hg1
        obtain ⟨a1, a2, a3⟩ := h.serviceSub n g1 hg1
        refine ⟨a1, fun hc => a2 (fun hc2 => hc ((hD _).2 (Or.inl hc2))), fun hc => ?_⟩
        rcases (hD _).1 hc with h5 | h5
        · exact a3 h5
        · simp only [Actor.watchService.injEq] at h5
          exact absurd h5 hn
    · intro n g1 hg1
      change GoMap.lookup w1.nodes n = some g1 at hg1
      rw [e3] at hg1
      obtain ⟨a1, a2, a3⟩ := h.nodeSub n g1 hg1
      refine ⟨a1, fun hc => a2 (fun hc2 => hc ((hD _).2 (Or.inl hc2))), fun hc => ?_⟩
      rcases (hD _).1 hc with h5 | h5
      · exact a3 h5
      · cases h5
    · intro n hn
      show n ∈ GoMap.keys w1.services
      rw [hkeys]
      rcases (hD _).1 hn with h1 | h1
      · exact h.serviceReg n h1
      · simp only [Actor.watchService.injEq] at h1
        rw [h1]
        exact hname
    · intro n hn
      show n ∈ GoMap.keys w1.nodes
      rw [e3]
      rcases (hD _).1 hn with h1 | h1
      · exact h.nodeReg n h1
      · cases h1
    · show GoMap.WF w1.services
      unfold GoMap.WF
      rw [hkeys]
      exact h.servicesWF
    · show GoMap.WF w1.nodes
      rw [e3]
      exact h.nodesWF
    · intro q hq
      show GoMap.keys w1.services = _
      rw [hkeys]
      exact h.servicesList q ((hmem _ (by intro n t q hc; cases hc)).1 hq)
    · intro q hq
      show GoMap.keys w1.nodes = _
      rw [e3]
      exact h.nodesList q ((hmem _ (by intro n t q hc; cases hc)).1 hq)

theorem StartupInv_watchNode (agg : structs.HealthChecks → tl.Status) (pre : List Action)
    (s s1 : System) (name : String) (time : Nat) (r : structs.IndexedHealthChecks)
    (tr : List Effect) (h : StartupInv pre s)
    (hstep : step agg s (Action.watchNode name time (some r)) = some (s1, tr))
    (hpos : 0 < r.Index) :
    StartupInv (pre ++ [Action.watchNode name time (some r)]) s1 := by
  rw [step_watchNode] at hstep
  obtain ⟨w, hw, rfl⟩ := hstep
  cases hg : GoMap.lookup s.w.nodes name with
  | none =>
    unfold watchNode.loop at hw
    simp [hg] at hw
  | some g =>
    obtain ⟨hstop, hidx, hidx2⟩ := h.nodeSub name g hg
    have hb : g.idx = 0 ∨ s.w.readyWg = 0 := by
      by_contra hc
      push_neg at hc
      rw [watchNode_loop_held agg s.w name time g (some r) hg
        ⟨Nat.pos_of_ne_zero hc.1, hc.2⟩] at hw
      cases hw
    obtain ⟨w1, tr1, e1, e2, e3, e4, _, _, e7, e8, _, _⟩ :=
      watchNode_loop_ok agg s.w name time g r hg (by omega) hb
    rw [e1] at hw
    simp only [Option.some.injEq, Prod.mk.injEq] at hw
    obtain ⟨rfl, rfl⟩ := hw
    have hname : name ∈ GoMap.keys s.w.nodes := GoMap.mem_keys_of_lookup _ _ _ hg
    have hkeys : GoMap.keys w1.nodes = GoMap.keys s.w.nodes := by
      rw [e2]
      exact GoMap.keys_store_of_mem _ _ _ hname
    have hD : ∀ x, x ∈ fetched (pre ++ [Action.watchNode name time (some r)]) ↔
        x ∈ fetched pre ∨ x = Actor.watchNode name := by
      intro x
      rw [mem_fetched_snoc]
      simp [Action.ok, Action.actor]
    have hmem : ∀ b : Action, (∀ n t q, b ≠ Action.watchNode n t q) →
        (b ∈ pre ++ [Action.watchNode name time (some r)] ↔ b ∈ pre) := by
      intro b hb
      rw [List.mem_append, List.mem_singleton]
      exact ⟨fun h1 => h1.resolve_right (hb _ _ _), Or.inl⟩
    refine ⟨?_, e4.trans h.notReady, ?_, ?_, ?_, ?_, ?_, ?_, ?_, ?_, ?_, ?_⟩
    · have hc := h.counter
      have h3 : (Actor.watchServices ∈ fetched (pre ++ [Action.watchNode name time (some r)]))
          ↔ Actor.watchServices ∈ fetched pre := by
        rw [hD]
        simp
      have h4 : (Actor.watchNodes ∈ fetched (pre ++ [Action.watchNode name time (some r)]))
          ↔ Actor.watchNodes ∈ fetched pre := by
        rw [hD]
        simp
      have h2 : countNot (fetched (pre ++ [Action.watchNode name time (some r)]))
          Actor.watchService (GoMap.keys s.w.services) =
          countNot (fetched pre) Actor.watchService (GoMap.keys s.w.services) := by
        apply countNot_congr
        intro n _
        rw [hD]
        simp
      show w1.readyWg = _
      unfold pending at hc ⊢
      show w1.readyWg = ((((if _ then 0 else 1) + (if _ then 0 else 1) +
        countNot _ Actor.watchService (GoMap.keys w1.services) +
        countNot _ Actor.watchNode (GoMap.keys w1.nodes) : Nat)) : Int)
      by_cases hnew : Actor.watchNode name ∈ fetched pre
      · have h1 : countNot (fetched (pre ++ [Action.watchNode name time (some r)]))
            Actor.watchNode (GoMap.keys s.w.nodes) =
            countNot (fetched pre) Actor.watchNode (GoMap.keys s.w.nodes) := by
          apply countNot_congr
          intro n _
          rw [hD]
          constructor
          · rintro (h5 | h5)
            · exact h5
            · rw [h5]
              exact hnew
          · exact Or.inl
        have h8 : wgDones tr1 = 0 := by
          rw [e8, if_neg]
          rintro ⟨h9, _⟩
          have := hidx2 hnew
          omega
        rw [hkeys, e3, e7, h8, hc, h1, h2]
        simp only [h3, h4]
        omega
      · have h1 : countNot (fetched (pre ++ [Action.watchNode name time (some r)]))
            Actor.watchNode (GoMap.keys s.w.nodes) + 1 =
            countNot (fetched pre) Actor.watchNode (GoMap.keys s.w.nodes) := by
          apply countNot_remove _ _ _ _ name h.nodesWF hname hnew ((hD _).2 (Or.inr rfl))
          intro n _ hne
          rw [hD]
          simp [hne]
        have h8 : wgDones tr1 = 1 := by
          rw [e8, if_pos ⟨hidx hnew, h.notReady⟩]
        rw [hkeys, e3, e7, h8, hc, h2]
        simp only [h3, h4]
        omega
    · intro hn
      have := h.servicesFirst (fun hc => hn ((hD _).2 (Or.inl hc)))
      exact ⟨e3.trans this.1, this.2⟩
    · intro hn
      have := h.nodesFirst (fun hc => hn ((hD _).2 (Or.inl hc)))
      rw [this.1] at hname
      cases hname
    · intro n g1 hg1
      change GoMap.lookup w1.services n = some g1 at hg1
      rw [e3] at hg1
      obtain ⟨a1, a2, a3⟩ := h.serviceSub n g1 hg1
      refine ⟨a1, fun hc => a2 (fun hc2 => hc ((hD _).2 (Or.inl hc2))), fun hc => ?_⟩
      rcases (hD _).1 hc with h5 | h5
      · exact a3 h5
      · cases h5
    · intro n g1 hg1
      change GoMap.lookup w1.nodes n = some g1 at hg1
      rw [e2] at hg1
      by_cases hn : n = name
      · subst hn
        rw [GoMap.lookup_store_self] at hg1
        simp only [Option.some.injEq] at hg1
        subst hg1
        exact ⟨hstop, fun hc => absurd ((hD _).2 (Or.inr rfl)) hc, fun _ => hpos⟩
      · rw [GoMap.lookup_store_ne _ _ _ _ hn] at hg1
        obtain ⟨a1, a2, a3⟩ := h.nodeSub n g1 hg1
        refine ⟨a1, fun hc => a2 (fun hc2 => hc ((hD _).2 (Or.inl hc2))), fun hc => ?_⟩
        rcases (hD _).1 hc with h5 | h5
        · exact a3 h5
        · simp only [Actor.watchNode.injEq] at h5
          exact absurd h5 hn
    · intro n hn
      show n ∈ GoMap.keys w1.services
      rw [e3]
      rcases (hD _).1 hn with h1 | h1
      · exact h.serviceReg n h1
      · cases h1
    · intro n hn
      show n ∈ GoMap.keys w1.nodes
      rw [hkeys]
      rcases (hD _).1 hn with h1 | h1
      · exact h.nodeReg n h1
      · simp only [Actor.watchNode.injEq] at h1
        rw [h1]
        exact hname
    · show GoMap.WF w1.services
      rw [e3]
      exact h.servicesWF
    · show GoMap.WF w1.nodes
      unfold GoMap.WF
      rw [hkeys]
      exact h.nodesWF
    · intro q hq
      show GoMap.keys w1.services = _
      rw [e3]
      exact h.servicesList q ((hmem _ (by intro n t q hc; cases hc)).1 hq)
    · intro q hq
      show GoMap.keys w1.nodes = _
      rw [hkeys]
      exact h.nodesList q ((hmem _ (by intro n t q hc; cases hc)).1 hq)

theorem lookup_nil {α : Type} (t : String) : GoMap.lookup ([] : GoMap α) t = none := rfl

theorem StartupInv_watchServices (agg : structs.HealthChecks → tl.Status) (pre : List Action)
    (s s1 : System) (r : structs.IndexedServices) (tr : List Effect) (h : StartupInv pre s)
    (hstep : step agg s (Action.watchServices (some r)) = some (s1, tr))
    (hnew : Actor.watchServices ∉ fetched pre) (hwf : GoMap.WF r.Services) :
    StartupInv (pre ++ [Action.watchServices (some r)]) s1 := by
  rw [step_watchServices] at hstep
  obtain ⟨w, idx, hw, rfl⟩ := hstep
  obtain ⟨hempty, hidx0⟩ := h.servicesFirst hnew
  obtain ⟨_, _, hsome⟩ := watchServices_loop_some _ _ _ _ _ _ hw
  obtain ⟨e1, e2, _, _⟩ := hsome r rfl
  rw [if_pos hidx0] at e2
  have hsame := sameButServices_handleServicesChanged
    { s.w with readyWg := s.w.readyWg + (GoMap.len r.Services : Int) - 1 } r.Services
  rw [← e2] at hsame
  have hkeys : GoMap.keys w.services = GoMap.keys r.Services := by
    rw [e2]
    exact keys_handleServicesChanged_nil _ _ hempty hwf
  have hD : ∀ x, x ∈ fetched (pre ++ [Action.watchServices (some r)]) ↔
      x ∈ fetched pre ∨ x = Actor.watchServices := by
    intro x
    rw [mem_fetched_snoc]
    simp [Action.ok, Action.actor]
  have hnone : ∀ n, Actor.watchService n ∉ fetched pre := by
    intro n hn
    have := h.serviceReg n hn
    rw [hempty] at this
    cases this
  refine ⟨?_, hsame.2.2.1.trans h.notReady, ?_, ?_, ?_, ?_, ?_, ?_, ?_, ?_, ?_, ?_⟩
  · have hc := h.counter
    have h1 : countNot (fetched (pre ++ [Action.watchServices (some r)]))
        Actor.watchService (GoMap.keys r.Services) = GoMap.len r.Services := by
      rw [countNot_all]
      · simp [GoMap.keys, GoMap.len]
      · intro n _ hn
        rcases (hD _).1 hn with h2 | h2
        · exact hnone n h2
        · cases h2
    have h2 : countNot (fetched (pre ++ [Action.watchServices (some r)]))
        Actor.watchNode (GoMap.keys s.w.nodes) =
        countNot (fetched pre) Actor.watchNode (GoMap.keys s.w.nodes) := by
      apply countNot_congr
      intro n _
      rw [hD]
      simp
    have h3 : Actor.watchServices ∈ fetched (pre ++ [Action.watchServices (some r)]) :=
      (hD _).2 (Or.inr rfl)
    have h4 : (Actor.watchNodes ∈ fetched (pre ++ [Action.watchServices (some r)]))
        ↔ Actor.watchNodes ∈ fetched pre := by
      rw [hD]
      simp
    have h5 : countNot (fetched pre) Actor.watchService (GoMap.keys s.w.services) = 0 := by
      rw [hempty]
      rfl
    show w.readyWg = _
    unfold pending at hc ⊢
    show w.readyWg = ((((if _ then 0 else 1) + (if _ then 0 else 1) +
      countNot _ Actor.watchService (GoMap.keys w.services) +
      countNot _ Actor.watchNode (GoMap.keys w.nodes) : Nat)) : Int)
    rw [hkeys, hsame.2.1, hsame.2.2.2.1, h1, h2, if_pos h3]
    show s.w.readyWg + (GoMap.len r.Services : Int) - 1 = _
    rw [hc, h5, if_neg hnew]
    simp only [h4]
    push_cast
    omega
  · intro hn
    exact absurd ((hD _).2 (Or.inr rfl)) hn
  · intro hn
    have := h.nodesFirst (fun hc => hn ((hD _).2 (Or.inl hc)))
    exact ⟨hsame.2.1.trans this.1, this.2⟩
  · intro n g1 hg1
    change GoMap.lookup w.services n = some g1 at hg1
    rw [e2, lookup_handleServicesChanged] at hg1
    change (if n ∈ GoMap.keys r.Services then
      some (reviveService (GoMap.lookup s.w.services n))
      else (GoMap.lookup s.w.services n).map (fun g => { g with stop := 1 })) = some g1 at hg1
    rw [hempty, lookup_nil] at hg1
    by_cases hn : n ∈ GoMap.keys r.Services
    · rw [if_pos hn] at hg1
      simp only [Option.some.injEq] at hg1
      subst hg1
      refine ⟨rfl, fun _ => rfl, fun hc => ?_⟩
      rcases (hD _).1 hc with h5 | h5
      · exact absurd h5 (hnone n)
      · cases h5
    · rw [if_neg hn] at hg1
      cases hg1
  · intro n g1 hg1
    change GoMap.lookup w.nodes n = some g1 at hg1
    rw [hsame.2.1] at hg1
    obtain ⟨a1, a2, a3⟩ := h.nodeSub n g1 hg1
    refine ⟨a1, fun hc => a2 (fun hc2 => hc ((hD _).2 (Or.inl hc2))), fun hc => ?_⟩
    rcases (hD _).1 hc with h5 | h5
    · exact a3 h5
    · cases h5
  · intro n hn
    rcases (hD _).1 hn with h1 | h1
    · exact absurd h1 (hnone n)
    · cases h1
  · intro n hn
    show n ∈ GoMap.keys w.nodes
    rw [hsame.2.1]
    rcases (hD _).1 hn with h1 | h1
    · exact h.nodeReg n h1
    · cases h1
  · show GoMap.WF w.services
    unfold GoMap.WF
    rw [hkeys]
    exact hwf
  · show GoMap.WF w.nodes
    rw [hsame.2.1]
    exact h.nodesWF
  · intro q hq
    show GoMap.keys w.services = _
    rw [hkeys]
    rw [List.mem_append, List.mem_singleton] at hq
    rcases hq with hq | hq
    · exfalso
      apply hnew
      unfold fetched
      exact List.mem_map.2 ⟨_, List.mem_filter.2 ⟨hq, rfl⟩, rfl⟩
    · simp only [Action.watchServices.injEq, Option.some.injEq] at hq
      rw [hq]
  · intro q hq
    show GoMap.keys w.nodes = _
    rw [hsame.2.1]
    rw [List.mem_append, List.mem_singleton] at hq
    rcases hq with hq | hq
    · exact h.nodesList q hq
    · cases hq

theorem StartupInv_watchNodes (agg : structs.HealthChecks → tl.Status) (pre : List Action)
    (s s1 : System) (r : structs.IndexedNodes) (tr : List Effect) (h : StartupInv pre s)
    (hstep : step agg s (Action.watchNodes (some r)) = some (s1, tr))
    (hnew : Actor.watchNodes ∉ fetched pre) (hwf : (r.Nodes.map structs.Node.Node).Nodup) :
    StartupInv (pre ++ [Action.watchNodes (some r)]) s1 := by
  rw [step_watchNodes] at hstep
  obtain ⟨w, idx, hw, rfl⟩ := hstep
  obtain ⟨hempty, hidx0⟩ := h.nodesFirst hnew
  obtain ⟨_, _, hsome⟩ := watchNodes_loop_some _ _ _ _ _ _ hw
  obtain ⟨e1, e2, _, _⟩ := hsome r rfl
  rw [if_pos ⟨hidx0, h.notReady⟩] at e2
  have hsame := sameButNodes_handleNodesChanged
    { s.w with readyWg := s.w.readyWg + (r.Nodes.length : Int) - 1 } r.Nodes
  rw [← e2] at hsame
  have hkeys : GoMap.keys w.nodes = r.Nodes.map structs.Node.Node := by
    rw [e2]
    exact keys_handleNodesChanged_nil _ _ hempty hwf
  have hD : ∀ x, x ∈ fetched (pre ++ [Action.watchNodes (some r)]) ↔
      x ∈ fetched pre ∨ x = Actor.watchNodes := by
    intro x
    rw [mem_fetched_snoc]
    simp [Action.ok, Action.actor]
  have hnone : ∀ n, Actor.watchNode n ∉ fetched pre := by
    intro n hn
    have := h.nodeReg n hn
    rw [hempty] at this
    cases this
  refine ⟨?_, hsame.2.2.1.trans h.notReady, ?_, ?_, ?_, ?_, ?_, ?_, ?_, ?_, ?_, ?_⟩
  · have hc := h.counter
    have h1 : countNot (fetched (pre ++ [Action.watchNodes (some r)]))
        Actor.watchNode (r.Nodes.map structs.Node.Node) = r.Nodes.length := by
      rw [countNot_all]
      · simp
      · intro n _ hn
        rcases (hD _).1 hn with h2 | h2
        · exact hnone n h2
        · cases h2
    have h2 : countNot (fetched (pre ++ [Action.watchNodes (some r)]))
        Actor.watchService (GoMap.keys s.w.services) =
        countNot (fetched pre) Actor.watchService (GoMap.keys s.w.services) := by
      apply countNot_congr
      intro n _
      rw [hD]
      simp
    have h3 : Actor.watchNodes ∈ fetched (pre ++ [Action.watchNodes (some r)]) :=
      (hD _).2 (Or.inr rfl)
    have h4 : (Actor.watchServices ∈ fetched (pre ++ [Action.watchNodes (some r)]))
        ↔ Actor.watchServices ∈ fetched pre := by
      rw [hD]
      simp
    have h5 : countNot (fetched pre) Actor.watchNode (GoMap.keys s.w.nodes) = 0 := by
      rw [hempty]
      rfl
    show w.readyWg = _
    unfold pending at hc ⊢
    show w.readyWg = ((((if _ then 0 else 1) + (if _ then 0 else 1) +
      countNot _ Actor.watchService (GoMap.keys w.services) +
      countNot _ Actor.watchNode (GoMap.keys w.nodes) : Nat)) : Int)
    rw [hkeys, hsame.2.1, hsame.2.2.2.1, h1, h2, if_pos h3]
    show s.w.readyWg + (r.Nodes.length : Int) - 1 = _
    rw [hc, h5, if_neg hnew]
    simp only [h4]
    push_cast
    omega
  · intro hn
    have := h.servicesFirst (fun hc => hn ((hD _).2 (Or.inl hc)))
    exact ⟨hsame.2.1.trans this.1, this.2⟩
  · intro hn
    exact absurd ((hD _).2 (Or.inr rfl)) hn
  · intro n g1 hg1
    change GoMap.lookup w.services n = some g1 at hg1
    rw [hsame.2.1] at hg1
    obtain ⟨a1, a2, a3⟩ := h.serviceSub n g1 hg1
    refine ⟨a1, fun hc => a2 (fun hc2 => hc ((hD _).2 (Or.inl hc2))), fun hc => ?_⟩
    rcases (hD _).1 hc with h5 | h5
    · exact a3 h5
    · cases h5
  · intro n g1 hg1
    change GoMap.lookup w.nodes n = some g1 at hg1
    rw [e2, lookup_handleNodesChanged] at hg1
    change (if n ∈ r.Nodes.map structs.Node.Node then
      reviveNode (GoMap.lookup (nodesNew r.Nodes) n) (GoMap.lookup s.w.nodes n)
      else (GoMap.lookup s.w.nodes n).map (fun g => { g with stop := 1 })) = some g1 at hg1
    rw [hempty, lookup_nil] at hg1
    by_cases hn : n ∈ r.Nodes.map structs.Node.Node
    · rw [if_pos hn] at hg1
      cases hnew2 : GoMap.lookup (nodesNew r.Nodes) n with
      | none =>
        rw [hnew2] at hg1
        cases hg1
      | some nd =>
        rw [hnew2] at hg1
        simp only [reviveNode, Option.map_some', Option.some.injEq] at hg1
        subst hg1
        refine ⟨rfl, fun _ => rfl, fun hc => ?_⟩
        rcases (hD _).1 hc with h5 | h5
        · exact absurd h5 (hnone n)
        · cases h5
    · rw [if_neg hn] at hg1
      cases hg1
  · intro n hn
    show n ∈ GoMap.keys w.services
    rw [hsame.2.1]
    rcases (hD _).1 hn with h1 | h1
    · exact h.serviceReg n h1
    · cases h1
  · intro n hn
    rcases (hD _).1 hn with h1 | h1
    · exact absurd h1 (hnone n)
    · cases h1
  · show GoMap.WF w.services
    rw [hsame.2.1]
    exact h.servicesWF
  · show GoMap.WF w.nodes
    unfold GoMap.WF
    rw [hkeys]
    exact hwf
  · intro q hq
    show GoMap.keys w.services = _
    rw [hsame.2.1]
    rw [List.mem_append, List.mem_singleton] at hq
    rcases hq with hq | hq
    · exact h.servicesList q hq
    · cases hq
  · intro q hq
    show GoMap.keys w.nodes = _
    rw [hkeys]
    rw [List.mem_append, List.mem_singleton] at hq
    rcases hq with hq | hq
    · exfalso
      apply hnew
      unfold fetched
      exact List.mem_map.2 ⟨_, List.mem_filter.2 ⟨hq, rfl⟩, rfl⟩
    · simp only [Action.watchNodes.injEq, Option.some.injEq] at hq
      rw [hq]

theorem System_eta (s : System) : ({ s with w := s.w } : System) = s := by
  cases s
  rfl

theorem StartupInv_step (agg : structs.HealthChecks → tl.Status) (pre : List Action)
    (s s1 : System) (a : Action) (tr : List Effect) (h : StartupInv pre s)
    (hstep : step agg s a = some (s1, tr))
    (hpos : a.positive = true)
    (hfirst1 : ∀ r, a = Action.watchServices (some r) → Actor.watchServices ∉ fetched pre)
    (hfirst2 : ∀ r, a = Action.watchNodes (some r) → Actor.watchNodes ∉ fetched pre)
    (hsvc : ∀ r, a = Action.watchServices (some r) → GoMap.WF r.Services)
    (hnodes : ∀ r, a = Action.watchNodes (some r) → (r.Nodes.map structs.Node.Node).Nodup) :
    StartupInv (pre ++ [a]) s1 := by
  cases a with
  | watchServices res =>
    cases res with
    | some r =>
      exact StartupInv_watchServices agg pre s s1 r tr h hstep (hfirst1 r rfl) (hsvc r rfl)
    | none =>
      rw [step_watchServices] at hstep
      obtain ⟨w, idx, hw, rfl⟩ := hstep
      obtain ⟨_, hn, _⟩ := watchServices_loop_some _ _ _ _ _ _ hw
      obtain ⟨rfl, rfl, _⟩ := hn rfl
      exact StartupInv_stutter pre s _ h rfl
  | watchNodes res =>
    cases res with
    | some r =>
      exact StartupInv_watchNodes agg pre s s1 r tr h hstep (hfirst2 r rfl) (hnodes r rfl)
    | none =>
      rw [step_watchNodes] at hstep
      obtain ⟨w, idx, hw, rfl⟩ := hstep
      obtain ⟨_, hn, _⟩ := watchNodes_loop_some _ _ _ _ _ _ hw
      obtain ⟨rfl, rfl, _⟩ := hn rfl
      exact StartupInv_stutter pre s _ h rfl
  | watchService name time res =>
    cases res with
    | some r =>
      exact StartupInv_watchService agg pre s s1 name time r tr h hstep
        (by simpa [Action.positive] using hpos)
    | none =>
      rw [step_watchService] at hstep
      obtain ⟨w, hw, rfl⟩ := hstep
      cases hg : GoMap.lookup s.w.services name with
      | none =>
        unfold watchService.loop at hw
        simp [hg] at hw
      | some g =>
        have hs : g.stop ≠ 1 := by
          have := (h.serviceSub name g hg).1
          omega
        rw [watchService_loop_fail s.w name time g hg hs] at hw
        simp only [Option.some.injEq, Prod.mk.injEq] at hw
        obtain ⟨rfl, _⟩ := hw
        rw [System_eta]
        exact StartupInv_stutter pre s _ h rfl
  | watchNode name time res =>
    cases res with
    | some r =>
      exact StartupInv_watchNode agg pre s s1 name time r tr h hstep
        (by simpa [Action.positive] using hpos)
    | none =>
      rw [step_watchNode] at hstep
      obtain ⟨w, hw, rfl⟩ := hstep
      cases hg : GoMap.lookup s.w.nodes name with
      | none =>
        unfold watchNode.loop at hw
        simp [hg] at hw
      | some g =>
        have hs : g.stop ≠ 1 := by
          have := (h.nodeSub name g hg).1
          omega
        have hb : g.idx = 0 ∨ s.w.readyWg = 0 := by
          by_contra hc
          push_neg at hc
          rw [watchNode_loop_held agg s.w name time g none hg
            ⟨Nat.pos_of_ne_zero hc.1, hc.2⟩] at hw
          cases hw
        rw [watchNode_loop_fail agg s.w name time g hg hs hb] at hw
        simp only [Option.some.injEq, Prod.mk.injEq] at hw
        obtain ⟨rfl, _⟩ := hw
        rw [System_eta]
        exact StartupInv_stutter pre s _ h rfl

theorem fetched_append (pre as : List Action) : fetched (pre ++ as) = fetched pre ++ fetched as := by
  unfold fetched
  rw [List.filter_append, List.map_append]

theorem fetched_cons_ok (a : Action) (as : List Action) (h : a.ok = true) :
    fetched (a :: as) = a.actor :: fetched as := by
  unfold fetched
  simp [List.filter_cons, h]

theorem not_mem_of_count_le_one (pre as : List Action) (a : Action) (h : a.ok = true)
    (hc : (fetched (pre ++ a :: as)).count a.actor ≤ 1) : a.actor ∉ fetched pre := by
  intro hmem
  rw [fetched_append, fetched_cons_ok a as h, List.count_append, List.count_cons_self] at hc
  have := List.count_pos_iff.2 hmem
  omega

theorem StartupInv_run (agg : structs.HealthChecks → tl.Status) (as : List Action) :
    ∀ (pre : List Action) (s s1 : System) (tr : List Effect), StartupInv pre s →
      run agg s as = some (s1, tr) →
      (fetched (pre ++ as)).count Actor.watchServices ≤ 1 →
      (fetched (pre ++ as)).count Actor.watchNodes ≤ 1 →
      (∀ a ∈ as, a.positive = true) →
      (∀ r, Action.watchServices (some r) ∈ as → GoMap.WF r.Services) →
      (∀ r, Action.watchNodes (some r) ∈ as → (r.Nodes.map structs.Node.Node).Nodup) →
      StartupInv (pre ++ as) s1 := by
  induction as with
  | nil =>
    intro pre s s1 tr h hrun _ _ _ _ _
    rw [run_nil] at hrun
    simp only [Option.some.injEq, Prod.mk.injEq] at hrun
    rw [List.append_nil, ← hrun.1]
    exact h
  | cons a as ih =>
    intro pre s s1 tr h hrun hc1 hc2 hpos hsvc hnodes
    rw [run_cons] at hrun
    obtain ⟨s2, tr1, tr2, h1, h2, _⟩ := hrun
    have hinv := StartupInv_step agg pre s s2 a tr1 h h1 (hpos a (List.mem_cons_self _ _))
      (fun r hr => by
        subst hr
        exact not_mem_of_count_le_one pre as (Action.watchServices (some r)) rfl hc1)
      (fun r hr => by
        subst hr
        exact not_mem_of_count_le_one pre as (Action.watchNodes (some r)) rfl hc2)
      (fun r hr => hsvc r (hr ▸ List.mem_cons_self _ _))
      (fun r hr => hnodes r (hr ▸ List.mem_cons_self _ _))
    have happ : pre ++ a :: as = (pre ++ [a]) ++ as := by simp
    rw [happ] at hc1 hc2 ⊢
    exact ih (pre ++ [a]) s2 s1 tr2 hinv h2 hc1 hc2
      (fun b hb => hpos b (List.mem_cons_of_mem _ hb))
      (fun r hr => hsvc r (List.mem_cons_of_mem _ hr))
      (fun r hr => hnodes r (List.mem_cons_of_mem _ hr))

theorem pending_eq_zero (D : List Actor) (s : System) : pending D s = 0 ↔ allFetched D s := by
  unfold pending allFetched
  rw [← countNot_eq_zero, ← countNot_eq_zero]
  by_cases h1 : Actor.watchServices ∈ D <;> by_cases h2 : Actor.watchNodes ∈ D <;>
    simp [h1, h2]

/-- C4, as the code has it: from a fresh watcher whose barrier `Run` has armed,
along any schedule in which each reconciler completes at most one successful
fetch (its first) while the sub-watchers fetch as often as they are scheduled,
every successful fetch returning a positive index, every first service list
being a map and every first node list holding each node name once, the barrier
counter is the number of goroutines of the startup that have not yet completed a
successful fetch: one for each reconciler and one for each registered
sub-watcher.  So it is zero exactly when both reconcilers and every registered
sub-watcher have completed their first successful fetch, strictly positive
before, `ready` is still false, and the registered names are the names of the
two first lists. -/
theorem startup_countdown (agg : structs.HealthChecks → tl.Status) (c : consul)
    (bufferSize : Nat) (as : List Action) (s : System) (tr : List Effect)
    (hrun : run agg (System.armed c bufferSize) as = some (s, tr))
    (hfirst : (fetched as).count Actor.watchServices ≤ 1 ∧
      (fetched as).count Actor.watchNodes ≤ 1)
    (hpos : ∀ a ∈ as, a.positive = true)
    (hsvc : ∀ r, Action.watchServices (some r) ∈ as → GoMap.WF r.Services)
    (hnodes : ∀ r, Action.watchNodes (some r) ∈ as → (r.Nodes.map structs.Node.Node).Nodup) :
    s.w.readyWg = (pending (fetched as) s : Int) ∧
    (s.w.readyWg = 0 ↔ allFetched (fetched as) s) ∧
    (¬ allFetched (fetched as) s → 0 < s.w.readyWg) ∧
    s.w.ready = false ∧
    (∀ r, Action.watchServices (some r) ∈ as →
      GoMap.keys s.w.services = GoMap.keys r.Services) ∧
    (∀ r, Action.watchNodes (some r) ∈ as →
      GoMap.keys s.w.nodes = r.Nodes.map structs.Node.Node) := by
  have h := StartupInv_run agg as [] _ s tr (StartupInv_armed c bufferSize) hrun
    (by simpa using hfirst.1) (by simpa using hfirst.2) hpos hsvc hnodes
  rw [List.nil_append] at h
  have hz : s.w.readyWg = 0 ↔ allFetched (fetched as) s := by
    rw [h.counter, ← pending_eq_zero]
    exact Int.natCast_eq_zero
  refine ⟨h.counter, hz, ?_, h.notReady, h.servicesList, h.nodesList⟩
  intro hn
  have hne : s.w.readyWg ≠ 0 := fun hc => hn (hz.1 hc)
  have hc := h.counter
  omega

/-- C4 at a concrete input: one service, one node; the service sub-watcher
fetches twice before the node list is fetched and once more at the end. -/
theorem startup_countdown_witness :
    ∃ s tr,
      run aggregatedStatus (System.armed { Datacenter := "dc1" } 0)
        [Action.watchServices (some { Services := [("web", [])], Index := 3 }),
         Action.watchService "web" 8 (some { Nodes := [], Index := 6 }),
         Action.watchService "web" 9 (some { Nodes := [], Index := 7 }),
         Action.watchNodes (some { Nodes := [{ Node := "n1", Address := "a" }], Index := 4 }),
         Action.watchNode "n1" 10 (some { HealthChecks := [], Index := 5 }),
         Action.watchService "web" 11 (some { Nodes := [], Index := 8 })] = some (s, tr) ∧
      s.w.readyWg = 0 := by
  cases h : run aggregatedStatus (System.armed { Datacenter := "dc1" } 0)
      [Action.watchServices (some { Services := [("web", [])], Index := 3 }),
       Action.watchService "web" 8 (some { Nodes := [], Index := 6 }),
       Action.watchService "web" 9 (some { Nodes := [], Index := 7 }),
       Action.watchNodes (some { Nodes := [{ Node := "n1", Address := "a" }], Index := 4 }),
       Action.watchNode "n1" 10 (some { HealthChecks := [], Index := 5 }),
       Action.watchService "web" 11 (some { Nodes := [], Index := 8 })] with
  | none => exact absurd h (by decide)
  | some p =>
    have hall := startup_countdown aggregatedStatus { Datacenter := "dc1" } 0
      [Action.watchServices (some { Services := [("web", [])], Index := 3 }),
       Action.watchService "web" 8 (some { Nodes := [], Index := 6 }),
       Action.watchService "web" 9 (some { Nodes := [], Index := 7 }),
       Action.watchNodes (some { Nodes := [{ Node := "n1", Address := "a" }], Index := 4 }),
       Action.watchNode "n1" 10 (some { HealthChecks := [], Index := 5 }),
       Action.watchService "web" 11 (some { Nodes := [], Index := 8 })] p.1 p.2 h
      (by decide) (by decide)
      (by
        intro r hr
        simp only [List.mem_cons, Action.watchServices.injEq, Option.some.injEq,
          List.mem_singleton] at hr
        rcases hr with hr | hr | hr | hr | hr | hr | hr
        · rw [hr]
          unfold GoMap.WF
          decide
        all_goals cases hr)
      (by
        intro r hr
        simp only [List.mem_cons, Action.watchNodes.injEq, Option.some.injEq,
          List.mem_singleton] at hr
        rcases hr with hr | hr | hr | hr | hr | hr | hr
        · cases hr
        · cases hr
        · cases hr
        · rw [hr]
          decide
        all_goals cases hr)
    have hk1 := hall.2.2.2.2.1 { Services := [("web", [])], Index := 3 } (by simp)
    have hk2 := hall.2.2.2.2.2 { Nodes := [{ Node := "n1", Address := "a" }], Index := 4 }
      (by simp)
    refine ⟨p.1, p.2, rfl, hall.2.1.2 ⟨by decide, by decide, ?_, ?_⟩⟩
    · rw [hk1]
      decide
    · rw [hk2]
      decide

/-- C4 fails as stated: the first service list registers `web`, whose
sub-watcher then completes two successful fetches that both return index 0; each
counts the barrier down, so the counter is at zero although `watchNodes` has not
fetched its first list: the barrier is satisfied before every startup entity has
delivered its first snapshot. -/
theorem startup_countdown_index_zero :
    (run aggregatedStatus (System.armed { Datacenter := "dc1" } 0)
      [Action.watchServices (some { Services := [("web", [])], Index := 3 }),
       Action.watchService "web" 7 (some { Nodes := [], Index := 0 }),
       Action.watchService "web" 8 (some { Nodes := [], Index := 0 })]).map
      (fun r => (r.1.w.readyWg, r.1.nodesIdx, GoMap.keys r.1.w.nodes)) = some (0, 0, []) := by
  decide

/-! ## The nodes registry in reachable states

The statements on a node sub-watcher that deregisters assume that its entry is
filed under the name of its node.  Every state the system reaches has that
property. -/

theorem nodesNamed_New (c : consul) (bufferSize : Nat) : nodesNamed (New c bufferSize) := by
  intro n g h
  cases h

theorem nodesNamed_handleNodesChanged (w : Watcher) (nodes : structs.Nodes)
    (h : nodesNamed w) : nodesNamed (handleNodesChanged w nodes) := by
  intro n g hg
  rw [lookup_handleNodesChanged] at hg
  by_cases hn : n ∈ nodes.map structs.Node.Node
  · rw [if_pos hn] at hg
    cases hl : GoMap.lookup w.nodes n with
    | some g0 =>
      rw [hl] at hg
      simp only [reviveNode, Option.some.injEq] at hg
      rw [← hg]
      exact h n g0 hl
    | none =>
      rw [hl] at hg
      cases hl2 : GoMap.lookup (nodesNew nodes) n with
      | none =>
        rw [hl2] at hg
        cases hg
      | some nd =>
        rw [hl2] at hg
        simp only [reviveNode, Option.map_some', Option.some.injEq] at hg
        rw [← hg]
        exact lookup_nodesNew_named nodes n nd hl2
  · rw [if_neg hn] at hg
    cases hl : GoMap.lookup w.nodes n with
    | none =>
      rw [hl] at hg
      cases hg
    | some g0 =>
      rw [hl] at hg
      simp only [Option.map_some', Option.some.injEq] at hg
      rw [← hg]
      exact h n g0 hl

theorem nodesNamed_of_nodes_eq (w w1 : Watcher) (h : nodesNamed w) (he : w1.nodes = w.nodes) :
    nodesNamed w1 := by
  intro n g hg
  rw [he] at hg
  exact h n g hg

theorem nodesNamed_watchNode_loop (agg : structs.HealthChecks → tl.Status) (w w1 : Watcher)
    (name : String) (time : Nat) (res : Option structs.IndexedHealthChecks) (tr : List Effect)
    (h : nodesNamed w) (hstep : watchNode.loop agg w name time res = some (w1, tr)) :
    nodesNamed w1 := by
  cases hg : GoMap.lookup w.nodes name with
  | none =>
    unfold watchNode.loop at hstep
    simp [hg] at hstep
  | some g =>
    have hb : g.idx = 0 ∨ w.readyWg = 0 := by
      by_contra hc
      push_neg at hc
      rw [watchNode_loop_held agg w name time g res hg ⟨Nat.pos_of_ne_zero hc.1, hc.2⟩] at hstep
      cases hstep
    by_cases hs : g.stop = 1
    · rw [watchNode_loop_stop agg w name time g res hg hs hb] at hstep
      simp only [Option.some.injEq, Prod.mk.injEq] at hstep
      rw [← hstep.1]
      intro n g1 hg1
      change GoMap.lookup (GoMap.delete w.nodes g.node.Node) n = some g1 at hg1
      by_cases hn : n = g.node.Node
      · rw [hn, GoMap.lookup_delete_self] at hg1
        cases hg1
      · rw [GoMap.lookup_delete_ne _ _ _ hn] at hg1
        exact h n g1 hg1
    · cases res with
      | none =>
        rw [watchNode_loop_fail agg w name time g hg hs hb] at hstep
        simp only [Option.some.injEq, Prod.mk.injEq] at hstep
        rw [← hstep.1]
        exact h
      | some r =>
        obtain ⟨w2, tr2, e1, e2, _⟩ := watchNode_loop_ok agg w name time g r hg hs hb
        rw [e1] at hstep
        simp only [Option.some.injEq, Prod.mk.injEq] at hstep
        rw [← hstep.1]
        intro n g1 hg1
        rw [e2] at hg1
        by_cases hn : n = name
        · subst hn
          rw [GoMap.lookup_store_self] at hg1
          simp only [Option.some.injEq] at hg1
          rw [← hg1]
          exact h n g hg
        · rw [GoMap.lookup_store_ne _ _ _ _ hn] at hg1
          exact h n g1 hg1

theorem watchService_loop_nodes (w w1 : Watcher) (name : String) (time : Nat)
    (res : Option structs.IndexedCheckServiceNodes) (tr : List Effect)
    (hstep : watchService.loop w name time res = some (w1, tr)) : w1.nodes = w.nodes := by
  cases hg : GoMap.lookup w.services name with
  | none =>
    unfold watchService.loop at hstep
    simp [hg] at hstep
  | some g =>
    by_cases hs : g.stop = 1
    · rw [watchService_loop_stop w name time g res hg hs] at hstep
      simp only [Option.some.injEq, Prod.mk.injEq] at hstep
      rw [← hstep.1]
    · cases res with
      | none =>
        rw [watchService_loop_fail w name time g hg hs] at hstep
        simp only [Option.some.injEq, Prod.mk.injEq] at hstep
        rw [← hstep.1]
      | some r =>
        obtain ⟨w2, tr2, e1, _, e3, _⟩ := watchService_loop_ok w name time g r hg hs
        rw [e1] at hstep
        simp only [Option.some.injEq, Prod.mk.injEq] at hstep
        rw [← hstep.1]
        exact e3

theorem nodesNamed_step (agg : structs.HealthChecks → tl.Status) (s s1 : System) (a : Action)
    (tr : List Effect) (h : nodesNamed s.w) (hstep : step agg s a = some (s1, tr)) :
    nodesNamed s1.w := by
  cases a with
  | watchServices res =>
    rw [step_watchServices] at hstep
    obtain ⟨w, idx, hw, rfl⟩ := hstep
    obtain ⟨_, hn, hsome⟩ := watchServices_loop_some _ _ _ _ _ _ hw
    cases res with
    | none =>
      obtain ⟨rfl, _⟩ := hn rfl
      exact h
    | some r =>
      obtain ⟨_, e2, _⟩ := hsome r rfl
      apply nodesNamed_of_nodes_eq s.w w h
      rw [e2, (sameButServices_handleServicesChanged _ _).2.1]
      split <;> rfl
  | watchNodes res =>
    rw [step_watchNodes] at hstep
    obtain ⟨w, idx, hw, rfl⟩ := hstep
    obtain ⟨_, hn, hsome⟩ := watchNodes_loop_some _ _ _ _ _ _ hw
    cases res with
    | none =>
      obtain ⟨rfl, _⟩ := hn rfl
      exact h
    | some r =>
      obtain ⟨_, e2, _⟩ := hsome r rfl
      show nodesNamed w
      rw [e2]
      apply nodesNamed_handleNodesChanged
      split
      · exact nodesNamed_of_nodes_eq s.w _ h rfl
      · exact h
  | watchService name time res =>
    rw [step_watchService] at hstep
    obtain ⟨w, hw, rfl⟩ := hstep
    exact nodesNamed_of_nodes_eq s.w w h (watchService_loop_nodes _ _ _ _ _ _ hw)
  | watchNode name time res =>
    rw [step_watchNode] at hstep
    obtain ⟨w, hw, rfl⟩ := hstep
    exact nodesNamed_watchNode_loop agg s.w w name time res tr h hw

/-- Along every schedule from the armed system the nodes registry files every
entry under the name of its node. -/
theorem nodesNamed_run (agg : structs.HealthChecks → tl.Status) (as : List Action) :
    ∀ (s s1 : System) (tr : List Effect), nodesNamed s.w → run agg s as = some (s1, tr) →
      nodesNamed s1.w := by
  induction as with
  | nil =>
    intro s s1 tr h hrun
    rw [run_nil] at hrun
    simp only [Option.some.injEq, Prod.mk.injEq] at hrun
    rw [← hrun.1]
    exact h
  | cons a as ih =>
    intro s s1 tr h hrun
    rw [run_cons] at hrun
    obtain ⟨s2, tr1, tr2, h1, h2, _⟩ := hrun
    exact ih s2 s1 tr2 (nodesNamed_step agg s s2 a tr1 h h1) h2

end watch
